import Mathlib

/-!
Verification development for the prediction-game repository.

The Python sources are shallowly embedded: Django model rows become Lean
structures, datetimes become integers (an absolute minute count), the
relational store becomes lists of rows keyed by the unique columns the
code queries on, and raw feed JSON records become structures with
optional fields (a missing key, a JSON null and a value of the wrong
runtime type collapse to none exactly when the code treats them alike).
Fallible code returns an Except value. Functions keep the names of the
Python functions they embed, minus a leading underscore where the source
uses one.
-/

namespace PredictionGame

/-! ### Stored rows (matches/models.py, tips/models.py, leaderboard/models.py) -/

/-- Row of tips.models.Tip restricted to the fields the scoring engine reads. -/
structure TipRow where
  home_goals_predicted : Int
  away_goals_predicted : Int
  deriving DecidableEq, Repr

/-- Row of matches.models.MatchResult: the current score of one match, keyed by
the match it belongs to (modelled by the external match id, which is unique per
match). The model defines exactly two goal columns, home_goals and away_goals.
The importer's _upsert_match_result instead reads and writes columns named
home_goals_ft and away_goals_ft, which do not exist on this model; that
mismatch is a bug of the source, and the embedding of _upsert_match_result
models it as the exception Django raises on that path. -/
structure MatchResultRow where
  matchExtId : Int
  home_goals : Option Int
  away_goals : Option Int
  deriving DecidableEq, Repr

/-- Row of matches.models.Matchday, scoped to one season: order_id is the
ordinal unique in that season. first_goal_match holds the external id of the
referenced match. -/
structure MatchdayRow where
  order_id : Int
  name : String
  deadline_at : Int
  openligadb_last_changed_at : Option Int
  first_goal_at : Option Int
  first_goal_match : Option Int
  first_goal_minute : Option Int
  deriving DecidableEq, Repr

/-- Row of matches.models.Team, keyed by the unique external team id. -/
structure TeamRow where
  openligadb_team_id : Int
  name : String
  short_name : String
  icon_url : String
  deriving DecidableEq, Repr

/-- Row of matches.models.Match, keyed by the unique external match id; the
matchday foreign key is modelled by the matchday ordinal within the season
under import, and the two team foreign keys by external team ids. -/
structure MatchRow where
  openligadb_match_id : Int
  matchdayOrder : Int
  kickoff_at : Int
  home_team_id : Int
  away_team_id : Int
  is_finished : Bool
  deriving DecidableEq, Repr

/-- Row of leaderboard.models.SeasonLeaderboardEntry. computed_at is the
auto_now timestamp, written on row creation and on a full save but not by
bulk_update of the two point columns. -/
structure SeasonLeaderboardEntryRow where
  seasonId : Int
  userId : Int
  tips_points : Int
  bonus_points : Int
  computed_at : Int
  deriving DecidableEq, Repr

/-! ### Raw feed records (matches/importer.py reads these JSON shapes) -/

/-- Raw entry of the goals array of a feed match record. A field holds none
when the key is absent, null, or not of the runtime type the code checks for
with isinstance, all of which the code treats alike. -/
structure GoalJson where
  scoreTeam1 : Option Int
  scoreTeam2 : Option Int
  matchMinute : Option Int
  deriving DecidableEq, Repr

/-- Raw entry of the matchResults array of a feed match record. -/
structure ResultJson where
  resultName : Option String
  pointsTeam1 : Option Int
  pointsTeam2 : Option Int
  resultOrderID : Option Int
  deriving DecidableEq, Repr

/-- Raw team1 or team2 object of a feed match record. -/
structure TeamJson where
  teamId : Option Int
  teamName : Option String
  shortName : Option String
  teamIconUrl : Option String
  deriving DecidableEq, Repr

/-- Raw group object of the available-groups feed list; the code reads
groupOrderID and falls back to groupOrderId through a Python or, so both
spellings are modelled. -/
structure GroupJson where
  groupOrderID : Option Int
  groupOrderId : Option Int
  groupName : Option String
  deriving DecidableEq, Repr

/-- Reading the matchDateTime field of a raw match record has three outcomes:
the field is absent, null, not a string or only whitespace (the required-field
check raises KeyError), or it is a string parse_datetime cannot parse (raises
ValueError), or it parses; a parsed timestamp is modelled as an absolute
minute count. The first two outcomes are distinguished because
_compute_earliest_kickoffs catches KeyError but not ValueError. -/
inductive DateField where
  | missing
  | malformed
  | val (t : Int)
  deriving DecidableEq, Repr

/-- Raw feed match record with the fields the importer reads. The group field
is none when the group key is absent or not an object, some none when the
object lacks an integer groupOrderID, and some (some gid) otherwise. List
entries that are not objects are the none elements of goals and matchResults.
matchIsFinished is the result of the matchIsFinished-is-True test. -/
structure MatchJson where
  matchID : Option Int
  group : Option (Option Int)
  matchDateTime : DateField
  matchIsFinished : Bool
  team1 : Option TeamJson
  team2 : Option TeamJson
  goals : List (Option GoalJson)
  matchResults : List (Option ResultJson)
  leagueName : Option String
  deriving DecidableEq, Repr

/-! ### Score extraction (matches/importer.py, _extract_current_score) -/

/-- Mirrors the final-or-end label test of _extract_current_score: a
substring match of the tokens end, ende and final against the normalized
resultName, given as a character list. -/
def isFinalName (name : List Char) : Bool :=
  decide ("end".toList <:+: name) || decide ("ende".toList <:+: name)
    || decide ("final".toList <:+: name)

/-- Normalized resultName as the code computes it with strip and lower:
default empty, whitespace stripped from both ends, lowercased; modelled on
the character list of the string. -/
def resultNameNorm (r : ResultJson) : List Char :=
  (((r.resultName.getD "").toList.dropWhile (·.isWhitespace)).reverse.dropWhile
    (·.isWhitespace)).reverse.map Char.toLower

/-- Ordering value of a result entry as the code computes it: the
resultOrderID when it is an integer, else -1. -/
def oidKey (r : ResultJson) : Int :=
  r.resultOrderID.getD (-1)

/-- Mirrors the finals list built by _extract_current_score: result entries
that are objects, carry a final-or-end label and two integer point values,
reduced to (pointsTeam1, pointsTeam2, ordering value). -/
def finalsOf (results : List (Option ResultJson)) : List (Int × Int × Int) :=
  results.filterMap fun r? =>
    match r? with
    | none => none
    | some r =>
      if isFinalName (resultNameNorm r) then
        match r.pointsTeam1, r.pointsTeam2 with
        | some h, some a => some (h, a, oidKey r)
        | _, _ => none
      else none

/-- Comparison used to sort the finals list: by the ordering value. -/
def finalKeyLe (x y : Int × Int × Int) : Prop :=
  x.2.2 ≤ y.2.2

instance : DecidableRel finalKeyLe := fun x y => by
  unfold finalKeyLe
  exact inferInstance

instance : IsTotal (Int × Int × Int) finalKeyLe := by
  constructor
  intro a b
  unfold finalKeyLe
  omega

instance : IsTrans (Int × Int × Int) finalKeyLe := by
  constructor
  intro a b c
  unfold finalKeyLe
  omega

/-- One step of the best-result scan of _extract_current_score: a result
entry replaces the best seen so far when its ordering value is at least the
best ordering value seen so far. -/
def bestResultStep (acc : Int × Option ResultJson) (r? : Option ResultJson) :
    Int × Option ResultJson :=
  match r? with
  | none => acc
  | some r =>
    if oidKey r ≥ acc.1 then (oidKey r, some r) else acc

/-- Mirrors the best-result scan of _extract_current_score: fold over the
result entries, starting from ordering value -1 and no entry. -/
def bestResult (results : List (Option ResultJson)) : Option ResultJson :=
  (results.foldl bestResultStep ((-1 : Int), none)).2

/-- Mirrors the goals step of _extract_current_score: the running score after
the last goal event, when the goals list is non-empty, its last element is an
object and both scoreTeam1 and scoreTeam2 are integers; no score otherwise. -/
def scoreFromGoals (goals : List (Option GoalJson)) : Option (Int × Int) :=
  match goals.getLast? with
  | some (some last) =>
    match last.scoreTeam1, last.scoreTeam2 with
    | some h, some a => some (h, a)
    | _, _ => none
  | _ => none

/-- Mirrors the matchResults steps of _extract_current_score: an empty entry
list means no score; else among final-labelled entries carrying both point
values, the one with the highest ordering value (Python sorts the list stably
by ordering value and takes the last element, so latest in feed order wins
ties); else the best-result scan, whose selected entry yields a score only
when both point values are integers. -/
def resultsScore (results : List (Option ResultJson)) : Option (Int × Int) :=
  if results.isEmpty then none
  else
    match (List.insertionSort finalKeyLe (finalsOf results)).getLast? with
    | some (h, a, _) => some (h, a)
    | none =>
      match bestResult results with
      | none => none
      | some best =>
        match best.pointsTeam1, best.pointsTeam2 with
        | some h, some a => some (h, a)
        | _, _ => none

/-- Mirrors matches.importer._extract_current_score: the goals step, then the
matchResults steps. -/
def extract_current_score (m : MatchJson) : Option (Int × Int) :=
  match scoreFromGoals m.goals with
  | some s => some s
  | none => resultsScore m.matchResults

/-- Latest element of a list maximizing a key: later elements win ties, as
both a stable sort followed by taking the last element and the best-result
scan of the code produce. -/
def lastMaxBy {α : Type} (key : α → Int) : List α → Option α
  | [] => none
  | x :: l =>
    match lastMaxBy key l with
    | none => some x
    | some b => if key b ≥ key x then some b else some x

/-- Statement of claim C4 in its own words, reading the precedence so that a
step applies as soon as its precondition holds: (1) a non-empty goal-event
list always concludes the search, yielding the running score after the last
event or, when that event lacks a numeric value, no score; (2) else, when any
result entry carries a final-or-end label, the highest-ordering such entry is
selected; (3) else the highest-ordering result entry, latest in the list on
ties, is selected; (4) a selected entry without both numeric values means no
score. Written from the spec text, to be compared with
extract_current_score. -/
def extract_current_score_claimed (m : MatchJson) : Option (Int × Int) :=
  if m.goals ≠ [] then
    scoreFromGoals m.goals
  else
    let entries := m.matchResults.filterMap id
    let finalLabelled := entries.filter fun r => isFinalName (resultNameNorm r)
    if finalLabelled ≠ [] then
      match lastMaxBy oidKey finalLabelled with
      | some r =>
        match r.pointsTeam1, r.pointsTeam2 with
        | some h, some a => some (h, a)
        | _, _ => none
      | none => none
    else
      match lastMaxBy oidKey entries with
      | some r =>
        match r.pointsTeam1, r.pointsTeam2 with
        | some h, some a => some (h, a)
        | _, _ => none
      | none => none

/-- Amendment of claim C4 on the result-entry steps, changed where the
counterexamples force it: step (2) considers only final-or-end-labelled
entries that carry both numeric values, picking the highest ordering value,
latest in the list on ties; step (3) picks, among entries whose ordering
value (missing treated as -1) is at least -1, the one with the highest
ordering value, latest on ties; step (4) remains: a selected entry without
both numeric values means no score. -/
def amendedResultsScore (results : List (Option ResultJson)) : Option (Int × Int) :=
  match lastMaxBy oidKey ((results.filterMap id).filter fun r =>
      isFinalName (resultNameNorm r) && r.pointsTeam1.isSome && r.pointsTeam2.isSome) with
  | some r =>
    match r.pointsTeam1, r.pointsTeam2 with
    | some h, some a => some (h, a)
    | _, _ => none
  | none =>
    match lastMaxBy oidKey ((results.filterMap id).filter fun r => oidKey r ≥ -1) with
    | some r =>
      match r.pointsTeam1, r.pointsTeam2 with
      | some h, some a => some (h, a)
      | _, _ => none
    | none => none

/-- Amended claim C4 as one function: the goals step applies only when the
last goal event carries both numeric values, and the result-entry steps are
those of amendedResultsScore. -/
def extract_current_score_amended (m : MatchJson) : Option (Int × Int) :=
  match scoreFromGoals m.goals with
  | some s => some s
  | none => amendedResultsScore m.matchResults

/-! ### First-goal extraction (matches/importer.py) -/

/-- Mirrors matches.importer._extract_first_goal_minute_for_match: the minute
of the first goal event carrying an integer minute in the range 0 to 130;
events without one, with one out of range, or that are not objects are
skipped. -/
def extract_first_goal_minute_for_match (m : MatchJson) : Option Int :=
  m.goals.findSome? fun g? =>
    match g? with
    | none => none
    | some g =>
      match g.matchMinute with
      | some minute => if 0 ≤ minute ∧ minute ≤ 130 then some minute else none
      | none => none

/-- Statement of the per-match half of claim C5 in its own words: the minute
of the first event in the event list whose minute value lies in the range 0
to 130. Written from the spec text, to be compared with
extract_first_goal_minute_for_match. -/
def first_goal_minute_claimed (m : MatchJson) : Option Int :=
  ((m.goals.filterMap fun g? => g?.bind fun g => g.matchMinute).filter
    fun v => 0 ≤ v ∧ v ≤ 130).head?

/-- One step of the scan of _compute_matchday_first_goal over the imported
(match row, raw record) pairs: the chronologically first goal so far, where
absolute time is approximated as kickoff plus goal minute and the earliest
pair wins ties. -/
def firstGoalFoldStep (best : Option (Int × MatchRow × Int))
    (r : MatchRow × MatchJson) : Option (Int × MatchRow × Int) :=
  match extract_first_goal_minute_for_match r.2 with
  | none => best
  | some minute =>
    let goal_at := r.1.kickoff_at + minute
    match best with
    | none => some (goal_at, r.1, minute)
    | some b => if goal_at < b.1 then some (goal_at, r.1, minute) else best

/-- Mirrors matches.importer._compute_matchday_first_goal, continued: write
the three derived columns from the best candidate, or clear all three when no
match has a first goal; the row is saved only when a column actually changes,
which leaves the resulting values the same either way. -/
def compute_matchday_first_goal (matchday_obj : MatchdayRow)
    (match_rows : List (MatchRow × MatchJson)) : MatchdayRow :=
  match match_rows.foldl firstGoalFoldStep none with
  | none =>
    if matchday_obj.first_goal_at ≠ none ∨ matchday_obj.first_goal_match ≠ none
        ∨ matchday_obj.first_goal_minute ≠ none then
      { matchday_obj with
          first_goal_at := none,
          first_goal_match := none,
          first_goal_minute := none }
    else matchday_obj
  | some (goal_at, mr, minute) =>
    if matchday_obj.first_goal_at ≠ some goal_at
        ∨ matchday_obj.first_goal_match ≠ some mr.openligadb_match_id
        ∨ matchday_obj.first_goal_minute ≠ some minute then
      { matchday_obj with
          first_goal_at := some goal_at,
          first_goal_match := some mr.openligadb_match_id,
          first_goal_minute := some minute }
    else matchday_obj

/-- First-goal candidates of a matchday in the words of claim C5: per
imported match with a first-goal minute, the triple of kickoff plus minute,
the match, and the minute. -/
def firstGoalCandidates (match_rows : List (MatchRow × MatchJson)) :
    List (Int × MatchRow × Int) :=
  match_rows.filterMap fun r =>
    (extract_first_goal_minute_for_match r.2).map fun minute =>
      (r.1.kickoff_at + minute, r.1, minute)

/-! ### Scoring engine (leaderboard/scoring.py) -/

def EXACT_SCORE_POINTS : Int := 5

def TENDENCY_POINTS : Int := 2

def FIRST_GOAL_MINUTE_POINTS : Int := 3

/-- Mirrors leaderboard.scoring._tendency: the sign of the goal difference. -/
def tendency (home away : Int) : Int :=
  let diff := home - away
  if diff > 0 then 1
  else if diff < 0 then -1
  else 0

/-- Mirrors leaderboard.scoring.score_tip. The Python function receives the
match and reads match.result, which is None when no MatchResult row exists;
here that lookup result is passed directly as an Option. -/
def score_tip (tip : TipRow) (result : Option MatchResultRow) : Int :=
  match result with
  | none => 0
  | some result =>
    match result.home_goals, result.away_goals with
    | some actual_home, some actual_away =>
      if tip.home_goals_predicted = actual_home ∧ tip.away_goals_predicted = actual_away then
        EXACT_SCORE_POINTS
      else if tendency tip.home_goals_predicted tip.away_goals_predicted
          = tendency actual_home actual_away then
        TENDENCY_POINTS
      else 0
    | _, _ => 0

/-- Mirrors leaderboard.scoring.score_matchday_bonus; the second argument is
the first_goal_minute column of the bonus tips matchday. -/
def score_matchday_bonus (first_goal_minute_predicted : Int)
    (matchday_first_goal_minute : Option Int) : Int :=
  match matchday_first_goal_minute with
  | none => 0
  | some m =>
    if first_goal_minute_predicted = m then FIRST_GOAL_MINUTE_POINTS else 0

/-- Statement of claim C1 in its own words: 0 without a result or with an
unknown goal count, 5 on an exact match, else 2 exactly when the sign of the
predicted goal difference equals the sign of the actual one, else 0. Written
from the spec text, to be compared with score_tip. -/
def score_tip_claimed (tip : TipRow) (result : Option MatchResultRow) : Int :=
  match result with
  | none => 0
  | some r =>
    match r.home_goals, r.away_goals with
    | some ah, some aa =>
      if tip.home_goals_predicted = ah ∧ tip.away_goals_predicted = aa then 5
      else if (tip.home_goals_predicted - tip.away_goals_predicted).sign = (ah - aa).sign then 2
      else 0
    | _, _ => 0

/-! ### Tip upsert validation (tips/services.py, matches/models.py) -/

/-- Mirrors matches.models.Matchday.is_open_for_tipping. -/
def is_open_for_tipping (deadline_at now : Int) : Bool :=
  now ≤ deadline_at

/-- Mirrors tips.services._validate_tip_input; hasUser and hasMatch stand for
the user and match arguments being non-None. -/
def validate_tip_input (hasUser hasMatch : Bool) (home away : Int)
    (now deadline_at : Int) : Except String Unit :=
  if !hasUser then .error "User is required to create a tip."
  else if !hasMatch then .error "Match is required to create a tip."
  else if home < 0 ∨ away < 0 then .error "Predicted goals must be non-negative integers."
  else if now > deadline_at then .error "Deadline passed: tip can no longer be created or changed."
  else .ok ()

/-- Stored tips.models.Tip row keyed by the unique (user, match) pair. -/
structure TipStoredRow where
  userId : Int
  matchExtId : Int
  home_goals_predicted : Int
  away_goals_predicted : Int
  deriving DecidableEq, Repr

/-- Mirrors tips.services.upsert_tip over the stored tip table: validation,
no-op detection for identical resubmission, then update_or_create keyed by
(user, match). Returns the new table plus the created and updated flags. -/
def upsert_tip (tips : List TipStoredRow) (hasUser hasMatch : Bool)
    (userId matchExtId : Int) (home_goals_predicted away_goals_predicted : Int)
    (now deadline_at : Int) : Except String (List TipStoredRow × Bool × Bool) :=
  match validate_tip_input hasUser hasMatch home_goals_predicted away_goals_predicted
      now deadline_at with
  | .error e => .error e
  | .ok _ =>
    match tips.find? fun t => t.userId == userId && t.matchExtId == matchExtId with
    | some t =>
      if t.home_goals_predicted = home_goals_predicted
          ∧ t.away_goals_predicted = away_goals_predicted then
        .ok (tips, false, false)
      else
        .ok (tips.map fun u =>
          if u.userId == userId && u.matchExtId == matchExtId then
            { u with home_goals_predicted := home_goals_predicted,
                     away_goals_predicted := away_goals_predicted }
          else u, false, true)
    | none =>
      .ok (tips ++ [⟨userId, matchExtId, home_goals_predicted, away_goals_predicted⟩],
        true, false)

/-! ### Leaderboard read path (leaderboard/services.py) -/

/-- Output row of compute_leaderboard_for_season; the display name column is
presentation data resolved from the user account and is not modelled. -/
structure LeaderboardRow where
  user_id : Int
  points : Int
  tips_points : Int
  bonus_points : Int
  deriving DecidableEq, Repr

/-- Ordering used by compute_leaderboard_for_season: ORDER BY total points
descending, tips_points descending, user id ascending. -/
def entryLe (a b : SeasonLeaderboardEntryRow) : Prop :=
  a.tips_points + a.bonus_points > b.tips_points + b.bonus_points
  ∨ (a.tips_points + a.bonus_points = b.tips_points + b.bonus_points
      ∧ (a.tips_points > b.tips_points
          ∨ (a.tips_points = b.tips_points ∧ a.userId ≤ b.userId)))

instance : DecidableRel entryLe := fun a b => by
  unfold entryLe
  exact inferInstance

instance : IsTotal SeasonLeaderboardEntryRow entryLe := by
  constructor
  intro a b
  unfold entryLe
  omega

instance : IsTrans SeasonLeaderboardEntryRow entryLe := by
  constructor
  intro a b c
  unfold entryLe
  omega

/-- Projection of a stored entry to the row the read path returns, with
points the derived total. -/
def toLeaderboardRow (e : SeasonLeaderboardEntryRow) : LeaderboardRow :=
  ⟨e.userId, e.tips_points + e.bonus_points, e.tips_points, e.bonus_points⟩

/-- Mirrors leaderboard.services.compute_leaderboard_for_season: filter the
entry table to the season, order by total descending then tips_points
descending then user id ascending, and project each entry to its output row.
The SQL ORDER BY is modelled by insertion sort under entryLe; on entry lists
whose user ids are distinct the ordering relation is antisymmetric, so any
correct sort returns this same list. -/
def compute_leaderboard_for_season (seasonId : Int)
    (entries : List SeasonLeaderboardEntryRow) : List LeaderboardRow :=
  (List.insertionSort entryLe (entries.filter fun e => e.seasonId == seasonId)).map
    toLeaderboardRow

/-- Strict version of the leaderboard ordering on output rows: a is ranked
strictly before b. -/
def rowBefore (a b : LeaderboardRow) : Prop :=
  a.points > b.points
  ∨ (a.points = b.points ∧ a.tips_points > b.tips_points)
  ∨ (a.points = b.points ∧ a.tips_points = b.tips_points ∧ a.user_id < b.user_id)

/-! ### Leaderboard recompute (leaderboard/services.py) -/

/-- One stored tip joined with the result of its match, as the recompute
fetches it: the tip owner, the prediction, and match.result. -/
structure ScoredTip where
  userId : Int
  tip : TipRow
  result : Option MatchResultRow
  deriving DecidableEq, Repr

/-- One stored bonus tip joined with its matchday, as the recompute fetches
it: the owner, the predicted minute, and the matchday first_goal_minute. -/
structure ScoredBonusTip where
  userId : Int
  first_goal_minute_predicted : Int
  matchday_first_goal_minute : Option Int
  deriving DecidableEq, Repr

/-- Mirrors the Python dict update d of uid mapping to d.get(uid, 0) + pts:
first write of a key appends it, later writes update in place. -/
def bumpPoints (m : List (Int × Int)) (uid pts : Int) : List (Int × Int) :=
  match m.find? fun p => p.1 == uid with
  | some _ => m.map fun p => if p.1 == uid then (p.1, p.2 + pts) else p
  | none => m ++ [(uid, pts)]

/-- Lookup in the points dict with default 0, mirroring dict.get(uid, 0). -/
def pointsOf (m : List (Int × Int)) (uid : Int) : Int :=
  match m.find? fun p => p.1 == uid with
  | some p => p.2
  | none => 0

/-- Mirrors building the user_ids set; Python set iteration order is
unspecified, the model fixes first-insertion order, on which no verified
property depends. -/
def insertUniq (l : List Int) (x : Int) : List Int :=
  if l.contains x then l else l ++ [x]

/-- One step of the reconcile loop of recompute_leaderboard_for_season: for
one scored user id, either queue a fresh entry row for creation or queue an
update of an existing row whose stored subtotals differ. -/
def reconcileStep (seasonId now : Int)
    (tips_points_by_user bonus_points_by_user : List (Int × Int))
    (entries : List SeasonLeaderboardEntryRow)
    (acc : List SeasonLeaderboardEntryRow × List SeasonLeaderboardEntryRow)
    (uid : Int) : List SeasonLeaderboardEntryRow × List SeasonLeaderboardEntryRow :=
  let t_pts := pointsOf tips_points_by_user uid
  let b_pts := pointsOf bonus_points_by_user uid
  match entries.find? (fun e => e.seasonId == seasonId && e.userId == uid) with
  | none => (acc.1 ++ [⟨seasonId, uid, t_pts, b_pts, now⟩], acc.2)
  | some e =>
    if e.tips_points ≠ t_pts ∨ e.bonus_points ≠ b_pts then
      (acc.1, acc.2 ++ [{ e with tips_points := t_pts, bonus_points := b_pts }])
    else acc

/-- Application of the queued bulk_update rows to the entry table: each row to
update replaces the stored row with its (season, user) key; only the two point
columns differ from the replaced row. -/
def applyEntryUpdates (to_update entries : List SeasonLeaderboardEntryRow) :
    List SeasonLeaderboardEntryRow :=
  entries.map fun e =>
    match to_update.find? (fun u => u.seasonId == e.seasonId && u.userId == e.userId) with
    | some u => u
    | none => e

/-- Mirrors leaderboard.services.recompute_leaderboard_for_season: score every
tip and bonus tip of the season, group points by user, drop users whose
account no longer exists, then reconcile against the stored entry rows of the
season: create a row per scored user without one (computed_at set now by
auto_now), overwrite the two point columns of rows whose stored subtotals
differ (bulk_update touches only those two columns), and leave matching rows
alone. Returns the entry table and the created-plus-updated count. -/
def recompute_leaderboard_for_season (seasonId : Int) (now : Int)
    (userExists : Int → Bool)
    (tips : List ScoredTip) (bonus_tips : List ScoredBonusTip)
    (entries : List SeasonLeaderboardEntryRow) :
    List SeasonLeaderboardEntryRow × Nat :=
  let tips_points_by_user :=
    tips.foldl (fun m t => bumpPoints m t.userId (score_tip t.tip t.result)) []
  let bonus_points_by_user :=
    bonus_tips.foldl (fun m b =>
      bumpPoints m b.userId
        (score_matchday_bonus b.first_goal_minute_predicted b.matchday_first_goal_minute)) []
  let user_ids :=
    (tips.map (·.userId) ++ bonus_tips.map (·.userId)).foldl insertUniq []
  if user_ids.isEmpty then (entries, 0)
  else
    let existing_user_ids := user_ids.filter userExists
    if existing_user_ids.isEmpty then (entries, 0)
    else
      let plan := existing_user_ids.foldl
        (reconcileStep seasonId now tips_points_by_user bonus_points_by_user entries)
        ([], [])
      (applyEntryUpdates plan.2 entries ++ plan.1, plan.1.length + plan.2.length)

/-! ### Local store and feed (matches/importer.py) -/

/-- Local store scoped to one (league shortcut, season year) pair, the unit
both importer entry points operate on. league holds the name column of the
league row when that row exists, seasonExists whether the season row exists.
Teams, matches and results are tables keyed by their unique external ids;
matchdays are the rows of this season, keyed by order_id. -/
structure DB where
  league : Option String
  seasonExists : Bool
  matchdays : List MatchdayRow
  teams : List TeamRow
  matchTable : List MatchRow
  results : List MatchResultRow
  deriving DecidableEq, Repr

/-- Feed as the importer consumes it: the already-fetched season match list
and group list of the client, and, per matchday ordinal, the last-changed
lookup (an error covers both a failed fetch and an unparsable timestamp, both
of which the code collects into its error list) and the matchday match-list
fetch. -/
structure Feed where
  seasonMatches : List (Option MatchJson)
  groups : List (Option GroupJson)
  lastChanged : Int → Except String Int
  matchdayMatches : Int → Except String (List (Option MatchJson))

/-- Row lookup in a table by an integer key column, the shape of every
objects.filter(unique_key=k).first() access of the code. -/
def rowOf {β : Type} (key : β → Int) (l : List β) (k : Int) : Option β :=
  l.find? fun x => key x == k

def teamRowOf (db : DB) (tid : Int) : Option TeamRow :=
  rowOf (fun t => t.openligadb_team_id) db.teams tid

def mdRowOf (db : DB) (o : Int) : Option MatchdayRow :=
  rowOf (fun m => m.order_id) db.matchdays o

def matchRowOf (db : DB) (mid : Int) : Option MatchRow :=
  rowOf (fun m => m.openligadb_match_id) db.matchTable mid

def resultRowOf (db : DB) (mid : Int) : Option MatchResultRow :=
  rowOf (fun r => r.matchExtId) db.results mid

/-- Mirrors matches.importer.ImportSummary restricted to its counters. -/
structure ImportSummary where
  groups_total : Nat := 0
  groups_with_matches : Nat := 0
  matches_total : Nat := 0
  teams_created : Nat := 0
  teams_updated : Nat := 0
  matches_created : Nat := 0
  matches_updated : Nat := 0
  results_created : Nat := 0
  results_updated : Nat := 0
  groups_imported : Nat := 0
  deriving DecidableEq, Repr

/-- Mirrors matches.importer._match_id through _require_int. -/
def matchIdOf (m : MatchJson) : Except String Int :=
  match m.matchID with
  | some v => .ok v
  | none => .error "Missing matchID in match JSON"

/-- Mirrors matches.importer._group_order_id: KeyError when the group object
is absent or its groupOrderID is not an integer. -/
def groupOrderIdOf (m : MatchJson) : Except String Int :=
  match m.group with
  | some (some v) => .ok v
  | _ => .error "Missing group or groupOrderID"

/-- Error kinds of _kickoff_at: the required-string check raises KeyError,
the datetime parse raises ValueError. _compute_earliest_kickoffs catches only
the former. -/
inductive KickoffErr where
  | keyErr
  | valueErr
  deriving DecidableEq, Repr

/-- Mirrors matches.importer._kickoff_at. -/
def kickoffAtOf (m : MatchJson) : Except KickoffErr Int :=
  match m.matchDateTime with
  | .val t => .ok t
  | .missing => .error .keyErr
  | .malformed => .error .valueErr

/-- Python strip of a string, on the character-list representation. -/
def pyStrip (s : String) : String :=
  String.mk (((s.toList.dropWhile (·.isWhitespace)).reverse.dropWhile
    (·.isWhitespace)).reverse)

/-- Mirrors matches.importer._extract_team_fields: integer teamId required,
the three soft fields default to the empty string and are stripped. -/
def extract_team_fields (t : TeamJson) : Except String (Int × String × String × String) :=
  match t.teamId with
  | none => .error "Missing teamId in team JSON"
  | some tid =>
    .ok (tid, pyStrip (t.teamName.getD ""), pyStrip (t.shortName.getD ""),
      pyStrip (t.teamIconUrl.getD ""))

/-- Mirrors the Python expression a or b on two fetched JSON integers: a when
truthy (present and nonzero), else b. -/
def jsonOrInt (a b : Option Int) : Option Int :=
  match a with
  | some v => if v = 0 then b else some v
  | none => b

/-- Ordinal of a raw group object as both entry points read it:
groupOrderID or-else groupOrderId, kept only when the winner is an integer. -/
def groupIdOf (g : GroupJson) : Option Int :=
  jsonOrInt g.groupOrderID g.groupOrderId

/-- Mirrors import_utils.DEFAULT_DEADLINE_HOURS_BEFORE_KICKOFF, 3.5 hours
expressed in the minute unit of the model. -/
def DEFAULT_DEADLINE_MINUTES_BEFORE_KICKOFF : Int := 210

/-- Mirrors import_utils.compute_deadline_before_kickoff at the default. -/
def compute_deadline_before_kickoff (earliest_kickoff : Int) : Int :=
  earliest_kickoff - DEFAULT_DEADLINE_MINUTES_BEFORE_KICKOFF

/-! ### Row upserts (matches/importer.py) -/

def setTeamRow (db : DB) (tid : Int) (row : TeamRow) : DB :=
  { db with teams := db.teams.map fun t =>
      if t.openligadb_team_id == tid then row else t }

/-- Mirrors matches.importer._upsert_team: create with all fields, or update
the fields that differ, with a non-empty guard only on name. Returns the
store and the (created, updated) flags. -/
def upsert_team (db : DB) (team_id : Int) (name short_name icon_url : String) :
    DB × Bool × Bool :=
  match teamRowOf db team_id with
  | none =>
    ({ db with teams := db.teams ++ [⟨team_id, name, short_name, icon_url⟩] },
      true, false)
  | some team =>
    if (name ≠ "" ∧ team.name ≠ name) ∨ team.short_name ≠ short_name
        ∨ team.icon_url ≠ icon_url then
      (setTeamRow db team_id
        ⟨team_id, if name ≠ "" ∧ team.name ≠ name then name else team.name,
          short_name, icon_url⟩, false, true)
    else (db, false, false)

/-- The MatchResult.objects.filter(match=match_obj).delete() call of
_upsert_match_result, the only write of that function that can complete. -/
def deleteResult (db : DB) (matchExtId : Int) : DB :=
  { db with results := db.results.filter fun r => !(r.matchExtId == matchExtId) }

/-- The exception of the score-present path of _upsert_match_result: the
queryset .only("home_goals_ft", "away_goals_ft"), the attribute accesses and
the create keyword arguments all name columns matches.models.MatchResult does
not define (it has home_goals and away_goals), so Django raises at the lookup,
before any result row is read or written. -/
def fieldErrMsg : String :=
  "FieldError: MatchResult has no field named home_goals_ft"

/-- Mirrors matches.importer._upsert_match_result: no extractable score
deletes the result row of the match and returns; with an extractable score the
function proceeds into reads and writes of the nonexistent home_goals_ft and
away_goals_ft columns and raises without touching the store or the summary,
so the create and update branches, and their counter increments, are dead
code. -/
def upsert_match_result (db : DB) (matchExtId : Int) (m : MatchJson)
    (summary : ImportSummary) : Except String (DB × ImportSummary) :=
  match extract_current_score m with
  | none => .ok (deleteResult db matchExtId, summary)
  | some _ => .error fieldErrMsg

/-- Mirrors Match.objects.update_or_create keyed by the external match id:
overwrite every mutable column, or create. Returns the store and the created
flag. -/
def upsert_match_row (db : DB) (row : MatchRow) : DB × Bool :=
  match matchRowOf db row.openligadb_match_id with
  | some _ =>
    ({ db with matchTable := db.matchTable.map fun m =>
        if m.openligadb_match_id == row.openligadb_match_id then row else m }, false)
  | none => ({ db with matchTable := db.matchTable ++ [row] }, true)

def setMatchdayRow (db : DB) (o : Int) (f : MatchdayRow → MatchdayRow) : DB :=
  { db with matchdays := db.matchdays.map fun md =>
      if md.order_id == o then f md else md }

/-! ### Bootstrap (matches/importer.py, bootstrap_season, dry_run false) -/

/-- League name read off the head of the season match list; a non-object head
raises AttributeError and aborts the run. -/
def leagueNameOf (matchList : List (Option MatchJson)) : Except String String :=
  match matchList with
  | [] => .ok ""
  | none :: _ => .error "season match list head is not an object"
  | some m :: _ => .ok (m.leagueName.getD "")

/-- Mirrors the League and Season get_or_create calls of bootstrap_season:
create the league with the feed name, else update the name when the feed name
is non-empty and differs; ensure the season row. -/
def bootstrapLeagueSeason (league_name : String) (db : DB) : DB :=
  match db.league with
  | none => { db with league := some league_name, seasonExists := true }
  | some name =>
    { db with
        league := some (if league_name ≠ "" ∧ name ≠ league_name then league_name
          else name),
        seasonExists := true }

/-- One team1-or-team2 entry of the team loop: skip non-objects, raise on a
missing teamId, skip already-seen ids, else upsert and count. The state is
(store, summary, seen id list). -/
def teamKeyStep (st : DB × ImportSummary × List Int) (t? : Option TeamJson) :
    Except String (DB × ImportSummary × List Int) :=
  match t? with
  | none => .ok st
  | some tj =>
    match extract_team_fields tj with
    | .error e => .error e
    | .ok (team_id, name, short_name, icon_url) =>
      if st.2.2.contains team_id then .ok st
      else
        let res := upsert_team st.1 team_id name short_name icon_url
        .ok (res.1,
          (if res.2.1 then { st.2.1 with teams_created := st.2.1.teams_created + 1 }
           else if res.2.2 then { st.2.1 with teams_updated := st.2.1.teams_updated + 1 }
           else st.2.1),
          st.2.2 ++ [team_id])

/-- One match of the bootstrap team loop; a non-object match entry raises
AttributeError here because this loop, unlike the others, has no isinstance
guard. -/
def teamPhaseStep (st : DB × ImportSummary × List Int) (m? : Option MatchJson) :
    Except String (DB × ImportSummary × List Int) :=
  match m? with
  | none => .error "match entry is not an object"
  | some m =>
    match teamKeyStep st m.team1 with
    | .error e => .error e
    | .ok st1 => teamKeyStep st1 m.team2

/-- Mirrors the bootstrap team phase over the whole season match list. -/
def bootstrapTeams (matchList : List (Option MatchJson)) (db : DB) (s : ImportSummary) :
    Except String (DB × ImportSummary × List Int) :=
  matchList.foldlM teamPhaseStep (db, s, [])

/-- Mirrors matches.importer._compute_earliest_kickoffs: earliest kickoff per
matchday ordinal; a missing ordinal or missing kickoff field is skipped
(KeyError caught) while an unparsable kickoff string aborts the run
(ValueError not caught there). -/
def compute_earliest_kickoffs (matchList : List (Option MatchJson)) :
    Except String (List (Int × Int)) :=
  matchList.foldlM (fun acc m? =>
    match m? with
    | none => .ok acc
    | some m =>
      match groupOrderIdOf m with
      | .error _ => .ok acc
      | .ok md_order =>
        match kickoffAtOf m with
        | .error .keyErr => .ok acc
        | .error .valueErr => .error "Could not parse datetime from OpenLigaDB value"
        | .ok kickoff =>
          .ok (match acc.find? fun p => p.1 == md_order with
            | none => acc ++ [(md_order, kickoff)]
            | some p =>
              if kickoff < p.2 then
                acc.map fun q => if q.1 == md_order then (q.1, kickoff) else q
              else acc)) []

/-- One group of the bootstrap matchday loop: a non-object group entry raises
AttributeError; a group without an integer ordinal or without an earliest
kickoff is skipped; else the matchday is created with the computed deadline
and the raw group name, or only its name is updated when it differs. The
state carries the ordinals that received a deadline, first occurrence only,
mirroring the deadlines dict whose size becomes groups_with_matches. -/
def groupStep (earliest : List (Int × Int)) (st : DB × ImportSummary × List Int)
    (g? : Option GroupJson) : Except String (DB × ImportSummary × List Int) :=
  match g? with
  | none => .error "group entry is not an object"
  | some g =>
    match groupIdOf g with
    | none => .ok st
    | some md_order =>
      match earliest.find? fun p => p.1 == md_order with
      | none => .ok st
      | some p =>
        let seen2 := if st.2.2.contains md_order then st.2.2 else st.2.2 ++ [md_order]
        match mdRowOf st.1 md_order with
        | none =>
          .ok ({ st.1 with matchdays := st.1.matchdays ++
              [⟨md_order, g.groupName.getD "", compute_deadline_before_kickoff p.2,
                none, none, none, none⟩] },
            { st.2.1 with groups_imported := st.2.1.groups_imported + 1 }, seen2)
        | some matchday =>
          if matchday.name ≠ g.groupName.getD "" then
            .ok (setMatchdayRow st.1 md_order
                (fun md => { md with name := g.groupName.getD "" }),
              st.2.1, seen2)
          else .ok (st.1, st.2.1, seen2)

/-- State of the bootstrap match loop: store, summary, processed
(match row, raw record) pairs in processing order, and the same pairs grouped
by matchday ordinal in first-seen order, mirroring the matchday_rows dict. -/
structure MatchLoopState where
  db : DB
  summary : ImportSummary
  flat : List (MatchRow × MatchJson)
  grouped : List (Int × List (MatchRow × MatchJson))
  deriving Repr

def appendGrouped (groups : List (Int × List (MatchRow × MatchJson))) (o : Int)
    (row : MatchRow × MatchJson) : List (Int × List (MatchRow × MatchJson)) :=
  match groups.find? fun p => p.1 == o with
  | some _ => groups.map fun p => if p.1 == o then (p.1, p.2 ++ [row]) else p
  | none => groups ++ [(o, [row])]

/-- One match of the bootstrap match loop: any failure inside the try block
(non-object entry aside, which the loop skips before the try) skips the
match; a processed match is upserted, its result reconciled, and recorded for
the first-goal phase. The matchday and team lookups mirror the
matchday_by_order and team_by_id dict accesses whose KeyError the except
catches; the result upsert sits after that try/except, so the FieldError it
raises on every extractable score propagates and aborts the run. -/
def matchStep (st : MatchLoopState) (m? : Option MatchJson) :
    Except String MatchLoopState :=
  match m? with
  | none => .ok st
  | some m =>
    match matchIdOf m, groupOrderIdOf m, kickoffAtOf m with
    | .ok mid, .ok md_order, .ok kickoff_at =>
      match m.team1, m.team2 with
      | some t1, some t2 =>
        match t1.teamId, t2.teamId with
        | some home_id, some away_id =>
          match mdRowOf st.db md_order, teamRowOf st.db home_id,
              teamRowOf st.db away_id with
          | some _, some _, some _ =>
            let row : MatchRow :=
              ⟨mid, md_order, kickoff_at, home_id, away_id, m.matchIsFinished⟩
            let up := upsert_match_row st.db row
            let s1 :=
              if up.2 then
                { st.summary with matches_created := st.summary.matches_created + 1 }
              else
                { st.summary with matches_updated := st.summary.matches_updated + 1 }
            match upsert_match_result up.1 mid m s1 with
            | .error e => .error e
            | .ok res =>
              .ok ⟨res.1, res.2, st.flat ++ [(row, m)],
                appendGrouped st.grouped md_order (row, m)⟩
          | _, _, _ => .ok st
        | _, _ => .ok st
      | _, _ => .ok st
    | _, _, _ => .ok st

/-- The state a successful matchStep returns: identical guards, with the
result reconciliation taking its only completable branch, the deletion. Every
successful step equals this pure skeleton (matchStep_ok_inv below), which the
fold lemmas are stated over. -/
def matchStepOk (st : MatchLoopState) (m? : Option MatchJson) : MatchLoopState :=
  match m? with
  | none => st
  | some m =>
    match matchIdOf m, groupOrderIdOf m, kickoffAtOf m with
    | .ok mid, .ok md_order, .ok kickoff_at =>
      match m.team1, m.team2 with
      | some t1, some t2 =>
        match t1.teamId, t2.teamId with
        | some home_id, some away_id =>
          match mdRowOf st.db md_order, teamRowOf st.db home_id,
              teamRowOf st.db away_id with
          | some _, some _, some _ =>
            let row : MatchRow :=
              ⟨mid, md_order, kickoff_at, home_id, away_id, m.matchIsFinished⟩
            let up := upsert_match_row st.db row
            let s1 :=
              if up.2 then
                { st.summary with matches_created := st.summary.matches_created + 1 }
              else
                { st.summary with matches_updated := st.summary.matches_updated + 1 }
            ⟨deleteResult up.1 mid, s1, st.flat ++ [(row, m)],
              appendGrouped st.grouped md_order (row, m)⟩
          | _, _, _ => st
        | _, _ => st
      | _, _ => st
    | _, _, _ => st

/-- Mirrors the final loop of bootstrap_season: recompute and store the
first-goal columns of every matchday that received processed matches. -/
def firstGoalPhase (grouped : List (Int × List (MatchRow × MatchJson))) (db : DB) : DB :=
  grouped.foldl (fun db p =>
    match mdRowOf db p.1 with
    | none => db
    | some md_obj => setMatchdayRow db p.1
        fun _ => compute_matchday_first_goal md_obj p.2) db

/-- Mirrors matches.importer.bootstrap_season with dry_run false: summary
counting, league and season upsert, team phase, earliest kickoffs, matchday
phase, match phase, first-goal phase. The processed rows of the match phase
are additionally returned for the statements about the run. -/
def bootstrap_season (feed : Feed) (db : DB) :
    Except String (DB × ImportSummary × List (MatchRow × MatchJson)) :=
  let matchList := feed.seasonMatches
  let s0 : ImportSummary := { matches_total := matchList.length }
  match leagueNameOf matchList with
  | .error e => .error e
  | .ok league_name =>
    let db1 := bootstrapLeagueSeason league_name db
    match bootstrapTeams matchList db1 s0 with
    | .error e => .error e
    | .ok (db2, s1, _) =>
      match compute_earliest_kickoffs matchList with
      | .error e => .error e
      | .ok earliest =>
        let s2 := { s1 with groups_total := feed.groups.length }
        match feed.groups.foldlM (groupStep earliest) (db2, s2, []) with
        | .error e => .error e
        | .ok (db3, s3, dlOrders) =>
          let s4 := { s3 with groups_with_matches := dlOrders.length }
          match matchList.foldlM matchStep ⟨db3, s4, [], []⟩ with
          | .error e => .error e
          | .ok st => .ok (firstGoalPhase st.grouped st.db, st.summary, st.flat)

/-! ### Smart update (matches/importer.py, update_season_smart, dry_run false) -/

/-- Mirrors matches.importer._get_season_or_raise. -/
def get_season_or_raise (db : DB) : Except String Unit :=
  match db.league with
  | none => .error "League not found. Run bootstrap_season first."
  | some _ =>
    if db.seasonExists then .ok ()
    else .error "Season not found. Run bootstrap_season first."

/-- Mirrors matches.importer._compute_earliest_kickoff, which catches every
exception per match. -/
def compute_earliest_kickoff (matchList : List (Option MatchJson)) : Option Int :=
  matchList.foldl (fun earliest m? =>
    match m? with
    | none => earliest
    | some m =>
      match kickoffAtOf m with
      | .error _ => earliest
      | .ok kickoff =>
        match earliest with
        | none => some kickoff
        | some e => if kickoff < e then some kickoff else earliest) none

/-- Mirrors matches.importer._ensure_matchday: no integer ordinal or no
earliest kickoff means no matchday (and nothing written); else get_or_create
with the computed deadline and stripped name, updating only a differing
non-empty name on an existing row. Returns the determined ordinal. -/
def ensure_matchday (db : DB) (g : GroupJson) (matches_in_group : List (Option MatchJson))
    (summary : ImportSummary) : DB × ImportSummary × Option Int :=
  match groupIdOf g with
  | none => (db, summary, none)
  | some group_id =>
    match compute_earliest_kickoff matches_in_group with
    | none => (db, summary, none)
    | some earliest =>
      let name := pyStrip (g.groupName.getD "")
      match mdRowOf db group_id with
      | none =>
        ({ db with matchdays := db.matchdays ++
            [⟨group_id, name, compute_deadline_before_kickoff earliest,
              none, none, none, none⟩] },
          { summary with groups_imported := summary.groups_imported + 1 },
          some group_id)
      | some matchday =>
        if name ≠ "" ∧ matchday.name ≠ name then
          (setMatchdayRow db group_id (fun md => { md with name := name }),
            summary, some group_id)
        else (db, summary, some group_id)

/-- One match of the team loop of _import_one_matchday, which skips
non-object entries but, like the bootstrap team loop, raises on a team object
without integer teamId. -/
def smartTeamStep (st : DB × ImportSummary × List Int) (m? : Option MatchJson) :
    Except String (DB × ImportSummary × List Int) :=
  match m? with
  | none => .ok st
  | some m =>
    match teamKeyStep st m.team1 with
    | .error e => .error e
    | .ok st1 => teamKeyStep st1 m.team2

/-- State of the match loop of _import_one_matchday. -/
structure SmartMatchState where
  db : DB
  summary : ImportSummary
  rows : List (MatchRow × MatchJson)
  deriving Repr

/-- One match of the match loop of _import_one_matchday: every failure inside
the try block skips the match; the matchday reference is the one determined
for this group. The result upsert sits after the try/except, so its FieldError
on an extractable score propagates out of the atomic transaction. -/
def smartMatchStep (group_id : Int) (st : SmartMatchState) (m? : Option MatchJson) :
    Except String SmartMatchState :=
  match m? with
  | none => .ok st
  | some m =>
    match matchIdOf m, kickoffAtOf m with
    | .ok mid, .ok kickoff_at =>
      match m.team1, m.team2 with
      | some t1, some t2 =>
        match t1.teamId, t2.teamId with
        | some home_id, some away_id =>
          match teamRowOf st.db home_id, teamRowOf st.db away_id with
          | some _, some _ =>
            let row : MatchRow :=
              ⟨mid, group_id, kickoff_at, home_id, away_id, m.matchIsFinished⟩
            let up := upsert_match_row st.db row
            let s1 :=
              if up.2 then
                { st.summary with matches_created := st.summary.matches_created + 1 }
              else
                { st.summary with matches_updated := st.summary.matches_updated + 1 }
            match upsert_match_result up.1 mid m s1 with
            | .error e => .error e
            | .ok res => .ok ⟨res.1, res.2, st.rows ++ [(row, m)]⟩
          | _, _ => .ok st
        | _, _ => .ok st
      | _, _ => .ok st
    | _, _ => .ok st

/-- The state a successful smartMatchStep returns: identical guards with the
deletion as the only result write; every successful step equals it
(smartMatchStep_ok_inv below). -/
def smartMatchStepOk (group_id : Int) (st : SmartMatchState)
    (m? : Option MatchJson) : SmartMatchState :=
  match m? with
  | none => st
  | some m =>
    match matchIdOf m, kickoffAtOf m with
    | .ok mid, .ok kickoff_at =>
      match m.team1, m.team2 with
      | some t1, some t2 =>
        match t1.teamId, t2.teamId with
        | some home_id, some away_id =>
          match teamRowOf st.db home_id, teamRowOf st.db away_id with
          | some _, some _ =>
            let row : MatchRow :=
              ⟨mid, group_id, kickoff_at, home_id, away_id, m.matchIsFinished⟩
            let up := upsert_match_row st.db row
            let s1 :=
              if up.2 then
                { st.summary with matches_created := st.summary.matches_created + 1 }
              else
                { st.summary with matches_updated := st.summary.matches_updated + 1 }
            ⟨deleteResult up.1 mid, s1, st.rows ++ [(row, m)]⟩
          | _, _ => st
        | _, _ => st
      | _, _ => st
    | _, _ => st

/-- Mirrors matches.importer._import_one_matchday, one atomic transaction: no
determinable matchday returns without writes; else teams are upserted (a team
object without id raises, rolling the transaction back, which the caller
models by keeping its previous store), matches and results are upserted (the
result upsert raising on any extractable score, likewise rolling back), the
first-goal columns recomputed, and the last-changed stamp written as part of
the same unit. -/
def import_one_matchday (db : DB) (g : GroupJson)
    (matches_in_group : List (Option MatchJson)) (last_changed_at : Int)
    (summary : ImportSummary) :
    Except String (DB × ImportSummary × List (MatchRow × MatchJson)) :=
  let st0 := ensure_matchday db g matches_in_group summary
  match st0.2.2 with
  | none => .ok (st0.1, st0.2.1, [])
  | some group_id =>
    match matches_in_group.foldlM smartTeamStep (st0.1, st0.2.1, ([] : List Int)) with
    | .error e => .error e
    | .ok (db2, s2, _) =>
      match matches_in_group.foldlM (smartMatchStep group_id) ⟨db2, s2, []⟩ with
      | .error e => .error e
      | .ok st3 =>
        let db4 :=
          match mdRowOf st3.db group_id with
          | none => st3.db
          | some md_obj => setMatchdayRow st3.db group_id
              fun _ => compute_matchday_first_goal md_obj st3.rows
        .ok (setMatchdayRow db4 group_id
            (fun md => { md with openligadb_last_changed_at := some last_changed_at }),
          st3.summary, st3.rows)

/-- Group ordinals in feed order, duplicates kept, as the group scan of
update_season_smart collects them; a non-object group raises AttributeError
and aborts the run. -/
def smartGroupIds (groups : List (Option GroupJson)) : Except String (List Int) :=
  groups.foldlM (fun acc g? =>
    match g? with
    | none => .error "group entry is not an object"
    | some g =>
      match groupIdOf g with
      | none => .ok acc
      | some gid => .ok (acc ++ [gid])) []

/-- Mirrors the group_by_id dict: the last group object of the feed whose
ordinal is the given one. -/
def groupById (groups : List (Option GroupJson)) (gid : Int) : GroupJson :=
  match ((groups.filterMap id).filter fun g => groupIdOf g == some gid).getLast? with
  | some g => g
  | none => ⟨none, none, none⟩

def plannedLe (p q : Int × Int) : Prop :=
  p.1 ≤ q.1

instance : DecidableRel plannedLe := fun p q => by
  unfold plannedLe
  exact inferInstance

instance : IsTotal (Int × Int) plannedLe := by
  constructor
  intro a b
  unfold plannedLe
  omega

instance : IsTrans (Int × Int) plannedLe := by
  constructor
  intro a b c
  unfold plannedLe
  omega

/-- Mirrors the planning step of update_season_smart: per distinct group
ordinal whose last-changed lookup succeeded, the matchday is planned exactly
when the local stamp is absent or the fetched timestamp is strictly newer;
the plan is sorted by ordinal. The concurrent lookups only determine the
iteration order of the map, which the sort cancels. -/
def smartPlanned (feed : Feed) (db : DB) : List (Int × Int) :=
  match smartGroupIds feed.groups with
  | .error _ => []
  | .ok gids =>
    List.insertionSort plannedLe ((gids.foldl insertUniq []).filterMap fun gid =>
      match feed.lastChanged gid with
      | .error _ => none
      | .ok dt =>
        match (mdRowOf db gid).bind (fun md => md.openligadb_last_changed_at) with
        | none => some (gid, dt)
        | some d => if dt > d then some (gid, dt) else none)

/-- Outcome of one smart-update run: completion with store, summary and
processed rows; a fatal setup error before any write (season missing, group
scan failure); or an abort partway through the planned matchdays with the
store as committed so far, the in-flight matchday rolled back. -/
inductive RunOutcome where
  | ok (db : DB) (summary : ImportSummary) (rows : List (MatchRow × MatchJson))
  | fatal (msg : String)
  | aborted (db : DB) (msg : String)
  deriving Repr

/-- Sequential per-matchday import loop of update_season_smart: a failed
match-list fetch is caught and the matchday skipped, a failure inside
_import_one_matchday propagates and aborts the run. -/
def smartLoop (feed : Feed) : List (Int × Int) → DB → ImportSummary →
    List (MatchRow × MatchJson) → Nat → RunOutcome
  | [], db, s, rows, matches_seen =>
    .ok db { s with matches_total := matches_seen } rows
  | (gid, dt) :: rest, db, s, rows, matches_seen =>
    match feed.matchdayMatches gid with
    | .error _ => smartLoop feed rest db s rows matches_seen
    | .ok matches_in_group =>
      match import_one_matchday db (groupById feed.groups gid) matches_in_group dt s with
      | .error e => .aborted db e
      | .ok (db2, s2, r2) =>
        smartLoop feed rest db2 s2 (rows ++ r2) (matches_seen + matches_in_group.length)

/-- Mirrors matches.importer.update_season_smart with dry_run false. -/
def update_season_smart (feed : Feed) (db : DB) : RunOutcome :=
  match get_season_or_raise db with
  | .error e => .fatal e
  | .ok _ =>
    match smartGroupIds feed.groups with
    | .error e => .fatal e
    | .ok _ =>
      let planned := smartPlanned feed db
      smartLoop feed planned db
        { groups_total := feed.groups.length, groups_with_matches := planned.length }
        [] 0

/-! ### Keyed-table lemmas -/

theorem map_id_of_mem {β : Type} {l : List β} {f : β → β} (h : ∀ x ∈ l, f x = x) :
    l.map f = l := by
  induction l with
  | nil => rfl
  | cons x l ih =>
    rw [List.map_cons, h x (List.mem_cons_self x l),
      ih fun y hy => h y (List.mem_cons_of_mem x hy)]

section KeyedTable

variable {β : Type} (key : β → Int)

theorem rowOf_key (l : List β) (k : Int) (x : β) (h : rowOf key l k = some x) :
    key x = k := by
  have := List.find?_some h
  simpa using this

theorem rowOf_mem (l : List β) (k : Int) (x : β) (h : rowOf key l k = some x) :
    x ∈ l :=
  List.mem_of_find?_eq_some h

theorem rowOf_filter_self (l : List β) (k : Int) :
    rowOf key (l.filter fun r => !(key r == k)) k = none := by
  induction l with
  | nil => rfl
  | cons x l ih =>
    by_cases hx : key x = k
    · rw [List.filter_cons_of_neg (by simp [hx])]
      exact ih
    · have hb : (key x == k) = false := by simp [hx]
      rw [List.filter_cons_of_pos (by simp [hx])]
      unfold rowOf
      simp only [List.find?_cons, hb]
      exact ih

theorem rowOf_filter_other (l : List β) (k k2 : Int) (h : k2 ≠ k) :
    rowOf key (l.filter fun r => !(key r == k)) k2 = rowOf key l k2 := by
  induction l with
  | nil => rfl
  | cons x l ih =>
    by_cases hx : key x = k
    · have hb2 : (key x == k2) = false := by simp; omega
      rw [List.filter_cons_of_neg (by simp [hx])]
      unfold rowOf
      rw [List.find?_cons]
      simp only [hb2]
      exact ih
    · rw [List.filter_cons_of_pos (by simp [hx])]
      unfold rowOf
      simp only [List.find?_cons]
      cases hb2 : key x == k2 with
      | true => rfl
      | false => exact ih

theorem rowOf_map_update_self (l : List β) (k : Int) (f : β → β)
    (hf : ∀ r, key (f r) = key r) :
    rowOf key (l.map fun r => if key r == k then f r else r) k
      = (rowOf key l k).map f := by
  induction l with
  | nil => rfl
  | cons x l ih =>
    by_cases hx : key x = k
    · have hb : (key x == k) = true := by simp [hx]
      have hbf : (key (f x) == k) = true := by simp [hf x, hx]
      rw [List.map_cons, if_pos hb]
      unfold rowOf
      simp only [List.find?_cons, hb, hbf]
      rfl
    · have hb : (key x == k) = false := by simp [hx]
      rw [List.map_cons, if_neg (by simp [hx])]
      unfold rowOf
      simp only [List.find?_cons, hb]
      exact ih

theorem rowOf_map_update_other (l : List β) (k k2 : Int) (f : β → β)
    (hf : ∀ r, key (f r) = key r) (h : k2 ≠ k) :
    rowOf key (l.map fun r => if key r == k then f r else r) k2
      = rowOf key l k2 := by
  induction l with
  | nil => rfl
  | cons x l ih =>
    by_cases hx : key x = k
    · have hb : (key x == k) = true := by simp [hx]
      have hb2 : (key x == k2) = false := by simp; omega
      have hbf2 : (key (f x) == k2) = false := by rw [hf x]; simp; omega
      rw [List.map_cons, if_pos hb]
      unfold rowOf
      simp only [List.find?_cons, hb2, hbf2]
      exact ih
    · rw [List.map_cons, if_neg (by simp [hx])]
      unfold rowOf
      simp only [List.find?_cons]
      cases hb2 : key x == k2 with
      | true => rfl
      | false => exact ih

theorem rowOf_map_const_self (l : List β) (k : Int) (r : β) (hrk : key r = k) :
    rowOf key (l.map fun x => if key x == k then r else x) k
      = (rowOf key l k).map (fun x => r) := by
  induction l with
  | nil => rfl
  | cons x l ih =>
    by_cases hx : key x = k
    · have hb : (key x == k) = true := by simp [hx]
      have hbr : (key r == k) = true := by simp [hrk]
      rw [List.map_cons, if_pos hb]
      unfold rowOf
      simp only [List.find?_cons, hb, hbr]
      rfl
    · have hb : (key x == k) = false := by simp [hx]
      rw [List.map_cons, if_neg (by simp [hx])]
      unfold rowOf
      simp only [List.find?_cons, hb]
      exact ih

theorem rowOf_map_const_other (l : List β) (k k2 : Int) (r : β) (hrk : key r = k)
    (h : k2 ≠ k) :
    rowOf key (l.map fun x => if key x == k then r else x) k2
      = rowOf key l k2 := by
  induction l with
  | nil => rfl
  | cons x l ih =>
    by_cases hx : key x = k
    · have hb : (key x == k) = true := by simp [hx]
      have hb2 : (key x == k2) = false := by simp; omega
      have hbr2 : (key r == k2) = false := by rw [hrk]; simp; omega
      rw [List.map_cons, if_pos hb]
      unfold rowOf
      simp only [List.find?_cons, hb2, hbr2]
      exact ih
    · rw [List.map_cons, if_neg (by simp [hx])]
      unfold rowOf
      simp only [List.find?_cons]
      cases hb2 : key x == k2 with
      | true => rfl
      | false => exact ih

theorem rowOf_append_single (l : List β) (k : Int) (r : β) :
    rowOf key (l ++ [r]) k
      = match rowOf key l k with
        | some x => some x
        | none => if key r = k then some r else none := by
  induction l with
  | nil =>
    unfold rowOf
    rw [List.nil_append]
    simp only [List.find?_cons, List.find?_nil]
    by_cases hr : key r = k
    · have hb : (key r == k) = true := by simp [hr]
      simp [hb, hr]
    · have hb : (key r == k) = false := by simp [hr]
      simp [hb, hr]
  | cons x l ih =>
    rw [List.cons_append]
    unfold rowOf
    simp only [List.find?_cons]
    cases hb : key x == k with
    | true => rfl
    | false => exact ih

end KeyedTable

/-! ### Upsert frame and content lemmas -/

theorem upsert_match_row_frame (db : DB) (row : MatchRow) :
    (upsert_match_row db row).1.results = db.results
    ∧ (upsert_match_row db row).1.matchdays = db.matchdays
    ∧ (upsert_match_row db row).1.teams = db.teams
    ∧ (upsert_match_row db row).1.league = db.league
    ∧ (upsert_match_row db row).1.seasonExists = db.seasonExists := by
  unfold upsert_match_row
  cases matchRowOf db row.openligadb_match_id <;> exact ⟨rfl, rfl, rfl, rfl, rfl⟩

theorem deleteResult_frame (db : DB) (mid : Int) :
    (deleteResult db mid).matchTable = db.matchTable
    ∧ (deleteResult db mid).matchdays = db.matchdays
    ∧ (deleteResult db mid).teams = db.teams
    ∧ (deleteResult db mid).league = db.league
    ∧ (deleteResult db mid).seasonExists = db.seasonExists :=
  ⟨rfl, rfl, rfl, rfl, rfl⟩

theorem upsert_match_result_of_none (db : DB) (mid : Int) (m : MatchJson)
    (s : ImportSummary) (h : extract_current_score m = none) :
    upsert_match_result db mid m s = .ok (deleteResult db mid, s) := by
  unfold upsert_match_result
  rw [h]

theorem upsert_match_result_of_some (db : DB) (mid : Int) (m : MatchJson)
    (s : ImportSummary) (p : Int × Int) (h : extract_current_score m = some p) :
    upsert_match_result db mid m s = .error fieldErrMsg := by
  unfold upsert_match_result
  rw [h]

theorem upsert_match_result_ok (db : DB) (mid : Int) (m : MatchJson)
    (s : ImportSummary) (res : DB × ImportSummary)
    (h : upsert_match_result db mid m s = .ok res) :
    extract_current_score m = none ∧ res = (deleteResult db mid, s) := by
  cases hx : extract_current_score m with
  | none =>
    rw [upsert_match_result_of_none db mid m s hx] at h
    injection h with h'
    exact ⟨rfl, h'.symm⟩
  | some p =>
    rw [upsert_match_result_of_some db mid m s p hx] at h
    simp at h

theorem upsert_team_frame (db : DB) (tid : Int) (n sn iu : String) :
    (upsert_team db tid n sn iu).1.results = db.results
    ∧ (upsert_team db tid n sn iu).1.matchdays = db.matchdays
    ∧ (upsert_team db tid n sn iu).1.matchTable = db.matchTable
    ∧ (upsert_team db tid n sn iu).1.league = db.league
    ∧ (upsert_team db tid n sn iu).1.seasonExists = db.seasonExists := by
  unfold upsert_team
  split
  · exact ⟨rfl, rfl, rfl, rfl, rfl⟩
  · split
    · exact ⟨rfl, rfl, rfl, rfl, rfl⟩
    · exact ⟨rfl, rfl, rfl, rfl, rfl⟩

theorem setMatchdayRow_frame (db : DB) (o : Int) (f : MatchdayRow → MatchdayRow) :
    (setMatchdayRow db o f).results = db.results
    ∧ (setMatchdayRow db o f).teams = db.teams
    ∧ (setMatchdayRow db o f).matchTable = db.matchTable
    ∧ (setMatchdayRow db o f).league = db.league
    ∧ (setMatchdayRow db o f).seasonExists = db.seasonExists :=
  ⟨rfl, rfl, rfl, rfl, rfl⟩

theorem resultRowOf_delete_self (db : DB) (mid : Int) :
    resultRowOf (deleteResult db mid) mid = none := by
  unfold deleteResult resultRowOf
  exact rowOf_filter_self _ _ _

theorem resultRowOf_delete_other (db : DB) (mid mid2 : Int) (h : mid2 ≠ mid) :
    resultRowOf (deleteResult db mid) mid2 = resultRowOf db mid2 := by
  unfold deleteResult resultRowOf
  exact rowOf_filter_other _ _ _ _ h

theorem matchRowOf_upsert_self (db : DB) (row : MatchRow) :
    matchRowOf (upsert_match_row db row).1 row.openligadb_match_id = some row := by
  unfold upsert_match_row
  cases hr : matchRowOf db row.openligadb_match_id with
  | some ex =>
    dsimp only
    unfold matchRowOf
    rw [rowOf_map_const_self _ _ _ _ rfl]
    unfold matchRowOf at hr
    rw [hr]
    rfl
  | none =>
    dsimp only
    unfold matchRowOf
    rw [rowOf_append_single]
    unfold matchRowOf at hr
    rw [hr]
    simp

theorem matchRowOf_upsert_other (db : DB) (row : MatchRow) (mid2 : Int)
    (h : mid2 ≠ row.openligadb_match_id) :
    matchRowOf (upsert_match_row db row).1 mid2 = matchRowOf db mid2 := by
  unfold upsert_match_row
  cases hr : matchRowOf db row.openligadb_match_id with
  | some ex =>
    dsimp only
    unfold matchRowOf
    exact rowOf_map_const_other _ _ _ _ _ rfl h
  | none =>
    dsimp only
    unfold matchRowOf
    rw [rowOf_append_single]
    cases rowOf (fun r : MatchRow => r.openligadb_match_id) db.matchTable mid2 with
    | some x => rfl
    | none =>
      simp only
      rw [if_neg (by simpa using h.symm)]

/-! ### Result reconciliation (C2): the dead score-storing path -/

/-- External match ids of a processed (row, record) list. -/
def rowIds (l : List (MatchRow × MatchJson)) : List Int :=
  l.map fun r => r.1.openligadb_match_id

/-- Concrete finished match with a final result entry: its extractable score
sends both entry points into the FieldError of _upsert_match_result. -/
def c2Match : MatchJson :=
  ⟨some 1, some (some 1), .val 100, true,
    some ⟨some 10, some "A", some "A", some ""⟩,
    some ⟨some 20, some "B", some "B", some ""⟩, [],
    [some ⟨some "Endergebnis", some 2, some 1, some 1⟩], some "L"⟩

def c2Group : GroupJson := ⟨some 1, none, some "Round 1"⟩

def c2Feed : Feed :=
  ⟨[some c2Match], [some c2Group], fun _ => .ok 500,
    fun gid => if gid = 1 then .ok [some c2Match] else .error "fetch failed"⟩

def c2Db0 : DB := ⟨none, false, [], [], [], []⟩

/-- Store after a bootstrap, for the smart-run statements. -/
def c2DbS : DB :=
  ⟨some "L", true, [⟨1, "Round 1", 0, none, none, none, none⟩],
    [⟨10, "A", "A", ""⟩, ⟨20, "B", "B", ""⟩], [], []⟩

/-- The same match without goal events and result entries: no extractable
score, so runs over it complete. -/
def scorelessMatch : MatchJson :=
  ⟨some 1, some (some 1), .val 100, true,
    some ⟨some 10, some "A", some "A", some ""⟩,
    some ⟨some 20, some "B", some "B", some ""⟩, [], [], some "L"⟩

def scorelessFeed : Feed :=
  ⟨[some scorelessMatch], [some c2Group], fun _ => .ok 500,
    fun gid => if gid = 1 then .ok [some scorelessMatch] else .error "fetch failed"⟩

def slBootOut : DB × ImportSummary × List (MatchRow × MatchJson) :=
  match bootstrap_season scorelessFeed c2Db0 with
  | .ok t => t
  | .error _ => (c2Db0, {}, [])

def slSmartOut : DB × ImportSummary × List (MatchRow × MatchJson) :=
  match update_season_smart scorelessFeed c2DbS with
  | .ok d s r => (d, s, r)
  | _ => (c2DbS, {}, [])

theorem matchStepOk_shape (st : MatchLoopState) (m? : Option MatchJson) :
    matchStepOk st m? = st
    ∨ ∃ (m : MatchJson) (row : MatchRow),
        (matchStepOk st m?).db
            = deleteResult (upsert_match_row st.db row).1 row.openligadb_match_id
        ∧ (matchStepOk st m?).flat = st.flat ++ [(row, m)] := by
  unfold matchStepOk
  cases m? with
  | none => exact Or.inl rfl
  | some m =>
    dsimp only
    cases h1 : matchIdOf m with
    | error e => exact Or.inl rfl
    | ok mid =>
      cases h2 : groupOrderIdOf m with
      | error e => exact Or.inl rfl
      | ok md_order =>
        cases h3 : kickoffAtOf m with
        | error e => exact Or.inl rfl
        | ok kickoff_at =>
          dsimp only
          cases ht1 : m.team1 with
          | none => exact Or.inl rfl
          | some t1 =>
            cases ht2 : m.team2 with
            | none => exact Or.inl rfl
            | some t2 =>
              dsimp only
              cases hi1 : t1.teamId with
              | none => exact Or.inl rfl
              | some home_id =>
                cases hi2 : t2.teamId with
                | none => exact Or.inl rfl
                | some away_id =>
                  dsimp only
                  cases hm1 : mdRowOf st.db md_order with
                  | none => exact Or.inl rfl
                  | some mdr =>
                    cases hr1 : teamRowOf st.db home_id with
                    | none => exact Or.inl rfl
                    | some trh =>
                      cases hr2 : teamRowOf st.db away_id with
                      | none => exact Or.inl rfl
                      | some tra =>
                        dsimp only
                        exact Or.inr ⟨m,
                          ⟨mid, md_order, kickoff_at, home_id, away_id,
                            m.matchIsFinished⟩, rfl, rfl⟩

theorem smartMatchStepOk_shape (group_id : Int) (st : SmartMatchState)
    (m? : Option MatchJson) :
    smartMatchStepOk group_id st m? = st
    ∨ ∃ (m : MatchJson) (row : MatchRow),
        (smartMatchStepOk group_id st m?).db
            = deleteResult (upsert_match_row st.db row).1 row.openligadb_match_id
        ∧ (smartMatchStepOk group_id st m?).rows = st.rows ++ [(row, m)] := by
  unfold smartMatchStepOk
  cases m? with
  | none => exact Or.inl rfl
  | some m =>
    dsimp only
    cases h1 : matchIdOf m with
    | error e => exact Or.inl rfl
    | ok mid =>
      cases h3 : kickoffAtOf m with
      | error e => exact Or.inl rfl
      | ok kickoff_at =>
        dsimp only
        cases ht1 : m.team1 with
        | none => exact Or.inl rfl
        | some t1 =>
          cases ht2 : m.team2 with
          | none => exact Or.inl rfl
          | some t2 =>
            dsimp only
            cases hi1 : t1.teamId with
            | none => exact Or.inl rfl
            | some home_id =>
              cases hi2 : t2.teamId with
              | none => exact Or.inl rfl
              | some away_id =>
                dsimp only
                cases hr1 : teamRowOf st.db home_id with
                | none => exact Or.inl rfl
                | some trh =>
                  cases hr2 : teamRowOf st.db away_id with
                  | none => exact Or.inl rfl
                  | some tra =>
                    dsimp only
                    exact Or.inr ⟨m,
                      ⟨mid, group_id, kickoff_at, home_id, away_id,
                        m.matchIsFinished⟩, rfl, rfl⟩

theorem matchStep_ok_inv (st : MatchLoopState) (m? : Option MatchJson)
    (st1 : MatchLoopState) (h : matchStep st m? = .ok st1) :
    st1 = matchStepOk st m?
    ∧ (st1.flat = st.flat
       ∨ ∃ m row, st1.flat = st.flat ++ [(row, m)]
           ∧ extract_current_score m = none) := by
  unfold matchStep at h
  unfold matchStepOk
  cases m? with
  | none =>
    injection h with h'
    exact ⟨h'.symm, Or.inl (by rw [← h'])⟩
  | some m =>
    dsimp only at h ⊢
    cases h1 : matchIdOf m with
    | error e =>
      rw [h1] at h
      injection h with h'
      exact ⟨h'.symm, Or.inl (by rw [← h'])⟩
    | ok mid =>
      rw [h1] at h
      cases h2 : groupOrderIdOf m with
      | error e =>
        rw [h2] at h
        injection h with h'
        exact ⟨h'.symm, Or.inl (by rw [← h'])⟩
      | ok md_order =>
        rw [h2] at h
        cases h3 : kickoffAtOf m with
        | error e =>
          rw [h3] at h
          injection h with h'
          exact ⟨h'.symm, Or.inl (by rw [← h'])⟩
        | ok kickoff_at =>
          rw [h3] at h
          dsimp only at h ⊢
          cases ht1 : m.team1 with
          | none =>
            rw [ht1] at h
            injection h with h'
            exact ⟨h'.symm, Or.inl (by rw [← h'])⟩
          | some t1 =>
            rw [ht1] at h
            cases ht2 : m.team2 with
            | none =>
              rw [ht2] at h
              injection h with h'
              exact ⟨h'.symm, Or.inl (by rw [← h'])⟩
            | some t2 =>
              rw [ht2] at h
              dsimp only at h ⊢
              cases hi1 : t1.teamId with
              | none =>
                rw [hi1] at h
                injection h with h'
                exact ⟨h'.symm, Or.inl (by rw [← h'])⟩
              | some home_id =>
                rw [hi1] at h
                cases hi2 : t2.teamId with
                | none =>
                  rw [hi2] at h
                  injection h with h'
                  exact ⟨h'.symm, Or.inl (by rw [← h'])⟩
                | some away_id =>
                  rw [hi2] at h
                  dsimp only at h ⊢
                  cases hm1 : mdRowOf st.db md_order with
                  | none =>
                    rw [hm1] at h
                    injection h with h'
                    exact ⟨h'.symm, Or.inl (by rw [← h'])⟩
                  | some mdr =>
                    rw [hm1] at h
                    cases hr1 : teamRowOf st.db home_id with
                    | none =>
                      rw [hr1] at h
                      injection h with h'
                      exact ⟨h'.symm, Or.inl (by rw [← h'])⟩
                    | some trh =>
                      rw [hr1] at h
                      cases hr2 : teamRowOf st.db away_id with
                      | none =>
                        rw [hr2] at h
                        injection h with h'
                        exact ⟨h'.symm, Or.inl (by rw [← h'])⟩
                      | some tra =>
                        rw [hr2] at h
                        dsimp only at h ⊢
                        cases hx : extract_current_score m with
                        | some p =>
                          rw [upsert_match_result_of_some _ _ _ _ p hx] at h
                          simp at h
                        | none =>
                          rw [upsert_match_result_of_none _ _ _ _ hx] at h
                          dsimp only at h
                          injection h with h'
                          refine ⟨h'.symm, Or.inr ⟨m,
                            ⟨mid, md_order, kickoff_at, home_id, away_id,
                              m.matchIsFinished⟩, ?_, hx⟩⟩
                          rw [← h']

theorem smartMatchStep_ok_inv (group_id : Int) (st : SmartMatchState)
    (m? : Option MatchJson) (st1 : SmartMatchState)
    (h : smartMatchStep group_id st m? = .ok st1) :
    st1 = smartMatchStepOk group_id st m?
    ∧ (st1.rows = st.rows
       ∨ ∃ m row, st1.rows = st.rows ++ [(row, m)]
           ∧ extract_current_score m = none) := by
  unfold smartMatchStep at h
  unfold smartMatchStepOk
  cases m? with
  | none =>
    injection h with h'
    exact ⟨h'.symm, Or.inl (by rw [← h'])⟩
  | some m =>
    dsimp only at h ⊢
    cases h1 : matchIdOf m with
    | error e =>
      rw [h1] at h
      injection h with h'
      exact ⟨h'.symm, Or.inl (by rw [← h'])⟩
    | ok mid =>
      rw [h1] at h
      cases h3 : kickoffAtOf m with
      | error e =>
        rw [h3] at h
        injection h with h'
        exact ⟨h'.symm, Or.inl (by rw [← h'])⟩
      | ok kickoff_at =>
        rw [h3] at h
        dsimp only at h ⊢
        cases ht1 : m.team1 with
        | none =>
          rw [ht1] at h
          injection h with h'
          exact ⟨h'.symm, Or.inl (by rw [← h'])⟩
        | some t1 =>
          rw [ht1] at h
          cases ht2 : m.team2 with
          | none =>
            rw [ht2] at h
            injection h with h'
            exact ⟨h'.symm, Or.inl (by rw [← h'])⟩
          | some t2 =>
            rw [ht2] at h
            dsimp only at h ⊢
            cases hi1 : t1.teamId with
            | none =>
              rw [hi1] at h
              injection h with h'
              exact ⟨h'.symm, Or.inl (by rw [← h'])⟩
            | some home_id =>
              rw [hi1] at h
              cases hi2 : t2.teamId with
              | none =>
                rw [hi2] at h
                injection h with h'
                exact ⟨h'.symm, Or.inl (by rw [← h'])⟩
              | some away_id =>
                rw [hi2] at h
                dsimp only at h ⊢
                cases hr1 : teamRowOf st.db home_id with
                | none =>
                  rw [hr1] at h
                  injection h with h'
                  exact ⟨h'.symm, Or.inl (by rw [← h'])⟩
                | some trh =>
                  rw [hr1] at h
                  cases hr2 : teamRowOf st.db away_id with
                  | none =>
                    rw [hr2] at h
                    injection h with h'
                    exact ⟨h'.symm, Or.inl (by rw [← h'])⟩
                  | some tra =>
                    rw [hr2] at h
                    dsimp only at h ⊢
                    cases hx : extract_current_score m with
                    | some p =>
                      rw [upsert_match_result_of_some _ _ _ _ p hx] at h
                      simp at h
                    | none =>
                      rw [upsert_match_result_of_none _ _ _ _ hx] at h
                      dsimp only at h
                      injection h with h'
                      refine ⟨h'.symm, Or.inr ⟨m,
                        ⟨mid, group_id, kickoff_at, home_id, away_id,
                          m.matchIsFinished⟩, ?_, hx⟩⟩
                      rw [← h']

theorem matchFoldM_ok (ms : List (Option MatchJson)) :
    ∀ st out, ms.foldlM matchStep st = .ok out →
      out = ms.foldl matchStepOk st := by
  induction ms with
  | nil =>
    intro st out h
    simp only [List.foldlM_nil] at h
    injection h with h'
    rw [← h']
    rfl
  | cons m? ms ih =>
    intro st out h
    rw [List.foldlM_cons] at h
    cases h1 : matchStep st m? with
    | error e =>
      rw [h1] at h
      simp [Bind.bind, Except.bind] at h
    | ok st1 =>
      rw [h1] at h
      simp only [Bind.bind, Except.bind] at h
      rw [List.foldl_cons, ← (matchStep_ok_inv st m? st1 h1).1]
      exact ih st1 out h

theorem matchFoldM_flat_scoreless (ms : List (Option MatchJson)) :
    ∀ st out, ms.foldlM matchStep st = .ok out →
      (∀ r ∈ st.flat, extract_current_score r.2 = none) →
      ∀ r ∈ out.flat, extract_current_score r.2 = none := by
  induction ms with
  | nil =>
    intro st out h hsl
    simp only [List.foldlM_nil] at h
    injection h with h'
    rw [← h']
    exact hsl
  | cons m? ms ih =>
    intro st out h hsl
    rw [List.foldlM_cons] at h
    cases h1 : matchStep st m? with
    | error e =>
      rw [h1] at h
      simp [Bind.bind, Except.bind] at h
    | ok st1 =>
      rw [h1] at h
      simp only [Bind.bind, Except.bind] at h
      refine ih st1 out h ?_
      rcases (matchStep_ok_inv st m? st1 h1).2 with heq | ⟨m, row, hflat, hx⟩
      · rw [heq]
        exact hsl
      · rw [hflat]
        intro r hr
        rcases List.mem_append.1 hr with hold | hnew
        · exact hsl r hold
        · have hrm : r = (row, m) := by simpa using hnew
          rw [hrm]
          exact hx

theorem smartFoldM_ok (gid : Int) (ms : List (Option MatchJson)) :
    ∀ st out, ms.foldlM (smartMatchStep gid) st = .ok out →
      out = ms.foldl (smartMatchStepOk gid) st := by
  induction ms with
  | nil =>
    intro st out h
    simp only [List.foldlM_nil] at h
    injection h with h'
    rw [← h']
    rfl
  | cons m? ms ih =>
    intro st out h
    rw [List.foldlM_cons] at h
    cases h1 : smartMatchStep gid st m? with
    | error e =>
      rw [h1] at h
      simp [Bind.bind, Except.bind] at h
    | ok st1 =>
      rw [h1] at h
      simp only [Bind.bind, Except.bind] at h
      rw [List.foldl_cons, ← (smartMatchStep_ok_inv gid st m? st1 h1).1]
      exact ih st1 out h

theorem smartFoldM_rows_scoreless (gid : Int) (ms : List (Option MatchJson)) :
    ∀ st out, ms.foldlM (smartMatchStep gid) st = .ok out →
      (∀ r ∈ st.rows, extract_current_score r.2 = none) →
      ∀ r ∈ out.rows, extract_current_score r.2 = none := by
  induction ms with
  | nil =>
    intro st out h hsl
    simp only [List.foldlM_nil] at h
    injection h with h'
    rw [← h']
    exact hsl
  | cons m? ms ih =>
    intro st out h hsl
    rw [List.foldlM_cons] at h
    cases h1 : smartMatchStep gid st m? with
    | error e =>
      rw [h1] at h
      simp [Bind.bind, Except.bind] at h
    | ok st1 =>
      rw [h1] at h
      simp only [Bind.bind, Except.bind] at h
      refine ih st1 out h ?_
      rcases (smartMatchStep_ok_inv gid st m? st1 h1).2 with heq | ⟨m, row, hrows, hx⟩
      · rw [heq]
        exact hsl
      · rw [hrows]
        intro r hr
        rcases List.mem_append.1 hr with hold | hnew
        · exact hsl r hold
        · have hrm : r = (row, m) := by simpa using hnew
          rw [hrm]
          exact hx

theorem matchFold_flat_prefix (ms : List (Option MatchJson)) (st : MatchLoopState) :
    ∃ tail, (ms.foldl matchStepOk st).flat = st.flat ++ tail := by
  induction ms generalizing st with
  | nil => exact ⟨[], (List.append_nil _).symm⟩
  | cons m? ms ih =>
    rw [List.foldl_cons]
    rcases matchStepOk_shape st m? with heq | ⟨m, row, hdb, hflat⟩
    · rw [heq]
      exact ih st
    · rcases ih (matchStepOk st m?) with ⟨tail, htail⟩
      refine ⟨(row, m) :: tail, ?_⟩
      rw [htail, hflat, List.append_assoc]
      rfl

theorem matchFold_gone (ms : List (Option MatchJson)) :
    ∀ st : MatchLoopState,
      (∀ r ∈ st.flat, resultRowOf st.db r.1.openligadb_match_id = none) →
      ∀ r ∈ (ms.foldl matchStepOk st).flat,
        resultRowOf (ms.foldl matchStepOk st).db r.1.openligadb_match_id
          = none := by
  induction ms with
  | nil => exact fun st h => h
  | cons m? ms ih =>
    intro st hgood
    rw [List.foldl_cons]
    refine ih _ ?_
    rcases matchStepOk_shape st m? with heq | ⟨m, row, hdb, hflat⟩
    · rw [heq]
      exact hgood
    · intro r hr
      rw [hflat] at hr
      rw [hdb]
      rcases List.mem_append.1 hr with hold | hnew
      · by_cases he : r.1.openligadb_match_id = row.openligadb_match_id
        · rw [he]
          exact resultRowOf_delete_self _ _
        · rw [resultRowOf_delete_other _ _ _ he]
          unfold resultRowOf
          rw [(upsert_match_row_frame st.db row).1]
          exact hgood r hold
      · have hrm : r = (row, m) := by simpa using hnew
        rw [hrm]
        exact resultRowOf_delete_self _ _

theorem smartFold_rows_prefix (gid : Int) (ms : List (Option MatchJson))
    (st : SmartMatchState) :
    ∃ tail, (ms.foldl (smartMatchStepOk gid) st).rows = st.rows ++ tail := by
  induction ms generalizing st with
  | nil => exact ⟨[], (List.append_nil _).symm⟩
  | cons m? ms ih =>
    rw [List.foldl_cons]
    rcases smartMatchStepOk_shape gid st m? with heq | ⟨m, row, hdb, hrows⟩
    · rw [heq]
      exact ih st
    · rcases ih (smartMatchStepOk gid st m?) with ⟨tail, htail⟩
      refine ⟨(row, m) :: tail, ?_⟩
      rw [htail, hrows, List.append_assoc]
      rfl

theorem smartFold_gone (gid : Int) (ms : List (Option MatchJson)) :
    ∀ st : SmartMatchState,
      (∀ r ∈ st.rows, resultRowOf st.db r.1.openligadb_match_id = none) →
      ∀ r ∈ (ms.foldl (smartMatchStepOk gid) st).rows,
        resultRowOf (ms.foldl (smartMatchStepOk gid) st).db
          r.1.openligadb_match_id = none := by
  induction ms with
  | nil => exact fun st h => h
  | cons m? ms ih =>
    intro st hgood
    rw [List.foldl_cons]
    refine ih _ ?_
    rcases smartMatchStepOk_shape gid st m? with heq | ⟨m, row, hdb, hrows⟩
    · rw [heq]
      exact hgood
    · intro r hr
      rw [hrows] at hr
      rw [hdb]
      rcases List.mem_append.1 hr with hold | hnew
      · by_cases he : r.1.openligadb_match_id = row.openligadb_match_id
        · rw [he]
          exact resultRowOf_delete_self _ _
        · rw [resultRowOf_delete_other _ _ _ he]
          unfold resultRowOf
          rw [(upsert_match_row_frame st.db row).1]
          exact hgood r hold
      · have hrm : r = (row, m) := by simpa using hnew
        rw [hrm]
        exact resultRowOf_delete_self _ _

theorem smartFold_results_other (gid : Int) (ms : List (Option MatchJson))
    (st : SmartMatchState) (mid2 : Int)
    (h : mid2 ∉ rowIds (ms.foldl (smartMatchStepOk gid) st).rows) :
    resultRowOf (ms.foldl (smartMatchStepOk gid) st).db mid2
      = resultRowOf st.db mid2 := by
  induction ms generalizing st with
  | nil => rfl
  | cons m? ms ih =>
    rw [List.foldl_cons] at h ⊢
    rcases smartMatchStepOk_shape gid st m? with heq | ⟨m, row, hdb, hrows⟩
    · rw [heq] at h ⊢
      exact ih st h
    · have hne : mid2 ≠ row.openligadb_match_id := by
        rcases smartFold_rows_prefix gid ms (smartMatchStepOk gid st m?)
          with ⟨tail, htail⟩
        intro he
        apply h
        rw [htail, hrows]
        unfold rowIds
        rw [List.map_append, List.map_append]
        exact List.mem_append.2 (Or.inl (List.mem_append.2 (Or.inr (by simp [he]))))
      rw [ih (smartMatchStepOk gid st m?) h, hdb,
        resultRowOf_delete_other _ _ _ hne]
      unfold resultRowOf
      rw [(upsert_match_row_frame st.db row).1]

theorem firstGoalPhase_results (grouped : List (Int × List (MatchRow × MatchJson)))
    (db : DB) :
    (firstGoalPhase grouped db).results = db.results := by
  unfold firstGoalPhase
  induction grouped generalizing db with
  | nil => rfl
  | cons p l ih =>
    rw [List.foldl_cons]
    refine (ih _).trans ?_
    cases mdRowOf db p.1 with
    | none => rfl
    | some md => exact (setMatchdayRow_frame db p.1 _).1

theorem ensure_matchday_results (db : DB) (g : GroupJson)
    (ms : List (Option MatchJson)) (s : ImportSummary) :
    (ensure_matchday db g ms s).1.results = db.results := by
  unfold ensure_matchday
  cases groupIdOf g with
  | none => rfl
  | some gid =>
    dsimp only
    cases compute_earliest_kickoff ms with
    | none => rfl
    | some e =>
      dsimp only
      cases mdRowOf db gid with
      | none => rfl
      | some md =>
        dsimp only
        by_cases hc : pyStrip (g.groupName.getD "") ≠ ""
            ∧ md.name ≠ pyStrip (g.groupName.getD "")
        · rw [if_pos hc]
          exact (setMatchdayRow_frame db gid _).1
        · rw [if_neg hc]

theorem teamKeyStep_results (st : DB × ImportSummary × List Int)
    (t? : Option TeamJson) (st1 : DB × ImportSummary × List Int)
    (h : teamKeyStep st t? = .ok st1) :
    st1.1.results = st.1.results := by
  unfold teamKeyStep at h
  cases t? with
  | none =>
    injection h with h'
    rw [← h']
  | some tj =>
    dsimp only at h
    cases hx : extract_team_fields tj with
    | error e =>
      rw [hx] at h
      simp at h
    | ok q =>
      obtain ⟨tid, n, sn, iu⟩ := q
      rw [hx] at h
      dsimp only at h
      by_cases hc : st.2.2.contains tid = true
      · rw [if_pos hc] at h
        injection h with h'
        rw [← h']
      · rw [if_neg hc] at h
        injection h with h'
        rw [← h']
        exact (upsert_team_frame st.1 tid n sn iu).1

theorem smartTeamStep_results (st : DB × ImportSummary × List Int)
    (m? : Option MatchJson) (st1 : DB × ImportSummary × List Int)
    (h : smartTeamStep st m? = .ok st1) :
    st1.1.results = st.1.results := by
  unfold smartTeamStep at h
  cases m? with
  | none =>
    injection h with h'
    rw [← h']
  | some m =>
    dsimp only at h
    cases h1 : teamKeyStep st m.team1 with
    | error e =>
      rw [h1] at h
      simp at h
    | ok stA =>
      rw [h1] at h
      dsimp only at h
      exact (teamKeyStep_results _ _ _ h).trans (teamKeyStep_results _ _ _ h1)

theorem smartTeamFold_results (ms : List (Option MatchJson)) :
    ∀ st st1, ms.foldlM smartTeamStep st = .ok st1 →
      st1.1.results = st.1.results := by
  induction ms with
  | nil =>
    intro st st1 h
    simp only [List.foldlM_nil] at h
    injection h with h'
    rw [← h']
  | cons m? ms ih =>
    intro st st1 h
    rw [List.foldlM_cons] at h
    cases h1 : smartTeamStep st m? with
    | error e =>
      rw [h1] at h
      simp [Bind.bind, Except.bind] at h
    | ok stA =>
      rw [h1] at h
      simp only [Bind.bind, Except.bind] at h
      exact (ih _ _ h).trans (smartTeamStep_results _ _ _ h1)

theorem resultRowOf_congr (db db' : DB) (h : db.results = db'.results) (k : Int) :
    resultRowOf db k = resultRowOf db' k := by
  unfold resultRowOf
  rw [h]

theorem import_one_good (db : DB) (g : GroupJson) (ms : List (Option MatchJson))
    (dt : Int) (s : ImportSummary) (db2 : DB) (s2 : ImportSummary)
    (r2 : List (MatchRow × MatchJson))
    (h : import_one_matchday db g ms dt s = .ok (db2, s2, r2)) :
    (∀ r ∈ r2, extract_current_score r.2 = none)
    ∧ (∀ r ∈ r2, resultRowOf db2 r.1.openligadb_match_id = none)
    ∧ ∀ mid2, mid2 ∉ rowIds r2 → resultRowOf db2 mid2 = resultRowOf db mid2 := by
  unfold import_one_matchday at h
  dsimp only at h
  split at h
  · injection h with hp
    injection hp with h1 hp2
    injection hp2 with h2 h3
    subst h1
    subst h3
    refine ⟨fun r hr => absurd hr (List.not_mem_nil r),
      fun r hr => absurd hr (List.not_mem_nil r), ?_⟩
    intro mid2 hm2
    exact resultRowOf_congr _ _ (ensure_matchday_results db g ms s) mid2
  · rename_i gid hgid
    split at h
    · simp at h
    · rename_i dbT sT seenT heq2
      split at h
      · simp at h
      · rename_i st3 heq3
        injection h with hp
        injection hp with h1 hp2
        injection hp2 with h2 h3
        subst h1
        subst h3
        refine ⟨smartFoldM_rows_scoreless gid ms _ st3 heq3
          (fun r hr => absurd hr (List.not_mem_nil r)), ?_, ?_⟩
        all_goals
          have hst3 := smartFoldM_ok gid ms _ st3 heq3
          subst hst3
        · have hres : (setMatchdayRow
              (match mdRowOf (ms.foldl (smartMatchStepOk gid) ⟨dbT, sT, []⟩).db gid with
                | none => (ms.foldl (smartMatchStepOk gid) ⟨dbT, sT, []⟩).db
                | some md_obj =>
                  setMatchdayRow (ms.foldl (smartMatchStepOk gid) ⟨dbT, sT, []⟩).db gid
                    fun _ => compute_matchday_first_goal md_obj
                      (ms.foldl (smartMatchStepOk gid) ⟨dbT, sT, []⟩).rows) gid
              fun md => { md with openligadb_last_changed_at := some dt }).results
              = (ms.foldl (smartMatchStepOk gid) ⟨dbT, sT, []⟩).db.results := by
            rw [(setMatchdayRow_frame _ _ _).1]
            cases mdRowOf (ms.foldl (smartMatchStepOk gid) ⟨dbT, sT, []⟩).db gid with
            | none => rfl
            | some md => exact (setMatchdayRow_frame _ _ _).1
          intro r hr
          rw [resultRowOf_congr _ ((ms.foldl (smartMatchStepOk gid) ⟨dbT, sT, []⟩).db)
            hres _]
          exact smartFold_gone gid ms ⟨dbT, sT, []⟩
            (fun r hr => absurd hr (List.not_mem_nil r)) r hr
        · have hres : (setMatchdayRow
              (match mdRowOf (ms.foldl (smartMatchStepOk gid) ⟨dbT, sT, []⟩).db gid with
                | none => (ms.foldl (smartMatchStepOk gid) ⟨dbT, sT, []⟩).db
                | some md_obj =>
                  setMatchdayRow (ms.foldl (smartMatchStepOk gid) ⟨dbT, sT, []⟩).db gid
                    fun _ => compute_matchday_first_goal md_obj
                      (ms.foldl (smartMatchStepOk gid) ⟨dbT, sT, []⟩).rows) gid
              fun md => { md with openligadb_last_changed_at := some dt }).results
              = (ms.foldl (smartMatchStepOk gid) ⟨dbT, sT, []⟩).db.results := by
            rw [(setMatchdayRow_frame _ _ _).1]
            cases mdRowOf (ms.foldl (smartMatchStepOk gid) ⟨dbT, sT, []⟩).db gid with
            | none => rfl
            | some md => exact (setMatchdayRow_frame _ _ _).1
          intro mid2 hm2
          rw [resultRowOf_congr _ ((ms.foldl (smartMatchStepOk gid) ⟨dbT, sT, []⟩).db)
            hres mid2]
          rw [smartFold_results_other gid ms ⟨dbT, sT, []⟩ mid2 hm2]
          have hT := smartTeamFold_results ms _ _ heq2
          have hE := ensure_matchday_results db g ms s
          exact resultRowOf_congr _ _ (hT.trans hE) mid2

theorem smartLoop_rows_prefix (feed : Feed) (planned : List (Int × Int)) :
    ∀ db s rows seen db' s' rows',
      smartLoop feed planned db s rows seen = RunOutcome.ok db' s' rows' →
      ∃ tail, rows' = rows ++ tail := by
  induction planned with
  | nil =>
    intro db s rows seen db' s' rows' h
    simp only [smartLoop] at h
    injection h with h1 h2 h3
    exact ⟨[], by rw [← h3, List.append_nil]⟩
  | cons p rest ih =>
    obtain ⟨gid, dt⟩ := p
    intro db s rows seen db' s' rows' h
    simp only [smartLoop] at h
    cases h1 : feed.matchdayMatches gid with
    | error e =>
      rw [h1] at h
      dsimp only at h
      exact ih db s rows seen db' s' rows' h
    | ok mg =>
      rw [h1] at h
      dsimp only at h
      cases h2 : import_one_matchday db (groupById feed.groups gid) mg dt s with
      | error e =>
        rw [h2] at h
        dsimp only at h
        simp at h
      | ok trip =>
        obtain ⟨db2, s2, r2⟩ := trip
        rw [h2] at h
        dsimp only at h
        rcases ih db2 s2 (rows ++ r2) (seen + mg.length) db' s' rows' h with ⟨t, ht⟩
        exact ⟨r2 ++ t, by rw [ht, List.append_assoc]⟩

theorem smartLoop_gone (feed : Feed) (planned : List (Int × Int)) :
    ∀ db s rows seen db' s' rows',
      smartLoop feed planned db s rows seen = RunOutcome.ok db' s' rows' →
      (∀ r ∈ rows, extract_current_score r.2 = none
        ∧ resultRowOf db r.1.openligadb_match_id = none) →
      ∀ r ∈ rows', extract_current_score r.2 = none
        ∧ resultRowOf db' r.1.openligadb_match_id = none := by
  induction planned with
  | nil =>
    intro db s rows seen db' s' rows' h hgood
    simp only [smartLoop] at h
    injection h with h1 h2 h3
    subst h1
    subst h3
    exact hgood
  | cons p rest ih =>
    obtain ⟨gid, dt⟩ := p
    intro db s rows seen db' s' rows' h hgood
    simp only [smartLoop] at h
    cases h1 : feed.matchdayMatches gid with
    | error e =>
      rw [h1] at h
      dsimp only at h
      exact ih db s rows seen db' s' rows' h hgood
    | ok mg =>
      rw [h1] at h
      dsimp only at h
      cases h2 : import_one_matchday db (groupById feed.groups gid) mg dt s with
      | error e =>
        rw [h2] at h
        dsimp only at h
        simp at h
      | ok trip =>
        obtain ⟨db2, s2, r2⟩ := trip
        rw [h2] at h
        dsimp only at h
        have hio := import_one_good db _ mg dt s db2 s2 r2 h2
        refine ih db2 s2 (rows ++ r2) (seen + mg.length) db' s' rows' h ?_
        intro r hr
        rcases List.mem_append.1 hr with hold | hnew
        · refine ⟨(hgood r hold).1, ?_⟩
          by_cases hin : r.1.openligadb_match_id ∈ rowIds r2
          · have hin' : r.1.openligadb_match_id
                ∈ r2.map fun q => q.1.openligadb_match_id := hin
            obtain ⟨r', hr', hre⟩ := List.mem_map.1 hin'
            rw [← hre]
            exact hio.2.1 r' hr'
          · rw [hio.2.2 r.1.openligadb_match_id hin]
            exact (hgood r hold).2
        · exact ⟨hio.1 r hnew, hio.2.1 r hnew⟩

theorem bootstrap_gone (feed : Feed) (db db' : DB) (s : ImportSummary)
    (rows : List (MatchRow × MatchJson))
    (h : bootstrap_season feed db = .ok (db', s, rows)) :
    ∀ r ∈ rows, extract_current_score r.2 = none
      ∧ resultRowOf db' r.1.openligadb_match_id = none := by
  unfold bootstrap_season at h
  dsimp only at h
  split at h
  · simp at h
  · rename_i lname hln
    split at h
    · simp at h
    · rename_i db2 s1 seen1 hbt
      split at h
      · simp at h
      · rename_i earliest hek
        split at h
        · simp at h
        · rename_i db3 s3 dlOrders hgs
          split at h
          · simp at h
          · rename_i stM heqM
            injection h with hp
            injection hp with h1 hp2
            injection hp2 with h2 h3
            subst h1
            subst h3
            intro r hr
            refine ⟨matchFoldM_flat_scoreless _ _ _ heqM
              (fun r hr => absurd hr (List.not_mem_nil r)) r hr, ?_⟩
            refine (resultRowOf_congr _ _ (firstGoalPhase_results _ _) _).trans ?_
            have hstM := matchFoldM_ok _ _ _ heqM
            rw [hstM] at hr ⊢
            exact matchFold_gone _ _
              (fun r hr => absurd hr (List.not_mem_nil r)) r hr

/-- C2 is defeated by a field-name bug: _upsert_match_result reads and writes
home_goals_ft and away_goals_ft, columns matches.models.MatchResult does not
define, so its score-present path always raises. Consequently no completed
run of bootstrap_season or update_season_smart processes a match with an
extractable score or leaves a MatchResult row for any processed match, and on
a concrete feed carrying a final 2:1 result both entry points abort with the
FieldError instead of storing the score: the claimed score-storing branch of
the invariant is unreachable. -/
theorem match_result_field_bug :
    (∀ (feed : Feed) (db db' : DB) (s : ImportSummary)
        (rows : List (MatchRow × MatchJson)),
      bootstrap_season feed db = .ok (db', s, rows) →
      ∀ r ∈ rows, extract_current_score r.2 = none
        ∧ resultRowOf db' r.1.openligadb_match_id = none)
    ∧ (∀ (feed : Feed) (db db' : DB) (s : ImportSummary)
        (rows : List (MatchRow × MatchJson)),
      update_season_smart feed db = RunOutcome.ok db' s rows →
      ∀ r ∈ rows, extract_current_score r.2 = none
        ∧ resultRowOf db' r.1.openligadb_match_id = none)
    ∧ extract_current_score c2Match = some (2, 1)
    ∧ bootstrap_season c2Feed c2Db0 = .error fieldErrMsg
    ∧ update_season_smart c2Feed c2DbS = RunOutcome.aborted c2DbS fieldErrMsg := by
  refine ⟨fun feed db db' s rows h => bootstrap_gone feed db db' s rows h,
    ?_, by decide, rfl, rfl⟩
  intro feed db db' s rows h
  unfold update_season_smart at h
  split at h
  · simp at h
  · split at h
    · simp at h
    · exact smartLoop_gone feed (smartPlanned feed db) db _ [] 0 db' s rows h
        (fun r hr => absurd hr (List.not_mem_nil r))

/-- Witness for the universally quantified halves of the bug statement: a
concrete scoreless feed on which both entry points complete, processing one
match and leaving it scoreless and without a result row. -/
theorem match_result_field_bug_witness :
    (bootstrap_season scorelessFeed c2Db0
        = .ok (slBootOut.1, slBootOut.2.1, slBootOut.2.2)
      ∧ slBootOut.2.2 ≠ []
      ∧ ∀ r ∈ slBootOut.2.2, extract_current_score r.2 = none
          ∧ resultRowOf slBootOut.1 r.1.openligadb_match_id = none)
    ∧ (update_season_smart scorelessFeed c2DbS
        = RunOutcome.ok slSmartOut.1 slSmartOut.2.1 slSmartOut.2.2
      ∧ slSmartOut.2.2 ≠ []
      ∧ ∀ r ∈ slSmartOut.2.2, extract_current_score r.2 = none
          ∧ resultRowOf slSmartOut.1 r.1.openligadb_match_id = none) :=
  ⟨⟨rfl, by decide,
      match_result_field_bug.1 scorelessFeed c2Db0 slBootOut.1 slBootOut.2.1
        slBootOut.2.2 rfl⟩,
    ⟨rfl, by decide,
      match_result_field_bug.2.1 scorelessFeed c2DbS slSmartOut.1 slSmartOut.2.1
        slSmartOut.2.2 rfl⟩⟩

/-! ### Smart-update failure handling (C7) -/

/-- Match record whose team1 object lacks a teamId, raising inside
_import_one_matchday. -/
def c7BadMatch : MatchJson :=
  ⟨some 5, some (some 1), .val 100, false,
    some ⟨none, some "X", none, none⟩,
    some ⟨some 20, some "B", none, none⟩, [], [], none⟩

/-- Feed with two changed matchdays whose first one fails inside the
per-matchday import. -/
def c7Feed : Feed :=
  ⟨[], [some ⟨some 1, none, some "Round 1"⟩, some ⟨some 2, none, some "Round 2"⟩],
    fun _ => .ok 500,
    fun gid => if gid = 1 then .ok [some c7BadMatch] else .ok [some c2Match]⟩

/-- Counterexample to claim C7 as stated: the failure inside the first planned
matchday import is not contained; the run aborts with the store rolled back to
its previous state, and the second planned matchday, although importable, is
never processed (the store still has no matchday 2 afterwards). -/
theorem smart_abort_counterexample :
    update_season_smart c7Feed c2DbS
        = RunOutcome.aborted c2DbS "Missing teamId in team JSON"
      ∧ (2, 500) ∈ smartPlanned c7Feed c2DbS
      ∧ mdRowOf c2DbS 2 = none := by
  refine ⟨rfl, by decide, rfl⟩

/-- C7 amended: a failed fetch of one planned matchday is caught and exactly
that matchday is skipped, the loop continuing with the remaining planned
matchdays on the unchanged store; a failure inside _import_one_matchday is not
caught: it aborts the run, keeping the store committed so far and leaving the
remaining planned matchdays unprocessed. Such failures include, besides data
errors like a missing teamId, the FieldError the result upsert raises on every
match with an extractable score, so any planned matchday containing a scored
match aborts the run. -/
theorem smart_failure_containment :
    (∀ (feed : Feed) (gid dt : Int) (rest : List (Int × Int)) (db : DB)
        (s : ImportSummary) (rows : List (MatchRow × MatchJson)) (seen : Nat)
        (e : String),
      feed.matchdayMatches gid = .error e →
      smartLoop feed ((gid, dt) :: rest) db s rows seen
        = smartLoop feed rest db s rows seen)
    ∧ (∀ (feed : Feed) (gid dt : Int) (rest : List (Int × Int)) (db : DB)
        (s : ImportSummary) (rows : List (MatchRow × MatchJson)) (seen : Nat)
        (mg : List (Option MatchJson)) (e : String),
      feed.matchdayMatches gid = .ok mg →
      import_one_matchday db (groupById feed.groups gid) mg dt s = .error e →
      smartLoop feed ((gid, dt) :: rest) db s rows seen
        = RunOutcome.aborted db e) := by
  constructor
  · intro feed gid dt rest db s rows seen e h
    simp only [smartLoop]
    rw [h]
  · intro feed gid dt rest db s rows seen mg e h1 h2
    simp only [smartLoop]
    rw [h1]
    dsimp only
    rw [h2]

/-- Witness for the amended C7 at concrete feeds: a fetch failure is skipped;
an import failure aborts, both for a missing teamId and for the result-upsert
FieldError on a scored match. -/
theorem smart_failure_containment_witness :
    (c2Feed.matchdayMatches 2 = .error "fetch failed"
      ∧ smartLoop c2Feed [(2, 500)] c2DbS {} [] 0
          = smartLoop c2Feed [] c2DbS {} [] 0)
    ∧ (c7Feed.matchdayMatches 1 = .ok [some c7BadMatch]
      ∧ import_one_matchday c2DbS (groupById c7Feed.groups 1) [some c7BadMatch]
          500 {} = .error "Missing teamId in team JSON"
      ∧ smartLoop c7Feed [(1, 500)] c2DbS {} [] 0
          = RunOutcome.aborted c2DbS "Missing teamId in team JSON")
    ∧ (c2Feed.matchdayMatches 1 = .ok [some c2Match]
      ∧ import_one_matchday c2DbS (groupById c2Feed.groups 1) [some c2Match]
          500 {} = .error fieldErrMsg
      ∧ smartLoop c2Feed [(1, 500)] c2DbS {} [] 0
          = RunOutcome.aborted c2DbS fieldErrMsg) :=
  ⟨⟨rfl, smart_failure_containment.1 c2Feed 2 500 [] c2DbS {} [] 0
      "fetch failed" rfl⟩,
    ⟨rfl, rfl, smart_failure_containment.2 c7Feed 1 500 [] c2DbS {} [] 0
      [some c7BadMatch] "Missing teamId in team JSON" rfl rfl⟩,
    ⟨rfl, rfl, smart_failure_containment.2 c2Feed 1 500 [] c2DbS {} [] 0
      [some c2Match] fieldErrMsg rfl rfl⟩⟩

/-! ### Smart-update planning and stamping (C6) -/

/-- The locally stored openligadb_last_changed_at of a matchday ordinal. -/
def stampOf (db : DB) (gid : Int) : Option Int :=
  (mdRowOf db gid).bind fun md => md.openligadb_last_changed_at

/-- Feed whose only changed matchday has an empty match list: the matchday is
fetched but no earliest kickoff is determinable, so nothing is written and in
particular no timestamp is stamped. -/
def c6Feed : Feed :=
  ⟨[], [some ⟨some 1, none, some "Round 1"⟩], fun _ => .ok 500, fun _ => .ok []⟩

/-- A determinable, scoreless match: importing its matchday completes and
stamps the fetched timestamp. -/
def c6GoodMatch : MatchJson :=
  ⟨some 7, some (some 1), .val 100, false,
    some ⟨some 10, some "A", some "A", some ""⟩,
    some ⟨some 20, some "B", some "B", some ""⟩, [], [], some "L"⟩

def c6Out : DB × ImportSummary × List (MatchRow × MatchJson) :=
  match import_one_matchday c2DbS (groupById c6Feed.groups 1) [some c6GoodMatch]
      500 {} with
  | .ok t => t
  | .error _ => (c2DbS, {}, [])

theorem compute_matchday_first_goal_order (md : MatchdayRow)
    (rows : List (MatchRow × MatchJson)) :
    (compute_matchday_first_goal md rows).order_id = md.order_id := by
  unfold compute_matchday_first_goal
  split
  · split
    · rfl
    · rfl
  · split
    · rfl
    · rfl

theorem mdRowOf_set_const (db : DB) (o : Int) (c : MatchdayRow) (md : MatchdayRow)
    (hmd : mdRowOf db o = some md) (hc : c.order_id = o) :
    mdRowOf (setMatchdayRow db o (fun _ => c)) o = some c := by
  unfold mdRowOf setMatchdayRow
  dsimp only
  rw [rowOf_map_const_self _ _ _ _ hc]
  unfold mdRowOf at hmd
  rw [hmd]
  rfl

theorem stampOf_setMatchdayRow_self (db : DB) (o dt : Int) (md : MatchdayRow)
    (hmd : mdRowOf db o = some md) :
    stampOf (setMatchdayRow db o
      (fun md => { md with openligadb_last_changed_at := some dt })) o
      = some dt := by
  unfold stampOf mdRowOf setMatchdayRow
  dsimp only
  rw [rowOf_map_update_self (fun m : MatchdayRow => m.order_id) _ _
    (fun md => { md with openligadb_last_changed_at := some dt }) (fun r => rfl)]
  unfold mdRowOf at hmd
  rw [hmd]
  rfl

theorem teamKeyStep_matchdays (st : DB × ImportSummary × List Int)
    (t? : Option TeamJson) (st1 : DB × ImportSummary × List Int)
    (h : teamKeyStep st t? = .ok st1) :
    st1.1.matchdays = st.1.matchdays := by
  unfold teamKeyStep at h
  cases t? with
  | none =>
    injection h with h'
    rw [← h']
  | some tj =>
    dsimp only at h
    cases hx : extract_team_fields tj with
    | error e =>
      rw [hx] at h
      simp at h
    | ok q =>
      obtain ⟨tid, n, sn, iu⟩ := q
      rw [hx] at h
      dsimp only at h
      by_cases hc : st.2.2.contains tid = true
      · rw [if_pos hc] at h
        injection h with h'
        rw [← h']
      · rw [if_neg hc] at h
        injection h with h'
        rw [← h']
        exact (upsert_team_frame st.1 tid n sn iu).2.1

theorem smartTeamStep_matchdays (st : DB × ImportSummary × List Int)
    (m? : Option MatchJson) (st1 : DB × ImportSummary × List Int)
    (h : smartTeamStep st m? = .ok st1) :
    st1.1.matchdays = st.1.matchdays := by
  unfold smartTeamStep at h
  cases m? with
  | none =>
    injection h with h'
    rw [← h']
  | some m =>
    dsimp only at h
    cases h1 : teamKeyStep st m.team1 with
    | error e =>
      rw [h1] at h
      simp at h
    | ok stA =>
      rw [h1] at h
      dsimp only at h
      exact (teamKeyStep_matchdays _ _ _ h).trans (teamKeyStep_matchdays _ _ _ h1)

theorem smartTeamFold_matchdays (ms : List (Option MatchJson)) :
    ∀ st st1, ms.foldlM smartTeamStep st = .ok st1 →
      st1.1.matchdays = st.1.matchdays := by
  induction ms with
  | nil =>
    intro st st1 h
    simp only [List.foldlM_nil] at h
    injection h with h'
    rw [← h']
  | cons m? ms ih =>
    intro st st1 h
    rw [List.foldlM_cons] at h
    cases h1 : smartTeamStep st m? with
    | error e =>
      rw [h1] at h
      simp [Bind.bind, Except.bind] at h
    | ok stA =>
      rw [h1] at h
      simp only [Bind.bind, Except.bind] at h
      exact (ih _ _ h).trans (smartTeamStep_matchdays _ _ _ h1)

theorem smartFold_db_matchdays (gid : Int) (ms : List (Option MatchJson))
    (st : SmartMatchState) :
    (ms.foldl (smartMatchStepOk gid) st).db.matchdays = st.db.matchdays := by
  induction ms generalizing st with
  | nil => rfl
  | cons m? ms ih =>
    rw [List.foldl_cons]
    refine (ih _).trans ?_
    rcases smartMatchStepOk_shape gid st m? with heq | ⟨m, row, hdb, hrows⟩
    · rw [heq]
    · rw [hdb, (deleteResult_frame _ _).2.1,
        (upsert_match_row_frame _ _).2.1]

theorem ensure_matchday_none (db : DB) (g : GroupJson)
    (ms : List (Option MatchJson)) (s : ImportSummary)
    (h : (ensure_matchday db g ms s).2.2 = none) :
    (ensure_matchday db g ms s).1 = db := by
  unfold ensure_matchday at h ⊢
  cases hg : groupIdOf g with
  | none => rfl
  | some gid0 =>
    rw [hg] at h
    dsimp only at h ⊢
    cases he : compute_earliest_kickoff ms with
    | none => rfl
    | some e =>
      rw [he] at h
      dsimp only at h ⊢
      cases hmd : mdRowOf db gid0 with
      | none =>
        rw [hmd] at h
        simp at h
      | some md0 =>
        rw [hmd] at h
        dsimp only at h
        by_cases hc : pyStrip (g.groupName.getD "") ≠ ""
            ∧ md0.name ≠ pyStrip (g.groupName.getD "")
        · rw [if_pos hc] at h
          simp at h
        · rw [if_neg hc] at h
          simp at h

theorem ensure_matchday_some_row (db : DB) (g : GroupJson)
    (ms : List (Option MatchJson)) (s : ImportSummary) (gid : Int)
    (h : (ensure_matchday db g ms s).2.2 = some gid) :
    ∃ md, mdRowOf (ensure_matchday db g ms s).1 gid = some md := by
  unfold ensure_matchday at h ⊢
  cases hg : groupIdOf g with
  | none =>
    rw [hg] at h
    simp at h
  | some gid0 =>
    rw [hg] at h
    dsimp only at h ⊢
    cases he : compute_earliest_kickoff ms with
    | none =>
      rw [he] at h
      simp at h
    | some e =>
      rw [he] at h
      dsimp only at h ⊢
      cases hmd : mdRowOf db gid0 with
      | none =>
        rw [hmd] at h
        dsimp only at h ⊢
        injection h with h'
        subst h'
        refine ⟨⟨gid0, pyStrip (g.groupName.getD ""),
          compute_deadline_before_kickoff e, none, none, none, none⟩, ?_⟩
        unfold mdRowOf at hmd ⊢
        dsimp only
        rw [rowOf_append_single, hmd]
        simp
      | some md0 =>
        rw [hmd] at h
        dsimp only at h ⊢
        by_cases hc : pyStrip (g.groupName.getD "") ≠ ""
            ∧ md0.name ≠ pyStrip (g.groupName.getD "")
        · rw [if_pos hc] at h ⊢
          dsimp only at h
          injection h with h'
          subst h'
          refine ⟨{ md0 with name := pyStrip (g.groupName.getD "") }, ?_⟩
          unfold mdRowOf setMatchdayRow
          dsimp only
          rw [rowOf_map_update_self (fun m : MatchdayRow => m.order_id) _ _
            (fun md => { md with name := pyStrip (g.groupName.getD "") })
            (fun r => rfl)]
          unfold mdRowOf at hmd
          rw [hmd]
          rfl
        · rw [if_neg hc] at h ⊢
          dsimp only at h
          injection h with h'
          subst h'
          exact ⟨md0, hmd⟩

theorem import_one_stamp (db : DB) (g : GroupJson) (ms : List (Option MatchJson))
    (dt : Int) (s : ImportSummary) (db2 : DB) (s2 : ImportSummary)
    (r2 : List (MatchRow × MatchJson))
    (h : import_one_matchday db g ms dt s = .ok (db2, s2, r2)) :
    (∀ gid, (ensure_matchday db g ms s).2.2 = some gid →
      stampOf db2 gid = some dt)
    ∧ ((ensure_matchday db g ms s).2.2 = none → db2 = db ∧ r2 = []) := by
  unfold import_one_matchday at h
  dsimp only at h
  split at h
  · rename_i hnone
    injection h with hp
    injection hp with h1 hp2
    injection hp2 with h2 h3
    subst h1
    subst h3
    constructor
    · intro gid hg
      rw [hnone] at hg
      exact absurd hg (by simp)
    · intro _
      exact ⟨ensure_matchday_none db g ms s hnone, rfl⟩
  · rename_i gid0 hsome
    split at h
    · simp at h
    · rename_i dbT sT seenT heq2
      split at h
      · simp at h
      · rename_i st3 heq3
        injection h with hp
        injection hp with h1 hp2
        injection hp2 with h2 h3
        subst h1
        subst h3
        have hst3 := smartFoldM_ok gid0 ms _ st3 heq3
        subst hst3
        constructor
        · intro gid hg
          rw [hsome] at hg
          injection hg with h'
          subst h'
          obtain ⟨md1, hmd1⟩ := ensure_matchday_some_row db g ms s gid0 hsome
          have hTm : dbT.matchdays = (ensure_matchday db g ms s).1.matchdays := by
            have := smartTeamFold_matchdays ms _ _ heq2
            exact this
          have hmd3 : mdRowOf (ms.foldl (smartMatchStepOk gid0) ⟨dbT, sT, []⟩).db gid0
              = some md1 := by
            unfold mdRowOf
            rw [smartFold_db_matchdays, hTm]
            exact hmd1
          rw [hmd3]
          dsimp only
          have hkeyC : (compute_matchday_first_goal md1
              (ms.foldl (smartMatchStepOk gid0) ⟨dbT, sT, []⟩).rows).order_id = gid0 := by
            rw [compute_matchday_first_goal_order]
            exact rowOf_key _ _ _ _ hmd3
          exact stampOf_setMatchdayRow_self _ gid0 dt _
            (mdRowOf_set_const _ gid0 _ md1 hmd3 hkeyC)
        · intro hnone
          rw [hsome] at hnone
          exact absurd hnone (by simp)

theorem smartPlanned_mem (feed : Feed) (db : DB) (gids : List Int)
    (hg : smartGroupIds feed.groups = .ok gids) (gid dt : Int) :
    ((gid, dt) ∈ smartPlanned feed db ↔
      (gid ∈ gids.foldl insertUniq []
        ∧ feed.lastChanged gid = .ok dt
        ∧ ∀ d, stampOf db gid = some d → dt > d)) := by
  unfold smartPlanned
  rw [hg]
  dsimp only
  rw [(List.perm_insertionSort plannedLe _).mem_iff, List.mem_filterMap]
  constructor
  · rintro ⟨a, ha, hfa⟩
    revert hfa
    cases hlc : feed.lastChanged a with
    | error e =>
      intro hfa
      simp at hfa
    | ok dt0 =>
      intro hfa
      dsimp only at hfa
      cases hst : (mdRowOf db a).bind (fun md => md.openligadb_last_changed_at) with
      | none =>
        rw [hst] at hfa
        dsimp only at hfa
        injection hfa with h'
        injection h' with h1 h2
        subst h1
        subst h2
        refine ⟨ha, hlc, ?_⟩
        intro d hd
        unfold stampOf at hd
        rw [hst] at hd
        exact absurd hd (by simp)
      | some d0 =>
        rw [hst] at hfa
        dsimp only at hfa
        by_cases hgt : dt0 > d0
        · rw [if_pos hgt] at hfa
          injection hfa with h'
          injection h' with h1 h2
          subst h1
          subst h2
          refine ⟨ha, hlc, ?_⟩
          intro d hd
          unfold stampOf at hd
          rw [hst] at hd
          injection hd with h''
          rw [← h'']
          exact hgt
        · rw [if_neg hgt] at hfa
          exact absurd hfa (by simp)
  · rintro ⟨hmem, hlc, hstamp⟩
    refine ⟨gid, hmem, ?_⟩
    dsimp only
    rw [hlc]
    dsimp only
    cases hst : (mdRowOf db gid).bind (fun md => md.openligadb_last_changed_at) with
    | none => rfl
    | some d =>
      dsimp only
      rw [if_pos (hstamp d (by unfold stampOf; rw [hst]))]

theorem smartPlanned_sorted (feed : Feed) (db : DB) :
    (smartPlanned feed db).Sorted plannedLe := by
  unfold smartPlanned
  cases smartGroupIds feed.groups with
  | error e => exact List.sorted_nil
  | ok gids => exact List.sorted_insertionSort plannedLe _

/-- Counterexample to the consequence of claim C6 as stated: on a feed whose
only changed matchday carries no determinable match, the smart update
completes without writing anything, in particular without stamping the fetched
timestamp, so an immediate re-run with unchanged feed timestamps plans that
matchday again instead of planning nothing. -/
theorem smart_stamp_counterexample :
    update_season_smart c6Feed c2DbS
        = RunOutcome.ok c2DbS
          { groups_total := 1, groups_with_matches := 1, matches_total := 0 } []
      ∧ smartPlanned c6Feed c2DbS = [(1, 500)] :=
  ⟨rfl, by decide⟩

/-- C6 amended: a matchday is planned exactly when its group ordinal occurs in
the feed, its change-timestamp fetch succeeds, and the fetched timestamp is
strictly newer than the stored one (a missing stored value counts as changed);
the plan is sorted by ordinal; the per-matchday import stamps the fetched
timestamp in the same transaction as the matchday writes whenever the matchday
is determinable (integer ordinal and an earliest kickoff) and the import
completes — an import aborted partway, for example by the FieldError the
result upsert raises on any match with an extractable score, rolls its
transaction back and stamps nothing — while a planned matchday without
determinable content is left entirely unwritten and in particular unstamped,
so it is planned again by an immediate re-run. -/
theorem smart_planning_spec :
    (∀ (feed : Feed) (db : DB) (gids : List Int) (gid dt : Int),
      smartGroupIds feed.groups = .ok gids →
      ((gid, dt) ∈ smartPlanned feed db ↔
        gid ∈ gids.foldl insertUniq []
        ∧ feed.lastChanged gid = .ok dt
        ∧ ∀ d, stampOf db gid = some d → dt > d))
    ∧ (∀ (feed : Feed) (db : DB), (smartPlanned feed db).Sorted plannedLe)
    ∧ (∀ (db : DB) (g : GroupJson) (ms : List (Option MatchJson)) (dt : Int)
        (s : ImportSummary) (db2 : DB) (s2 : ImportSummary)
        (r2 : List (MatchRow × MatchJson)),
      import_one_matchday db g ms dt s = .ok (db2, s2, r2) →
      (∀ gid, (ensure_matchday db g ms s).2.2 = some gid →
        stampOf db2 gid = some dt)
      ∧ ((ensure_matchday db g ms s).2.2 = none → db2 = db ∧ r2 = [])) :=
  ⟨fun feed db gids gid dt hg => smartPlanned_mem feed db gids hg gid dt,
    smartPlanned_sorted,
    fun db g ms dt s db2 s2 r2 h => import_one_stamp db g ms dt s db2 s2 r2 h⟩

/-- Witness for the amended C6 at concrete inputs: the planning
characterization of the one changed matchday, the sortedness of its plan, the
no-write behaviour of an undeterminable planned matchday, and an actual stamp
written by a completed determinable import. -/
theorem smart_planning_spec_witness :
    (smartGroupIds c2Feed.groups = .ok [1]
      ∧ ((1, 500) ∈ smartPlanned c2Feed c2DbS ↔
          1 ∈ ([1] : List Int).foldl insertUniq []
          ∧ c2Feed.lastChanged 1 = .ok 500
          ∧ ∀ d, stampOf c2DbS 1 = some d → 500 > d))
    ∧ (smartPlanned c2Feed c2DbS).Sorted plannedLe
    ∧ (import_one_matchday c2DbS (groupById c6Feed.groups 1) [] 500 {}
          = .ok (c2DbS, {}, [])
      ∧ (∀ gid,
          (ensure_matchday c2DbS (groupById c6Feed.groups 1) [] {}).2.2 = some gid →
          stampOf c2DbS gid = some 500)
      ∧ ((ensure_matchday c2DbS (groupById c6Feed.groups 1) [] {}).2.2 = none →
          c2DbS = c2DbS ∧ ([] : List (MatchRow × MatchJson)) = []))
    ∧ (import_one_matchday c2DbS (groupById c6Feed.groups 1) [some c6GoodMatch]
          500 {} = .ok (c6Out.1, c6Out.2.1, c6Out.2.2)
      ∧ (ensure_matchday c2DbS (groupById c6Feed.groups 1)
          [some c6GoodMatch] {}).2.2 = some 1
      ∧ stampOf c6Out.1 1 = some 500) :=
  ⟨⟨rfl, smart_planning_spec.1 c2Feed c2DbS [1] 1 500 rfl⟩,
    smart_planning_spec.2.1 c2Feed c2DbS,
    ⟨rfl,
      (smart_planning_spec.2.2 c2DbS (groupById c6Feed.groups 1) [] 500 {}
        c2DbS {} [] rfl).1,
      (smart_planning_spec.2.2 c2DbS (groupById c6Feed.groups 1) [] 500 {}
        c2DbS {} [] rfl).2⟩,
    ⟨rfl, by decide,
      (smart_planning_spec.2.2 c2DbS (groupById c6Feed.groups 1)
        [some c6GoodMatch] 500 {} c6Out.1 c6Out.2.1 c6Out.2.2 rfl).1 1
        (by decide)⟩⟩

/-! ### Bootstrap re-run (C3) -/

theorem rowOf_none_filter_id {β : Type} (key : β → Int) (l : List β) (k : Int)
    (h : rowOf key l k = none) :
    (l.filter fun r => !(key r == k)) = l := by
  induction l with
  | nil => rfl
  | cons x l ih =>
    unfold rowOf at h
    cases hb : (key x == k) with
    | true =>
      simp only [List.find?_cons, hb] at h
      exact absurd h (by simp)
    | false =>
      simp only [List.find?_cons, hb] at h
      rw [List.filter_cons_of_pos (by simp [hb]), ih h]

theorem rowOf_map_write_id {β : Type} (key : β → Int) (l : List β) (k : Int)
    (r : β) (h : rowOf key l k = some r) (hnd : (l.map key).Nodup) :
    (l.map fun x => if key x == k then r else x) = l := by
  induction l with
  | nil => simp [rowOf] at h
  | cons x l ih =>
    rw [List.map_cons] at hnd
    cases hb : (key x == k) with
    | true =>
      unfold rowOf at h
      simp only [List.find?_cons, hb] at h
      injection h with h'
      subst h'
      rw [List.map_cons, if_pos hb]
      congr 1
      apply map_id_of_mem
      intro y hy
      have hx : key x = k := by simpa using hb
      have hnmem := (List.nodup_cons.1 hnd).1
      have hky : key y ≠ k := by
        intro he
        exact hnmem (by rw [hx, ← he]; exact List.mem_map_of_mem key hy)
      rw [if_neg (by simp [hky])]
    | false =>
      unfold rowOf at h
      simp only [List.find?_cons, hb] at h
      rw [List.map_cons, if_neg (by simp [hb]),
        ih h (List.nodup_cons.1 hnd).2]

theorem upsert_match_row_noop (db : DB) (row : MatchRow)
    (h : matchRowOf db row.openligadb_match_id = some row)
    (hnd : (db.matchTable.map (fun m => m.openligadb_match_id)).Nodup) :
    upsert_match_row db row = (db, false) := by
  unfold upsert_match_row
  rw [h]
  dsimp only
  rw [rowOf_map_write_id (fun m : MatchRow => m.openligadb_match_id) _ _ _ h hnd]

theorem deleteResult_noop (db : DB) (mid : Int) (h : resultRowOf db mid = none) :
    deleteResult db mid = db := by
  unfold resultRowOf at h
  unfold deleteResult
  rw [rowOf_none_filter_id (fun r : MatchResultRow => r.matchExtId) _ _ h]

/-- What the team loops guarantee about a stored team row relative to one feed
occurrence: a matching id, short name and icon; the name matches unless the
feed name is empty, in which case any stored name is kept. -/
def teamSynced (team : TeamRow) (tid : Int) (n sn iu : String) : Prop :=
  team.openligadb_team_id = tid ∧ ¬(n ≠ "" ∧ team.name ≠ n)
    ∧ team.short_name = sn ∧ team.icon_url = iu

theorem upsert_team_noop (db : DB) (tid : Int) (n sn iu : String) (team : TeamRow)
    (h : teamRowOf db tid = some team) (hs : teamSynced team tid n sn iu) :
    upsert_team db tid n sn iu = (db, false, false) := by
  obtain ⟨hid, hn, hsn, hiu⟩ := hs
  unfold upsert_team
  rw [h]
  dsimp only
  rw [if_neg]
  push_neg
  exact ⟨fun h1 => not_not.1 fun h2 => hn ⟨h1, h2⟩, hsn, hiu⟩

theorem upsert_team_writes (db : DB) (tid : Int) (n sn iu : String) :
    ∃ team, teamRowOf (upsert_team db tid n sn iu).1 tid = some team
      ∧ teamSynced team tid n sn iu := by
  unfold upsert_team
  cases h : teamRowOf db tid with
  | none =>
    dsimp only
    refine ⟨⟨tid, n, sn, iu⟩, ?_, rfl, fun hc => hc.2 rfl, rfl, rfl⟩
    unfold teamRowOf at h ⊢
    dsimp only
    rw [rowOf_append_single, h]
    simp
  | some team =>
    dsimp only
    by_cases hc : (n ≠ "" ∧ team.name ≠ n) ∨ team.short_name ≠ sn
        ∨ team.icon_url ≠ iu
    · rw [if_pos hc]
      refine ⟨⟨tid, if n ≠ "" ∧ team.name ≠ n then n else team.name, sn, iu⟩,
        ?_, rfl, ?_, rfl, rfl⟩
      · unfold teamRowOf setTeamRow
        dsimp only
        rw [rowOf_map_const_self (fun t : TeamRow => t.openligadb_team_id)
          db.teams tid
          ⟨tid, if n ≠ "" ∧ team.name ≠ n then n else team.name, sn, iu⟩ rfl]
        unfold teamRowOf at h
        rw [h]
        rfl
      · by_cases hnn : n ≠ "" ∧ team.name ≠ n
        · rw [if_pos hnn]
          exact fun hcc => hcc.2 rfl
        · rw [if_neg hnn]
          exact fun hcc => hnn ⟨hcc.1, hcc.2⟩
    · rw [if_neg hc]
      push_neg at hc
      exact ⟨team, h, rowOf_key _ _ _ _ h,
        fun hcc => hcc.2 (hc.1 hcc.1), hc.2.1, hc.2.2⟩

theorem upsert_team_other (db : DB) (tid : Int) (n sn iu : String) (tid2 : Int)
    (h : tid2 ≠ tid) :
    teamRowOf (upsert_team db tid n sn iu).1 tid2 = teamRowOf db tid2 := by
  unfold upsert_team
  cases hr : teamRowOf db tid with
  | none =>
    dsimp only
    unfold teamRowOf
    rw [rowOf_append_single]
    cases rowOf (fun t : TeamRow => t.openligadb_team_id) db.teams tid2 with
    | some x => rfl
    | none =>
      simp only
      rw [if_neg (by simpa using h.symm)]
  | some team =>
    dsimp only
    by_cases hc : (n ≠ "" ∧ team.name ≠ n) ∨ team.short_name ≠ sn
        ∨ team.icon_url ≠ iu
    · rw [if_pos hc]
      unfold setTeamRow teamRowOf
      dsimp only
      exact rowOf_map_const_other _ _ _ _ _ rfl h
    · rw [if_neg hc]

/-- Rerunning the team loop against a store that already carries the final
team rows: the hypothesis relates the rerun store to the rows the original
fold wrote (its newly seen ids). -/
def rerunHyp (seen : List Int) (out : DB × ImportSummary × List Int)
    (dbX : DB) : Prop :=
  ∀ tid, tid ∉ seen → tid ∈ out.2.2 →
    teamRowOf dbX tid = teamRowOf out.1 tid

theorem teamKeyStep_mono_frozen (st : DB × ImportSummary × List Int)
    (t? : Option TeamJson) (st1 : DB × ImportSummary × List Int)
    (h : teamKeyStep st t? = .ok st1) :
    (∀ tid, tid ∈ st.2.2 → tid ∈ st1.2.2)
    ∧ (∀ tid, tid ∈ st.2.2 → teamRowOf st1.1 tid = teamRowOf st.1 tid) := by
  unfold teamKeyStep at h
  cases t? with
  | none =>
    injection h with h'
    rw [← h']
    exact ⟨fun tid ht => ht, fun tid ht => rfl⟩
  | some tj =>
    dsimp only at h
    cases hx : extract_team_fields tj with
    | error e =>
      rw [hx] at h
      simp at h
    | ok q =>
      obtain ⟨tid0, n, sn, iu⟩ := q
      rw [hx] at h
      dsimp only at h
      by_cases hc : st.2.2.contains tid0 = true
      · rw [if_pos hc] at h
        injection h with h'
        rw [← h']
        exact ⟨fun tid ht => ht, fun tid ht => rfl⟩
      · rw [if_neg hc] at h
        injection h with h'
        rw [← h']
        constructor
        · intro tid ht
          exact List.mem_append.2 (Or.inl ht)
        · intro tid ht
          have hne : tid ≠ tid0 := by
            intro he
            subst he
            exact hc (List.elem_eq_true_of_mem ht)
          exact upsert_team_other st.1 tid0 n sn iu tid hne

theorem teamPhaseStep_mono_frozen (st : DB × ImportSummary × List Int)
    (m? : Option MatchJson) (st1 : DB × ImportSummary × List Int)
    (h : teamPhaseStep st m? = .ok st1) :
    (∀ tid, tid ∈ st.2.2 → tid ∈ st1.2.2)
    ∧ (∀ tid, tid ∈ st.2.2 → teamRowOf st1.1 tid = teamRowOf st.1 tid) := by
  unfold teamPhaseStep at h
  cases m? with
  | none => simp at h
  | some m =>
    dsimp only at h
    cases h1 : teamKeyStep st m.team1 with
    | error e =>
      rw [h1] at h
      simp at h
    | ok stA =>
      rw [h1] at h
      dsimp only at h
      have hA := teamKeyStep_mono_frozen _ _ _ h1
      have hB := teamKeyStep_mono_frozen _ _ _ h
      refine ⟨fun tid ht => hB.1 tid (hA.1 tid ht), fun tid ht => ?_⟩
      rw [hB.2 tid (hA.1 tid ht), hA.2 tid ht]

theorem teamFold_mono_frozen (ms : List (Option MatchJson)) :
    ∀ st st1, ms.foldlM teamPhaseStep st = .ok st1 →
      (∀ tid, tid ∈ st.2.2 → tid ∈ st1.2.2)
      ∧ (∀ tid, tid ∈ st.2.2 → teamRowOf st1.1 tid = teamRowOf st.1 tid) := by
  induction ms with
  | nil =>
    intro st st1 h
    simp only [List.foldlM_nil] at h
    injection h with h'
    rw [← h']
    exact ⟨fun tid ht => ht, fun tid ht => rfl⟩
  | cons m? ms ih =>
    intro st st1 h
    rw [List.foldlM_cons] at h
    cases h1 : teamPhaseStep st m? with
    | error e =>
      rw [h1] at h
      simp [Bind.bind, Except.bind] at h
    | ok stA =>
      rw [h1] at h
      simp only [Bind.bind, Except.bind] at h
      have hA := teamPhaseStep_mono_frozen _ _ _ h1
      have hB := ih _ _ h
      refine ⟨fun tid ht => hB.1 tid (hA.1 tid ht), fun tid ht => ?_⟩
      rw [hB.2 tid (hA.1 tid ht), hA.2 tid ht]

theorem teamKeyStep_rerun (st : DB × ImportSummary × List Int)
    (t? : Option TeamJson) (out : DB × ImportSummary × List Int)
    (h : teamKeyStep st t? = .ok out) (dbX : DB) (sX : ImportSummary)
    (hX : rerunHyp st.2.2 out dbX) :
    teamKeyStep (dbX, sX, st.2.2) t? = .ok (dbX, sX, out.2.2) := by
  unfold teamKeyStep at h ⊢
  cases t? with
  | none =>
    injection h with h'
    rw [← h']
  | some tj =>
    dsimp only at h ⊢
    cases hx : extract_team_fields tj with
    | error e =>
      rw [hx] at h
      simp at h
    | ok q =>
      obtain ⟨tid0, n, sn, iu⟩ := q
      rw [hx] at h
      dsimp only at h ⊢
      by_cases hc : st.2.2.contains tid0 = true
      · rw [if_pos hc] at h ⊢
        injection h with h'
        rw [← h']
      · rw [if_neg hc] at h ⊢
        injection h with h'
        have hnotseen : tid0 ∉ st.2.2 := by
          intro hmem
          exact hc (List.elem_eq_true_of_mem hmem)
        obtain ⟨team, hteam, hsync⟩ := upsert_team_writes st.1 tid0 n sn iu
        have hmem0 : tid0 ∈ out.2.2 := by
          rw [← h']
          exact List.mem_append.2 (Or.inr (by simp))
        have hdbX : teamRowOf dbX tid0 = some team := by
          rw [hX tid0 hnotseen hmem0, ← h']
          exact hteam
        rw [upsert_team_noop dbX tid0 n sn iu team hdbX hsync]
        rw [← h']
        simp

theorem teamPhaseStep_rerun (st : DB × ImportSummary × List Int)
    (m? : Option MatchJson) (out : DB × ImportSummary × List Int)
    (h : teamPhaseStep st m? = .ok out) (dbX : DB) (sX : ImportSummary)
    (hX : rerunHyp st.2.2 out dbX) :
    teamPhaseStep (dbX, sX, st.2.2) m? = .ok (dbX, sX, out.2.2) := by
  unfold teamPhaseStep at h ⊢
  cases m? with
  | none => simp at h
  | some m =>
    dsimp only at h ⊢
    cases h1 : teamKeyStep st m.team1 with
    | error e =>
      rw [h1] at h
      simp at h
    | ok stA =>
      rw [h1] at h
      dsimp only at h
      have hmfB := teamKeyStep_mono_frozen _ _ _ h
      have hX1 : rerunHyp st.2.2 stA dbX := by
        intro tid hns hmemA
        rw [hX tid hns (hmfB.1 tid hmemA), hmfB.2 tid hmemA]
      have hmfA := teamKeyStep_mono_frozen _ _ _ h1
      have hX2 : rerunHyp stA.2.2 out dbX := by
        intro tid hns hmem
        exact hX tid (fun hmem1 => hns (hmfA.1 tid hmem1)) hmem
      have hs1 := teamKeyStep_rerun st m.team1 stA h1 dbX sX hX1
      rw [hs1]
      dsimp only
      have hs2 := teamKeyStep_rerun stA m.team2 out h dbX sX hX2
      exact hs2

theorem teamFold_rerun (ms : List (Option MatchJson)) :
    ∀ st out, ms.foldlM teamPhaseStep st = .ok out →
      ∀ (dbX : DB) (sX : ImportSummary), rerunHyp st.2.2 out dbX →
      ms.foldlM teamPhaseStep (dbX, sX, st.2.2) = .ok (dbX, sX, out.2.2) := by
  induction ms with
  | nil =>
    intro st out h dbX sX hX
    simp only [List.foldlM_nil] at h ⊢
    injection h with h'
    rw [← h']
    rfl
  | cons m? ms ih =>
    intro st out h dbX sX hX
    rw [List.foldlM_cons] at h ⊢
    cases h1 : teamPhaseStep st m? with
    | error e =>
      rw [h1] at h
      simp [Bind.bind, Except.bind] at h
    | ok stA =>
      rw [h1] at h
      simp only [Bind.bind, Except.bind] at h
      have hmfRest := teamFold_mono_frozen ms _ _ h
      have hX1 : rerunHyp st.2.2 stA dbX := by
        intro tid hns hmemA
        rw [hX tid hns (hmfRest.1 tid hmemA), hmfRest.2 tid hmemA]
      have hmfA := teamPhaseStep_mono_frozen _ _ _ h1
      have hX2 : rerunHyp stA.2.2 out dbX := by
        intro tid hns hmem
        exact hX tid (fun hmem1 => hns (hmfA.1 tid hmem1)) hmem
      rw [teamPhaseStep_rerun st m? stA h1 dbX sX hX1]
      simp only [Bind.bind, Except.bind]
      exact ih stA out h dbX sX hX2

/-- The matchday ordinal a group entry would write: present when the entry is
an object with an integer ordinal that received an earliest kickoff. -/
def effOrd (earliest : List (Int × Int)) (g? : Option GroupJson) : Option Int :=
  g?.bind fun g => (groupIdOf g).bind fun o =>
    if (earliest.find? fun p => p.1 == o).isSome then some o else none

def effectiveOrders (earliest : List (Int × Int))
    (groups : List (Option GroupJson)) : List Int :=
  groups.filterMap (effOrd earliest)

/-- Seen-ordinal evolution of the matchday loop, a pure function of the feed. -/
def groupSeenStep (seen : List Int) (o? : Option Int) : List Int :=
  match o? with
  | none => seen
  | some o => if seen.contains o then seen else seen ++ [o]

def groupSeenOf (earliest : List (Int × Int)) (groups : List (Option GroupJson))
    (seen0 : List Int) : List Int :=
  (groups.map (effOrd earliest)).foldl groupSeenStep seen0

theorem groupStep_frame (e : List (Int × Int)) (st : DB × ImportSummary × List Int)
    (g? : Option GroupJson) (st1 : DB × ImportSummary × List Int)
    (h : groupStep e st g? = .ok st1) :
    st1.1.teams = st.1.teams ∧ st1.1.matchTable = st.1.matchTable
    ∧ st1.1.results = st.1.results ∧ st1.1.league = st.1.league
    ∧ st1.1.seasonExists = st.1.seasonExists := by
  unfold groupStep at h
  cases g? with
  | none => simp at h
  | some g =>
    dsimp only at h
    cases hg : groupIdOf g with
    | none =>
      rw [hg] at h
      dsimp only at h
      injection h with h'
      rw [← h']
      exact ⟨rfl, rfl, rfl, rfl, rfl⟩
    | some o =>
      rw [hg] at h
      dsimp only at h
      cases hf : e.find? fun p => p.1 == o with
      | none =>
        rw [hf] at h
        dsimp only at h
        injection h with h'
        rw [← h']
        exact ⟨rfl, rfl, rfl, rfl, rfl⟩
      | some p =>
        rw [hf] at h
        dsimp only at h
        cases hmd : mdRowOf st.1 o with
        | none =>
          rw [hmd] at h
          dsimp only at h
          injection h with h'
          rw [← h']
          exact ⟨rfl, rfl, rfl, rfl, rfl⟩
        | some md0 =>
          rw [hmd] at h
          dsimp only at h
          by_cases hc : md0.name ≠ g.groupName.getD ""
          · rw [if_pos hc] at h
            injection h with h'
            rw [← h']
            exact ⟨(setMatchdayRow_frame _ _ _).2.1,
              (setMatchdayRow_frame _ _ _).2.2.1,
              (setMatchdayRow_frame _ _ _).1,
              (setMatchdayRow_frame _ _ _).2.2.2.1,
              (setMatchdayRow_frame _ _ _).2.2.2.2⟩
          · rw [if_neg hc] at h
            injection h with h'
            rw [← h']
            exact ⟨rfl, rfl, rfl, rfl, rfl⟩

theorem groupFold_frame (e : List (Int × Int)) (groups : List (Option GroupJson)) :
    ∀ st st1, groups.foldlM (groupStep e) st = .ok st1 →
      st1.1.teams = st.1.teams ∧ st1.1.matchTable = st.1.matchTable
      ∧ st1.1.results = st.1.results ∧ st1.1.league = st.1.league
      ∧ st1.1.seasonExists = st.1.seasonExists := by
  induction groups with
  | nil =>
    intro st st1 h
    simp only [List.foldlM_nil] at h
    injection h with h'
    rw [← h']
    exact ⟨rfl, rfl, rfl, rfl, rfl⟩
  | cons g? gs ih =>
    intro st st1 h
    rw [List.foldlM_cons] at h
    cases h1 : groupStep e st g? with
    | error er =>
      rw [h1] at h
      simp [Bind.bind, Except.bind] at h
    | ok stA =>
      rw [h1] at h
      simp only [Bind.bind, Except.bind] at h
      have hA := groupStep_frame e st g? stA h1
      have hB := ih stA st1 h
      exact ⟨hB.1.trans hA.1, hB.2.1.trans hA.2.1, hB.2.2.1.trans hA.2.2.1,
        hB.2.2.2.1.trans hA.2.2.2.1, hB.2.2.2.2.trans hA.2.2.2.2⟩

theorem groupStep_seen (e : List (Int × Int)) (st : DB × ImportSummary × List Int)
    (g? : Option GroupJson) (st1 : DB × ImportSummary × List Int)
    (h : groupStep e st g? = .ok st1) :
    st1.2.2 = groupSeenStep st.2.2 (effOrd e g?) := by
  unfold groupStep at h
  cases g? with
  | none => simp at h
  | some g =>
    dsimp only at h
    cases hg : groupIdOf g with
    | none =>
      rw [hg] at h
      dsimp only at h
      injection h with h'
      rw [← h']
      unfold effOrd
      rw [Option.some_bind, hg]
      rfl
    | some o =>
      rw [hg] at h
      dsimp only at h
      have heff : effOrd e (some g) =
          if (e.find? fun p => p.1 == o).isSome then some o else none := by
        unfold effOrd
        rw [Option.some_bind, hg, Option.some_bind]
      cases hf : e.find? fun p => p.1 == o with
      | none =>
        rw [hf] at h
        dsimp only at h
        injection h with h'
        rw [← h', heff, hf]
        rfl
      | some p =>
        rw [hf] at h
        dsimp only at h
        rw [heff, hf]
        cases hmd : mdRowOf st.1 o with
        | none =>
          rw [hmd] at h
          dsimp only at h
          injection h with h'
          rw [← h']
          rfl
        | some md0 =>
          rw [hmd] at h
          dsimp only at h
          by_cases hc : md0.name ≠ g.groupName.getD ""
          · rw [if_pos hc] at h
            injection h with h'
            rw [← h']
            rfl
          · rw [if_neg hc] at h
            injection h with h'
            rw [← h']
            rfl

theorem groupFold_seen (e : List (Int × Int)) (groups : List (Option GroupJson)) :
    ∀ st st1, groups.foldlM (groupStep e) st = .ok st1 →
      st1.2.2 = groupSeenOf e groups st.2.2 := by
  induction groups with
  | nil =>
    intro st st1 h
    simp only [List.foldlM_nil] at h
    injection h with h'
    rw [← h']
    rfl
  | cons g? gs ih =>
    intro st st1 h
    rw [List.foldlM_cons] at h
    cases h1 : groupStep e st g? with
    | error er =>
      rw [h1] at h
      simp [Bind.bind, Except.bind] at h
    | ok stA =>
      rw [h1] at h
      simp only [Bind.bind, Except.bind] at h
      unfold groupSeenOf
      rw [List.map_cons, List.foldl_cons, ← groupStep_seen e st g? stA h1]
      exact ih stA st1 h

theorem groupStep_write (e : List (Int × Int)) (st : DB × ImportSummary × List Int)
    (g : GroupJson) (o : Int) (p : Int × Int) (st1 : DB × ImportSummary × List Int)
    (h : groupStep e st (some g) = .ok st1)
    (hg : groupIdOf g = some o) (hf : (e.find? fun q => q.1 == o) = some p) :
    ∃ md, mdRowOf st1.1 o = some md ∧ md.name = g.groupName.getD "" := by
  unfold groupStep at h
  dsimp only at h
  rw [hg] at h
  dsimp only at h
  rw [hf] at h
  dsimp only at h
  cases hmd : mdRowOf st.1 o with
  | none =>
    rw [hmd] at h
    dsimp only at h
    injection h with h'
    rw [← h']
    refine ⟨⟨o, g.groupName.getD "", compute_deadline_before_kickoff p.2,
      none, none, none, none⟩, ?_, rfl⟩
    unfold mdRowOf at hmd ⊢
    dsimp only
    rw [rowOf_append_single, hmd]
    simp
  | some md0 =>
    rw [hmd] at h
    dsimp only at h
    by_cases hc : md0.name ≠ g.groupName.getD ""
    · rw [if_pos hc] at h
      injection h with h'
      rw [← h']
      refine ⟨{ md0 with name := g.groupName.getD "" }, ?_, rfl⟩
      unfold mdRowOf setMatchdayRow
      dsimp only
      rw [rowOf_map_update_self (fun m : MatchdayRow => m.order_id) _ _
        (fun md : MatchdayRow => { md with name := g.groupName.getD "" })
        (fun r => rfl)]
      unfold mdRowOf at hmd
      rw [hmd]
      rfl
    · rw [if_neg hc] at h
      injection h with h'
      rw [← h']
      exact ⟨md0, hmd, not_not.1 hc⟩

theorem groupStep_untouched (e : List (Int × Int))
    (st : DB × ImportSummary × List Int) (g? : Option GroupJson)
    (st1 : DB × ImportSummary × List Int) (o : Int)
    (h : groupStep e st g? = .ok st1) (ho : effOrd e g? ≠ some o) :
    mdRowOf st1.1 o = mdRowOf st.1 o := by
  unfold groupStep at h
  cases g? with
  | none => simp at h
  | some g =>
    dsimp only at h
    cases hg : groupIdOf g with
    | none =>
      rw [hg] at h
      dsimp only at h
      injection h with h'
      rw [← h']
    | some o1 =>
      rw [hg] at h
      dsimp only at h
      cases hf : e.find? fun p => p.1 == o1 with
      | none =>
        rw [hf] at h
        dsimp only at h
        injection h with h'
        rw [← h']
      | some p =>
        rw [hf] at h
        dsimp only at h
        have ho1 : o1 ≠ o := by
          intro he
          apply ho
          unfold effOrd
          rw [Option.some_bind, hg, Option.some_bind, hf]
          simp [he]
        have hoo : o ≠ o1 := fun he => ho1 he.symm
        cases hmd : mdRowOf st.1 o1 with
        | none =>
          rw [hmd] at h
          dsimp only at h
          injection h with h'
          rw [← h']
          unfold mdRowOf
          dsimp only
          rw [rowOf_append_single]
          cases rowOf (fun m : MatchdayRow => m.order_id) st.1.matchdays o with
          | some x => rfl
          | none =>
            simp only
            rw [if_neg (by simpa using hoo.symm)]
        | some md0 =>
          rw [hmd] at h
          dsimp only at h
          by_cases hc : md0.name ≠ g.groupName.getD ""
          · rw [if_pos hc] at h
            injection h with h'
            rw [← h']
            unfold mdRowOf setMatchdayRow
            dsimp only
            exact rowOf_map_update_other _ _ _ _
              (fun md : MatchdayRow => { md with name := g.groupName.getD "" })
              (fun r => rfl) hoo
          · rw [if_neg hc] at h
            injection h with h'
            rw [← h']

theorem groupFold_untouched (e : List (Int × Int)) :
    ∀ (groups : List (Option GroupJson)) st st1 (o : Int),
      groups.foldlM (groupStep e) st = .ok st1 →
      o ∉ effectiveOrders e groups →
      mdRowOf st1.1 o = mdRowOf st.1 o := by
  intro groups
  induction groups with
  | nil =>
    intro st st1 o h ho
    simp only [List.foldlM_nil] at h
    injection h with h'
    rw [← h']
  | cons g? gs ih =>
    intro st st1 o h ho
    rw [List.foldlM_cons] at h
    cases h1 : groupStep e st g? with
    | error er =>
      rw [h1] at h
      simp [Bind.bind, Except.bind] at h
    | ok stA =>
      rw [h1] at h
      simp only [Bind.bind, Except.bind] at h
      have ho1 : effOrd e g? ≠ some o := by
        intro he
        exact ho (by
          unfold effectiveOrders
          rw [List.filterMap_cons, he]
          exact List.mem_cons_self _ _)
      have ho2 : o ∉ effectiveOrders e gs := by
        intro hmem
        exact ho (by
          unfold effectiveOrders at hmem ⊢
          rw [List.filterMap_cons]
          cases effOrd e g? with
          | none => exact hmem
          | some o1 => exact List.mem_cons_of_mem _ hmem)
      rw [ih stA st1 o h ho2, groupStep_untouched e st g? stA o h1 ho1]

theorem groupFold_synced (e : List (Int × Int)) :
    ∀ (groups : List (Option GroupJson)) st st1,
      groups.foldlM (groupStep e) st = .ok st1 →
      (effectiveOrders e groups).Nodup →
      ∀ g? ∈ groups, ∀ g, g? = some g → ∀ o, groupIdOf g = some o →
        (e.find? fun p => p.1 == o).isSome = true →
        ∃ md, mdRowOf st1.1 o = some md ∧ md.name = g.groupName.getD "" := by
  intro groups
  induction groups with
  | nil =>
    intro st st1 h hnd g? hmem
    exact absurd hmem (List.not_mem_nil g?)
  | cons g0? gs ih =>
    intro st st1 h hnd g? hmem g hgsome o hgo hfind
    rw [List.foldlM_cons] at h
    cases h1 : groupStep e st g0? with
    | error er =>
      rw [h1] at h
      simp [Bind.bind, Except.bind] at h
    | ok stA =>
      rw [h1] at h
      simp only [Bind.bind, Except.bind] at h
      rcases List.mem_cons.1 hmem with hhead | htail
      · subst hhead
        subst hgsome
        obtain ⟨p, hp⟩ := Option.isSome_iff_exists.1 hfind
        have heff : effOrd e (some g) = some o := by
          unfold effOrd
          rw [Option.some_bind, hgo, Option.some_bind, hp]
          simp
        obtain ⟨md, hmd, hname⟩ := groupStep_write e st g o p stA h1 hgo hp
        have hnodup : o ∉ effectiveOrders e gs := by
          unfold effectiveOrders at hnd
          rw [List.filterMap_cons, heff] at hnd
          exact (List.nodup_cons.1 hnd).1
        rw [groupFold_untouched e gs stA st1 o h hnodup]
        exact ⟨md, hmd, hname⟩
      · have hnd2 : (effectiveOrders e gs).Nodup := by
          unfold effectiveOrders at hnd ⊢
          rw [List.filterMap_cons] at hnd
          cases heo : effOrd e g0? with
          | none =>
            rw [heo] at hnd
            exact hnd
          | some o1 =>
            rw [heo] at hnd
            exact (List.nodup_cons.1 hnd).2
        exact ih stA st1 h hnd2 g? htail g hgsome o hgo hfind

theorem groupStep_noop (e : List (Int × Int)) (dbX : DB) (sX : ImportSummary)
    (seenX : List Int) (g : GroupJson)
    (hsync : ∀ o, groupIdOf g = some o →
      (e.find? fun p => p.1 == o).isSome = true →
      ∃ md, mdRowOf dbX o = some md ∧ md.name = g.groupName.getD "") :
    groupStep e (dbX, sX, seenX) (some g)
      = .ok (dbX, sX, groupSeenStep seenX (effOrd e (some g))) := by
  unfold groupStep
  dsimp only
  cases hg : groupIdOf g with
  | none =>
    unfold effOrd
    rw [Option.some_bind, hg]
    rfl
  | some o =>
    dsimp only
    have heff : effOrd e (some g) =
        if (e.find? fun p => p.1 == o).isSome then some o else none := by
      unfold effOrd
      rw [Option.some_bind, hg, Option.some_bind]
    cases hf : e.find? fun p => p.1 == o with
    | none =>
      rw [heff, hf]
      rfl
    | some p =>
      dsimp only
      obtain ⟨md, hmd, hname⟩ := hsync o hg (by rw [hf]; rfl)
      rw [hmd]
      dsimp only
      rw [if_neg (by simp [hname]), heff, hf]
      rfl

theorem groupFold_rerun (e : List (Int × Int)) :
    ∀ (groups : List (Option GroupJson)) st out,
      groups.foldlM (groupStep e) st = .ok out →
      ∀ (dbX : DB) (sX : ImportSummary) (seenX : List Int),
      (∀ g? ∈ groups, ∀ g, g? = some g → ∀ o, groupIdOf g = some o →
        (e.find? fun p => p.1 == o).isSome = true →
        ∃ md, mdRowOf dbX o = some md ∧ md.name = g.groupName.getD "") →
      groups.foldlM (groupStep e) (dbX, sX, seenX)
        = .ok (dbX, sX, groupSeenOf e groups seenX) := by
  intro groups
  induction groups with
  | nil =>
    intro st out h dbX sX seenX hsync
    simp only [List.foldlM_nil]
    rfl
  | cons g0? gs ih =>
    intro st out h dbX sX seenX hsync
    rw [List.foldlM_cons] at h ⊢
    cases h1 : groupStep e st g0? with
    | error er =>
      rw [h1] at h
      simp [Bind.bind, Except.bind] at h
    | ok stA =>
      rw [h1] at h
      simp only [Bind.bind, Except.bind] at h
      cases g0? with
      | none =>
        unfold groupStep at h1
        simp at h1
      | some g0 =>
        rw [groupStep_noop e dbX sX seenX g0
          (fun o hgo hf => hsync (some g0) (List.mem_cons_self _ _) g0 rfl o hgo hf)]
        simp only [Bind.bind, Except.bind]
        unfold groupSeenOf
        rw [List.map_cons, List.foldl_cons]
        exact ih stA out h dbX sX _
          (fun g? hmem g hgs o hgo hf =>
            hsync g? (List.mem_cons_of_mem _ hmem) g hgs o hgo hf)

/-- The row the bootstrap match loop would upsert for one raw record, none
when the record is skipped; the store only enters through the existence of the
referenced matchday and teams. -/
def matchProcessed (db : DB) (m : MatchJson) : Option MatchRow :=
  match matchIdOf m, groupOrderIdOf m, kickoffAtOf m with
  | .ok mid, .ok md_order, .ok kickoff_at =>
    match m.team1, m.team2 with
    | some t1, some t2 =>
      match t1.teamId, t2.teamId with
      | some home_id, some away_id =>
        match mdRowOf db md_order, teamRowOf db home_id, teamRowOf db away_id with
        | some _, some _, some _ =>
          some ⟨mid, md_order, kickoff_at, home_id, away_id, m.matchIsFinished⟩
        | _, _, _ => none
      | _, _ => none
    | _, _ => none
  | _, _, _ => none

/-- The processed (row, record) list of the bootstrap match loop as a function
of the feed and the existence predicates of the store. -/
def processedOf (db : DB) (ms : List (Option MatchJson)) :
    List (MatchRow × MatchJson) :=
  ms.filterMap fun m? => m?.bind fun m =>
    (matchProcessed db m).map fun row => (row, m)

theorem matchProcessed_congr (db db' : DB) (m : MatchJson)
    (hmd : ∀ o, (mdRowOf db o).isSome = (mdRowOf db' o).isSome)
    (ht : ∀ t, (teamRowOf db t).isSome = (teamRowOf db' t).isSome) :
    matchProcessed db m = matchProcessed db' m := by
  unfold matchProcessed
  cases h1 : matchIdOf m with
  | error e => rfl
  | ok mid =>
    cases h2 : groupOrderIdOf m with
    | error e => rfl
    | ok md_order =>
      cases h3 : kickoffAtOf m with
      | error e => rfl
      | ok kickoff_at =>
        dsimp only
        cases ht1 : m.team1 with
        | none => rfl
        | some t1 =>
          cases ht2 : m.team2 with
          | none => rfl
          | some t2 =>
            dsimp only
            cases hi1 : t1.teamId with
            | none => rfl
            | some home_id =>
              cases hi2 : t2.teamId with
              | none => rfl
              | some away_id =>
                dsimp only
                have hmd' := hmd md_order
                have hth := ht home_id
                have hta := ht away_id
                cases hm1 : mdRowOf db md_order with
                | none =>
                  rw [hm1] at hmd'
                  cases hm1' : mdRowOf db' md_order with
                  | none => rfl
                  | some y =>
                    rw [hm1'] at hmd'
                    simp at hmd'
                | some x =>
                  rw [hm1] at hmd'
                  cases hm1' : mdRowOf db' md_order with
                  | none =>
                    rw [hm1'] at hmd'
                    simp at hmd'
                  | some y =>
                    cases hr1 : teamRowOf db home_id with
                    | none =>
                      rw [hr1] at hth
                      cases hr1' : teamRowOf db' home_id with
                      | none => rfl
                      | some yh =>
                        rw [hr1'] at hth
                        simp at hth
                    | some xh =>
                      rw [hr1] at hth
                      cases hr1' : teamRowOf db' home_id with
                      | none =>
                        rw [hr1'] at hth
                        simp at hth
                      | some yh =>
                        cases hr2 : teamRowOf db away_id with
                        | none =>
                          rw [hr2] at hta
                          cases hr2' : teamRowOf db' away_id with
                          | none => rfl
                          | some ya =>
                            rw [hr2'] at hta
                            simp at hta
                        | some xa =>
                          rw [hr2] at hta
                          cases hr2' : teamRowOf db' away_id with
                          | none =>
                            rw [hr2'] at hta
                            simp at hta
                          | some ya => rfl

theorem processedOf_congr (db db' : DB) (ms : List (Option MatchJson))
    (hmd : ∀ o, (mdRowOf db o).isSome = (mdRowOf db' o).isSome)
    (ht : ∀ t, (teamRowOf db t).isSome = (teamRowOf db' t).isSome) :
    processedOf db ms = processedOf db' ms := by
  unfold processedOf
  induction ms with
  | nil => rfl
  | cons m? ms ih =>
    rw [List.filterMap_cons, List.filterMap_cons, ih]
    cases m? with
    | none => rfl
    | some m => rw [Option.some_bind, Option.some_bind,
        matchProcessed_congr db db' m hmd ht]

theorem matchStepOk_proc (st : MatchLoopState) (m? : Option MatchJson) :
    ((m?.bind fun m => matchProcessed st.db m) = none → matchStepOk st m? = st)
    ∧ (∀ m row, m? = some m → matchProcessed st.db m = some row →
        matchStepOk st m? =
          ⟨deleteResult (upsert_match_row st.db row).1 row.openligadb_match_id,
            (if (upsert_match_row st.db row).2 then
              { st.summary with
                  matches_created := st.summary.matches_created + 1 }
            else
              { st.summary with
                  matches_updated := st.summary.matches_updated + 1 }),
            st.flat ++ [(row, m)],
            appendGrouped st.grouped row.matchdayOrder (row, m)⟩) := by
  constructor
  · intro hb
    unfold matchStepOk
    cases m? with
    | none => rfl
    | some m =>
      rw [Option.some_bind] at hb
      unfold matchProcessed at hb
      dsimp only
      cases h1 : matchIdOf m with
      | error e => rfl
      | ok mid =>
        rw [h1] at hb
        cases h2 : groupOrderIdOf m with
        | error e => rfl
        | ok md_order =>
          rw [h2] at hb
          cases h3 : kickoffAtOf m with
          | error e => rfl
          | ok kickoff_at =>
            rw [h3] at hb
            dsimp only at hb ⊢
            cases ht1 : m.team1 with
            | none => rfl
            | some t1 =>
              rw [ht1] at hb
              cases ht2 : m.team2 with
              | none => rfl
              | some t2 =>
                rw [ht2] at hb
                dsimp only at hb ⊢
                cases hi1 : t1.teamId with
                | none => rfl
                | some home_id =>
                  rw [hi1] at hb
                  cases hi2 : t2.teamId with
                  | none => rfl
                  | some away_id =>
                    rw [hi2] at hb
                    dsimp only at hb ⊢
                    cases hm1 : mdRowOf st.db md_order with
                    | none => rfl
                    | some mdr =>
                      rw [hm1] at hb
                      cases hr1 : teamRowOf st.db home_id with
                      | none => rfl
                      | some trh =>
                        rw [hr1] at hb
                        cases hr2 : teamRowOf st.db away_id with
                        | none => rfl
                        | some tra =>
                          rw [hr2] at hb
                          simp at hb
  · intro m row hm hb
    subst hm
    unfold matchStepOk
    unfold matchProcessed at hb
    dsimp only
    cases h1 : matchIdOf m with
    | error e =>
      rw [h1] at hb
      simp at hb
    | ok mid =>
      rw [h1] at hb
      cases h2 : groupOrderIdOf m with
      | error e =>
        rw [h2] at hb
        simp at hb
      | ok md_order =>
        rw [h2] at hb
        cases h3 : kickoffAtOf m with
        | error e =>
          rw [h3] at hb
          simp at hb
        | ok kickoff_at =>
          rw [h3] at hb
          dsimp only at hb ⊢
          cases ht1 : m.team1 with
          | none =>
            rw [ht1] at hb
            simp at hb
          | some t1 =>
            rw [ht1] at hb
            cases ht2 : m.team2 with
            | none =>
              rw [ht2] at hb
              simp at hb
            | some t2 =>
              rw [ht2] at hb
              dsimp only at hb ⊢
              cases hi1 : t1.teamId with
              | none =>
                rw [hi1] at hb
                simp at hb
              | some home_id =>
                rw [hi1] at hb
                cases hi2 : t2.teamId with
                | none =>
                  rw [hi2] at hb
                  simp at hb
                | some away_id =>
                  rw [hi2] at hb
                  dsimp only at hb ⊢
                  cases hm1 : mdRowOf st.db md_order with
                  | none =>
                    rw [hm1] at hb
                    simp at hb
                  | some mdr =>
                    rw [hm1] at hb
                    cases hr1 : teamRowOf st.db home_id with
                    | none =>
                      rw [hr1] at hb
                      simp at hb
                    | some trh =>
                      rw [hr1] at hb
                      cases hr2 : teamRowOf st.db away_id with
                      | none =>
                        rw [hr2] at hb
                        simp at hb
                      | some tra =>
                        rw [hr2] at hb
                        dsimp only at hb
                        injection hb with hb'
                        subst hb'
                        rfl

theorem matchStep_ok_of (st : MatchLoopState) (m? : Option MatchJson)
    (hsl : ∀ m row, m? = some m → matchProcessed st.db m = some row →
        extract_current_score m = none) :
    matchStep st m? = .ok (matchStepOk st m?) := by
  unfold matchStep matchStepOk
  cases m? with
  | none => rfl
  | some m =>
    dsimp only
    cases h1 : matchIdOf m with
    | error e => rfl
    | ok mid =>
      cases h2 : groupOrderIdOf m with
      | error e => rfl
      | ok md_order =>
        cases h3 : kickoffAtOf m with
        | error e => rfl
        | ok kickoff_at =>
          dsimp only
          cases ht1 : m.team1 with
          | none => rfl
          | some t1 =>
            cases ht2 : m.team2 with
            | none => rfl
            | some t2 =>
              dsimp only
              cases hi1 : t1.teamId with
              | none => rfl
              | some home_id =>
                cases hi2 : t2.teamId with
                | none => rfl
                | some away_id =>
                  dsimp only
                  cases hm1 : mdRowOf st.db md_order with
                  | none => rfl
                  | some mdr =>
                    cases hr1 : teamRowOf st.db home_id with
                    | none => rfl
                    | some trh =>
                      cases hr2 : teamRowOf st.db away_id with
                      | none => rfl
                      | some tra =>
                        dsimp only
                        have hrow : matchProcessed st.db m
                            = some ⟨mid, md_order, kickoff_at, home_id, away_id,
                                m.matchIsFinished⟩ := by
                          unfold matchProcessed
                          rw [h1, h2, h3]
                          dsimp only
                          rw [ht1, ht2]
                          dsimp only
                          rw [hi1, hi2]
                          dsimp only
                          rw [hm1, hr1, hr2]
                        have hx := hsl m _ rfl hrow
                        rw [upsert_match_result_of_none _ _ _ _ hx]

theorem processedOf_cons_none (db : DB) (m? : Option MatchJson)
    (ms : List (Option MatchJson))
    (hb : (m?.bind fun m => matchProcessed db m) = none) :
    processedOf db (m? :: ms) = processedOf db ms := by
  unfold processedOf
  rw [List.filterMap_cons]
  cases m? with
  | none => rfl
  | some m =>
    rw [Option.some_bind] at hb
    rw [Option.some_bind, hb]
    rfl

theorem processedOf_cons_some (db : DB) (m : MatchJson)
    (ms : List (Option MatchJson)) (row : MatchRow)
    (hb : matchProcessed db m = some row) :
    processedOf db (some m :: ms) = (row, m) :: processedOf db ms := by
  unfold processedOf
  rw [List.filterMap_cons, Option.some_bind, hb]
  rfl

theorem processedOf_tail_subset (db : DB) (m? : Option MatchJson)
    (ms : List (Option MatchJson)) :
    ∀ rm ∈ processedOf db ms, rm ∈ processedOf db (m? :: ms) := by
  intro rm hm
  cases m? with
  | none =>
    rw [processedOf_cons_none db none ms rfl]
    exact hm
  | some m =>
    cases hmp : matchProcessed db m with
    | none =>
      rw [processedOf_cons_none db (some m) ms (by rw [Option.some_bind, hmp])]
      exact hm
    | some row =>
      rw [processedOf_cons_some db m ms row hmp]
      exact List.mem_cons_of_mem _ hm

theorem matchStepOk_db_guards (st : MatchLoopState) (m? : Option MatchJson) :
    (matchStepOk st m?).db.matchdays = st.db.matchdays
    ∧ (matchStepOk st m?).db.teams = st.db.teams := by
  rcases matchStepOk_shape st m? with heq | ⟨m, row, hdb, hflat⟩
  · rw [heq]
    exact ⟨rfl, rfl⟩
  · rw [hdb]
    exact ⟨(deleteResult_frame _ _).2.1.trans (upsert_match_row_frame _ _).2.1,
      (deleteResult_frame _ _).2.2.1.trans (upsert_match_row_frame _ _).2.2.1⟩

theorem matchRowOf_congr (db db' : DB) (h : db.matchTable = db'.matchTable)
    (k : Int) : matchRowOf db k = matchRowOf db' k := by
  unfold matchRowOf
  rw [h]

theorem mdRowOf_congr (db db' : DB) (h : db.matchdays = db'.matchdays)
    (k : Int) : mdRowOf db k = mdRowOf db' k := by
  unfold mdRowOf
  rw [h]

theorem teamRowOf_congr (db db' : DB) (h : db.teams = db'.teams)
    (k : Int) : teamRowOf db k = teamRowOf db' k := by
  unfold teamRowOf
  rw [h]

theorem processedOf_stepOk (st : MatchLoopState) (m? : Option MatchJson)
    (ms : List (Option MatchJson)) :
    processedOf (matchStepOk st m?).db ms = processedOf st.db ms :=
  processedOf_congr _ _ ms
    (fun o => by rw [mdRowOf_congr _ st.db (matchStepOk_db_guards st m?).1 o])
    (fun t => by rw [teamRowOf_congr _ st.db (matchStepOk_db_guards st m?).2 t])

theorem matchFoldM_of_scoreless (ms : List (Option MatchJson)) :
    ∀ st : MatchLoopState,
      (∀ rm ∈ processedOf st.db ms, extract_current_score rm.2 = none) →
      ms.foldlM matchStep st = .ok (ms.foldl matchStepOk st) := by
  induction ms with
  | nil =>
    intro st hsl
    simp only [List.foldlM_nil, List.foldl_nil]
    rfl
  | cons m? ms ih =>
    intro st hsl
    rw [List.foldlM_cons, List.foldl_cons]
    have hstep : matchStep st m? = .ok (matchStepOk st m?) := by
      apply matchStep_ok_of
      intro m row hm hrow
      subst hm
      refine hsl (row, m) ?_
      rw [processedOf_cons_some st.db m ms row hrow]
      exact List.mem_cons_self _ _
    rw [hstep]
    simp only [Bind.bind, Except.bind]
    apply ih
    rw [processedOf_stepOk]
    intro rm hm
    exact hsl rm (processedOf_tail_subset st.db m? ms rm hm)

theorem matchFold_db_frame (ms : List (Option MatchJson)) :
    ∀ st : MatchLoopState,
      (ms.foldl matchStepOk st).db.matchdays = st.db.matchdays
      ∧ (ms.foldl matchStepOk st).db.teams = st.db.teams
      ∧ (ms.foldl matchStepOk st).db.league = st.db.league
      ∧ (ms.foldl matchStepOk st).db.seasonExists = st.db.seasonExists := by
  induction ms with
  | nil => exact fun st => ⟨rfl, rfl, rfl, rfl⟩
  | cons m? ms ih =>
    intro st
    rw [List.foldl_cons]
    refine ⟨(ih _).1.trans ?_, (ih _).2.1.trans ?_, (ih _).2.2.1.trans ?_,
      (ih _).2.2.2.trans ?_⟩
    all_goals
      rcases matchStepOk_shape st m? with heq | ⟨m, row, hdb, hflat⟩
    · rw [heq]
    · rw [hdb, (deleteResult_frame _ _).2.1,
        (upsert_match_row_frame _ _).2.1]
    · rw [heq]
    · rw [hdb, (deleteResult_frame _ _).2.2.1,
        (upsert_match_row_frame _ _).2.2.1]
    · rw [heq]
    · rw [hdb, (deleteResult_frame _ _).2.2.2.1,
        (upsert_match_row_frame _ _).2.2.2.1]
    · rw [heq]
    · rw [hdb, (deleteResult_frame _ _).2.2.2.2,
        (upsert_match_row_frame _ _).2.2.2.2]

theorem matchFold_summary_frame (ms : List (Option MatchJson)) :
    ∀ st : MatchLoopState,
      (ms.foldl matchStepOk st).summary.groups_with_matches
          = st.summary.groups_with_matches
      ∧ (ms.foldl matchStepOk st).summary.groups_total = st.summary.groups_total
      ∧ (ms.foldl matchStepOk st).summary.matches_total
          = st.summary.matches_total := by
  induction ms with
  | nil => exact fun st => ⟨rfl, rfl, rfl⟩
  | cons m? ms ih =>
    intro st
    rw [List.foldl_cons]
    have hstep : (matchStepOk st m?).summary.groups_with_matches
        = st.summary.groups_with_matches
        ∧ (matchStepOk st m?).summary.groups_total = st.summary.groups_total
        ∧ (matchStepOk st m?).summary.matches_total
            = st.summary.matches_total := by
      cases hb : m?.bind fun m => matchProcessed st.db m with
      | none => rw [(matchStepOk_proc st m?).1 hb]; exact ⟨rfl, rfl, rfl⟩
      | some row =>
        cases m? with
        | none => simp at hb
        | some m =>
          rw [Option.some_bind] at hb
          rw [(matchStepOk_proc st (some m)).2 m row rfl hb]
          dsimp only
          refine ⟨?_, ?_, ?_⟩
          all_goals cases (upsert_match_row st.db row).2 <;> rfl
    exact ⟨(ih _).1.trans hstep.1, (ih _).2.1.trans hstep.2.1,
      (ih _).2.2.trans hstep.2.2⟩

theorem matchFold_chars (ms : List (Option MatchJson)) :
    ∀ st : MatchLoopState,
      (ms.foldl matchStepOk st).flat = st.flat ++ processedOf st.db ms
      ∧ (ms.foldl matchStepOk st).grouped
        = (processedOf st.db ms).foldl
            (fun g rm => appendGrouped g rm.1.matchdayOrder rm) st.grouped := by
  induction ms with
  | nil =>
    intro st
    exact ⟨(List.append_nil _).symm, rfl⟩
  | cons m? ms ih =>
    intro st
    rw [List.foldl_cons]
    cases hb : m?.bind fun m => matchProcessed st.db m with
    | none =>
      have hstep := (matchStepOk_proc st m?).1 hb
      rw [hstep]
      rw [processedOf_cons_none st.db m? ms hb]
      exact ih st
    | some row =>
      cases m? with
      | none => simp at hb
      | some m =>
        rw [Option.some_bind] at hb
        have hstep := (matchStepOk_proc st (some m)).2 m row rfl hb
        rw [hstep]
        have hcons := processedOf_cons_some st.db m ms row hb
        have hdbmd : (deleteResult (upsert_match_row st.db row).1
            row.openligadb_match_id).matchdays = st.db.matchdays := by
          rw [(deleteResult_frame _ _).2.1, (upsert_match_row_frame _ _).2.1]
        have hdbt : (deleteResult (upsert_match_row st.db row).1
            row.openligadb_match_id).teams = st.db.teams := by
          rw [(deleteResult_frame _ _).2.2.1, (upsert_match_row_frame _ _).2.2.1]
        obtain ⟨ihf, ihg⟩ := ih
          ⟨deleteResult (upsert_match_row st.db row).1 row.openligadb_match_id,
            (if (upsert_match_row st.db row).2 then
              { st.summary with
                  matches_created := st.summary.matches_created + 1 }
            else
              { st.summary with
                  matches_updated := st.summary.matches_updated + 1 }),
            st.flat ++ [(row, m)],
            appendGrouped st.grouped row.matchdayOrder (row, m)⟩
        have hpc := processedOf_congr _ st.db ms
          (fun o => by
            unfold mdRowOf
            rw [hdbmd])
          (fun t => by
            unfold teamRowOf
            rw [hdbt])
        rw [hpc] at ihf ihg
        constructor
        · rw [ihf, hcons, List.append_assoc]
          rfl
        · rw [ihg, hcons, List.foldl_cons]

theorem matchFold_noop (ms : List (Option MatchJson)) :
    ∀ st : MatchLoopState,
      (∀ rm ∈ processedOf st.db ms,
        matchRowOf st.db rm.1.openligadb_match_id = some rm.1
        ∧ resultRowOf st.db rm.1.openligadb_match_id = none) →
      (st.db.matchTable.map fun m => m.openligadb_match_id).Nodup →
      (ms.foldl matchStepOk st).db = st.db
      ∧ (ms.foldl matchStepOk st).summary
        = { st.summary with matches_updated :=
              st.summary.matches_updated + (processedOf st.db ms).length } := by
  induction ms with
  | nil =>
    intro st hsync hnd
    refine ⟨rfl, ?_⟩
    show st.summary = _
    have hz : st.summary.matches_updated + (processedOf st.db []).length
        = st.summary.matches_updated := by
      simp [processedOf]
    rw [hz]
  | cons m? ms ih =>
    intro st hsync hnd
    rw [List.foldl_cons]
    cases hb : m?.bind fun m => matchProcessed st.db m with
    | none =>
      have hstep := (matchStepOk_proc st m?).1 hb
      have hcons := processedOf_cons_none st.db m? ms hb
      rw [hstep, hcons]
      rw [hcons] at hsync
      exact ih st hsync hnd
    | some row =>
      cases m? with
      | none => simp at hb
      | some m =>
        rw [Option.some_bind] at hb
        have hstep := (matchStepOk_proc st (some m)).2 m row rfl hb
        have hcons := processedOf_cons_some st.db m ms row hb
        have hmem0 : (row, m) ∈ processedOf st.db (some m :: ms) := by
          rw [hcons]
          exact List.mem_cons_self _ _
        have hrowsync := hsync (row, m) hmem0
        have hup := upsert_match_row_noop st.db row hrowsync.1 hnd
        rw [hup] at hstep
        dsimp only at hstep
        rw [deleteResult_noop st.db row.openligadb_match_id
          hrowsync.2] at hstep
        have hdbN : (matchStepOk st (some m)).db = st.db := by rw [hstep]
        have hsumN : (matchStepOk st (some m)).summary
            = { st.summary with
                matches_updated := st.summary.matches_updated + 1 } := by
          rw [hstep]
          dsimp only
          rw [if_neg (by simp)]
        have hsync2 : ∀ rm ∈ processedOf st.db ms,
            matchRowOf st.db rm.1.openligadb_match_id = some rm.1
            ∧ resultRowOf st.db rm.1.openligadb_match_id = none := by
          intro rm hm
          exact hsync rm (by rw [hcons]; exact List.mem_cons_of_mem _ hm)
        have hih := ih (matchStepOk st (some m))
          (by rw [hdbN]; exact hsync2) (by rw [hdbN]; exact hnd)
        refine ⟨hih.1.trans hdbN, ?_⟩
        rw [hih.2, hsumN, hdbN, hcons]
        simp only [List.length_cons]
        congr 1
        omega

theorem matchFold_match_good (ms : List (Option MatchJson)) :
    ∀ st : MatchLoopState,
      (rowIds (ms.foldl matchStepOk st).flat).Nodup →
      (∀ r ∈ st.flat, matchRowOf st.db r.1.openligadb_match_id = some r.1) →
      ∀ r ∈ (ms.foldl matchStepOk st).flat,
        matchRowOf (ms.foldl matchStepOk st).db r.1.openligadb_match_id
          = some r.1 := by
  induction ms with
  | nil => exact fun st hnd hgood => hgood
  | cons m? ms ih =>
    intro st hnd hgood
    rw [List.foldl_cons] at hnd ⊢
    rcases matchStepOk_shape st m? with heq | ⟨m, row, hdb, hflat⟩
    · rw [heq] at hnd ⊢
      exact ih st hnd hgood
    · refine ih (matchStepOk st m?) hnd ?_
      rcases matchFold_flat_prefix ms (matchStepOk st m?) with ⟨tail, htail⟩
      have hnd2 : (rowIds (matchStepOk st m?).flat).Nodup := by
        rw [htail] at hnd
        unfold rowIds at hnd ⊢
        rw [List.map_append] at hnd
        exact hnd.of_append_left
      rw [hflat] at hnd2
      have hnotin : row.openligadb_match_id ∉ rowIds st.flat := by
        unfold rowIds at hnd2 ⊢
        rw [List.map_append] at hnd2
        intro hmem
        exact (List.disjoint_of_nodup_append hnd2) hmem (by simp)
      intro r hr
      rw [hflat] at hr
      rcases List.mem_append.1 hr with hold | hnew
      · have hne : r.1.openligadb_match_id ≠ row.openligadb_match_id := by
          intro he
          exact hnotin (he ▸ List.mem_map_of_mem _ hold)
        rw [hdb, matchRowOf_congr _ (upsert_match_row st.db row).1
          (deleteResult_frame _ _).1 _,
          matchRowOf_upsert_other st.db row _ hne]
        exact hgood r hold
      · have hrm : r = (row, m) := by simpa using hnew
        subst hrm
        rw [hdb, matchRowOf_congr _ (upsert_match_row st.db row).1
          (deleteResult_frame _ _).1 _]
        exact matchRowOf_upsert_self st.db row

theorem compute_matchday_first_goal_name (md : MatchdayRow)
    (rows : List (MatchRow × MatchJson)) :
    (compute_matchday_first_goal md rows).name = md.name := by
  unfold compute_matchday_first_goal
  split
  · split
    · rfl
    · rfl
  · split
    · rfl
    · rfl

theorem firstGoalPhase_frame (grouped : List (Int × List (MatchRow × MatchJson))) :
    ∀ db : DB,
      (firstGoalPhase grouped db).teams = db.teams
      ∧ (firstGoalPhase grouped db).matchTable = db.matchTable
      ∧ (firstGoalPhase grouped db).league = db.league
      ∧ (firstGoalPhase grouped db).seasonExists = db.seasonExists := by
  induction grouped with
  | nil => exact fun db => ⟨rfl, rfl, rfl, rfl⟩
  | cons p l ih =>
    intro db
    unfold firstGoalPhase
    rw [List.foldl_cons]
    have hstep : (match mdRowOf db p.1 with
        | none => db
        | some md_obj => setMatchdayRow db p.1
            fun _ => compute_matchday_first_goal md_obj p.2).teams = db.teams
        ∧ (match mdRowOf db p.1 with
        | none => db
        | some md_obj => setMatchdayRow db p.1
            fun _ => compute_matchday_first_goal md_obj p.2).matchTable
            = db.matchTable
        ∧ (match mdRowOf db p.1 with
        | none => db
        | some md_obj => setMatchdayRow db p.1
            fun _ => compute_matchday_first_goal md_obj p.2).league = db.league
        ∧ (match mdRowOf db p.1 with
        | none => db
        | some md_obj => setMatchdayRow db p.1
            fun _ => compute_matchday_first_goal md_obj p.2).seasonExists
            = db.seasonExists := by
      cases mdRowOf db p.1 with
      | none => exact ⟨rfl, rfl, rfl, rfl⟩
      | some md_obj =>
        exact ⟨(setMatchdayRow_frame _ _ _).2.1,
          (setMatchdayRow_frame _ _ _).2.2.1,
          (setMatchdayRow_frame _ _ _).2.2.2.1,
          (setMatchdayRow_frame _ _ _).2.2.2.2⟩
    exact ⟨(ih _).1.trans hstep.1, (ih _).2.1.trans hstep.2.1,
      (ih _).2.2.1.trans hstep.2.2.1, (ih _).2.2.2.trans hstep.2.2.2⟩

theorem firstGoalPhase_cons (p : Int × List (MatchRow × MatchJson))
    (l : List (Int × List (MatchRow × MatchJson))) (db : DB) :
    firstGoalPhase (p :: l) db = firstGoalPhase l
      (match mdRowOf db p.1 with
        | none => db
        | some md_obj => setMatchdayRow db p.1
            fun _ => compute_matchday_first_goal md_obj p.2) := by
  unfold firstGoalPhase
  rw [List.foldl_cons]

theorem firstGoalPhase_mdNone (grouped : List (Int × List (MatchRow × MatchJson))) :
    ∀ (db : DB) (o : Int), mdRowOf db o = none →
      mdRowOf (firstGoalPhase grouped db) o = none := by
  induction grouped with
  | nil => exact fun db o h => h
  | cons p l ih =>
    intro db o h
    rw [firstGoalPhase_cons]
    refine ih _ o ?_
    cases hmd : mdRowOf db p.1 with
    | none => exact h
    | some md_obj =>
      dsimp only
      have hc : (compute_matchday_first_goal md_obj p.2).order_id = p.1 := by
        rw [compute_matchday_first_goal_order]
        exact rowOf_key _ _ _ _ hmd
      by_cases hop : o = p.1
      · subst hop
        simp [h] at hmd
      · unfold mdRowOf setMatchdayRow
        dsimp only
        rw [rowOf_map_const_other _ _ _ _ _ hc hop]
        exact h

theorem firstGoalPhase_mdPreserve
    (grouped : List (Int × List (MatchRow × MatchJson))) :
    ∀ (db : DB) (o : Int) (md : MatchdayRow), mdRowOf db o = some md →
      ∃ md', mdRowOf (firstGoalPhase grouped db) o = some md'
        ∧ md'.name = md.name := by
  induction grouped with
  | nil => exact fun db o md h => ⟨md, h, rfl⟩
  | cons p l ih =>
    intro db o md h
    rw [firstGoalPhase_cons]
    cases hmd : mdRowOf db p.1 with
    | none => exact ih db o md h
    | some md_obj =>
      dsimp only
      have hc : (compute_matchday_first_goal md_obj p.2).order_id = p.1 := by
        rw [compute_matchday_first_goal_order]
        exact rowOf_key _ _ _ _ hmd
      by_cases hop : o = p.1
      · subst hop
        rw [h] at hmd
        injection hmd with he
        subst he
        obtain ⟨md', hmd', hname⟩ := ih _ p.1 (compute_matchday_first_goal md p.2)
          (mdRowOf_set_const db p.1 _ md h hc)
        exact ⟨md', hmd', hname.trans (compute_matchday_first_goal_name md p.2)⟩
      · refine ih _ o md ?_
        unfold mdRowOf setMatchdayRow
        dsimp only
        rw [rowOf_map_const_other _ _ _ _ _ hc hop]
        exact h

theorem firstGoalPhase_untouched
    (grouped : List (Int × List (MatchRow × MatchJson))) :
    ∀ (db : DB) (o : Int), o ∉ grouped.map Prod.fst →
      mdRowOf (firstGoalPhase grouped db) o = mdRowOf db o := by
  induction grouped with
  | nil => exact fun db o h => rfl
  | cons p l ih =>
    intro db o h
    rw [firstGoalPhase_cons]
    have hop : o ≠ p.1 := by
      intro he
      exact h (by rw [List.map_cons, he]; exact List.mem_cons_self _ _)
    have htail : o ∉ l.map Prod.fst := by
      intro hm
      exact h (by rw [List.map_cons]; exact List.mem_cons_of_mem _ hm)
    cases hmd : mdRowOf db p.1 with
    | none => exact ih db o htail
    | some md_obj =>
      dsimp only
      have hc : (compute_matchday_first_goal md_obj p.2).order_id = p.1 := by
        rw [compute_matchday_first_goal_order]
        exact rowOf_key _ _ _ _ hmd
      rw [ih _ o htail]
      unfold mdRowOf setMatchdayRow
      dsimp only
      rw [rowOf_map_const_other _ _ _ _ _ hc hop]

theorem firstGoalPhase_writes
    (grouped : List (Int × List (MatchRow × MatchJson))) :
    ∀ db : DB, (grouped.map Prod.fst).Nodup →
      ∀ go ∈ grouped, ∀ md, mdRowOf db go.1 = some md →
        mdRowOf (firstGoalPhase grouped db) go.1
          = some (compute_matchday_first_goal md go.2) := by
  induction grouped with
  | nil =>
    intro db hnd go hmem
    exact absurd hmem (List.not_mem_nil go)
  | cons p l ih =>
    intro db hnd go hmem md hmd
    rw [List.map_cons] at hnd
    rw [firstGoalPhase_cons]
    rcases List.mem_cons.1 hmem with hhead | htail
    · subst hhead
      rw [hmd]
      dsimp only
      have hc : (compute_matchday_first_goal md go.2).order_id = go.1 := by
        rw [compute_matchday_first_goal_order]
        exact rowOf_key _ _ _ _ hmd
      rw [firstGoalPhase_untouched l _ go.1 (List.nodup_cons.1 hnd).1]
      exact mdRowOf_set_const db go.1 _ md hmd hc
    · have hne : go.1 ≠ p.1 := by
        intro he
        exact (List.nodup_cons.1 hnd).1 (he ▸ List.mem_map_of_mem Prod.fst htail)
      cases hpm : mdRowOf db p.1 with
      | none => exact ih db (List.nodup_cons.1 hnd).2 go htail md hmd
      | some md_obj =>
        dsimp only
        have hc : (compute_matchday_first_goal md_obj p.2).order_id = p.1 := by
          rw [compute_matchday_first_goal_order]
          exact rowOf_key _ _ _ _ hpm
        refine ih _ (List.nodup_cons.1 hnd).2 go htail md ?_
        unfold mdRowOf setMatchdayRow
        dsimp only
        rw [rowOf_map_const_other _ _ _ _ _ hc hne]
        exact hmd

theorem compute_matchday_first_goal_idem (md : MatchdayRow)
    (rows : List (MatchRow × MatchJson)) :
    compute_matchday_first_goal (compute_matchday_first_goal md rows) rows
      = compute_matchday_first_goal md rows := by
  unfold compute_matchday_first_goal
  cases hf : rows.foldl firstGoalFoldStep none with
  | none =>
    dsimp only
    by_cases hc : md.first_goal_at ≠ none ∨ md.first_goal_match ≠ none
        ∨ md.first_goal_minute ≠ none
    · rw [if_pos hc, if_neg (by simp)]
    · rw [if_neg hc, if_neg hc]
  | some trip =>
    obtain ⟨goal_at, mr, minute⟩ := trip
    dsimp only
    by_cases hc : md.first_goal_at ≠ some goal_at
        ∨ md.first_goal_match ≠ some mr.openligadb_match_id
        ∨ md.first_goal_minute ≠ some minute
    · rw [if_pos hc, if_neg (by simp)]
    · rw [if_neg hc, if_neg hc]

theorem firstGoalPhase_noop
    (grouped : List (Int × List (MatchRow × MatchJson))) :
    ∀ db : DB,
      (∀ go ∈ grouped, ∃ md, mdRowOf db go.1 = some md
        ∧ compute_matchday_first_goal md go.2 = md) →
      (db.matchdays.map fun md => md.order_id).Nodup →
      firstGoalPhase grouped db = db := by
  induction grouped with
  | nil => exact fun db _ _ => rfl
  | cons p l ih =>
    intro db hsync hnd
    obtain ⟨md, hmd, hcomp⟩ := hsync p (List.mem_cons_self _ _)
    rw [firstGoalPhase_cons, hmd]
    dsimp only
    rw [hcomp]
    have hset : setMatchdayRow db p.1 (fun _ => md) = db := by
      unfold setMatchdayRow
      dsimp only
      rw [rowOf_map_write_id (fun m : MatchdayRow => m.order_id) _ _ _ hmd hnd]
    rw [hset]
    exact ih db (fun go hm => hsync go (List.mem_cons_of_mem _ hm)) hnd

theorem appendGrouped_keys (g : List (Int × List (MatchRow × MatchJson)))
    (o : Int) (rm : MatchRow × MatchJson) :
    ((appendGrouped g o rm).map Prod.fst = g.map Prod.fst)
    ∨ ((appendGrouped g o rm).map Prod.fst = g.map Prod.fst ++ [o]
        ∧ o ∉ g.map Prod.fst) := by
  unfold appendGrouped
  cases hf : g.find? fun p => p.1 == o with
  | some q =>
    left
    rw [List.map_map]
    refine List.map_congr_left ?_
    intro p hp
    simp only [Function.comp]
    split
    · rfl
    · rfl
  | none =>
    right
    constructor
    · rw [List.map_append]
      rfl
    · intro hmem
      obtain ⟨p, hp, hpo⟩ := List.mem_map.1 hmem
      exact (List.find?_eq_none.1 hf p hp) (by simp [hpo])

theorem appendGrouped_keys_nodup (g : List (Int × List (MatchRow × MatchJson)))
    (o : Int) (rm : MatchRow × MatchJson)
    (h : (g.map Prod.fst).Nodup) :
    ((appendGrouped g o rm).map Prod.fst).Nodup := by
  rcases appendGrouped_keys g o rm with heq | ⟨heq, ho⟩
  · rw [heq]
    exact h
  · rw [heq, List.nodup_append]
    refine ⟨h, List.nodup_singleton o, fun x hx hxo => ?_⟩
    rw [List.mem_singleton.1 hxo] at hx
    exact ho hx

theorem groupedFold_keys_nodup (rows : List (MatchRow × MatchJson)) :
    ∀ g0, ((g0.map Prod.fst).Nodup) →
      (((rows.foldl (fun g rm => appendGrouped g rm.1.matchdayOrder rm) g0)).map
        Prod.fst).Nodup := by
  induction rows with
  | nil => exact fun g0 h => h
  | cons rm rows ih =>
    intro g0 h
    rw [List.foldl_cons]
    exact ih _ (appendGrouped_keys_nodup g0 rm.1.matchdayOrder rm h)

theorem groupedFold_keys_subset (rows : List (MatchRow × MatchJson)) :
    ∀ g0 o, o ∈ ((rows.foldl (fun g rm => appendGrouped g rm.1.matchdayOrder rm)
        g0).map Prod.fst) →
      o ∈ g0.map Prod.fst ∨ o ∈ rows.map fun rm => rm.1.matchdayOrder := by
  induction rows with
  | nil => exact fun g0 o h => Or.inl h
  | cons rm rows ih =>
    intro g0 o h
    rw [List.foldl_cons] at h
    rcases ih _ o h with hg | hr
    · rcases appendGrouped_keys g0 rm.1.matchdayOrder rm with heq | ⟨heq, _⟩
      · rw [heq] at hg
        exact Or.inl hg
      · rw [heq] at hg
        rcases List.mem_append.1 hg with h1 | h2
        · exact Or.inl h1
        · right
          rw [List.map_cons, List.mem_singleton.1 h2]
          exact List.mem_cons_self _ _
    · right
      rw [List.map_cons]
      exact List.mem_cons_of_mem _ hr

theorem matchProcessed_some_md (db : DB) (m : MatchJson) (row : MatchRow)
    (h : matchProcessed db m = some row) :
    (mdRowOf db row.matchdayOrder).isSome = true
    ∧ matchProcessed db m
        = some ⟨row.openligadb_match_id, row.matchdayOrder, row.kickoff_at,
            row.home_team_id, row.away_team_id, m.matchIsFinished⟩ := by
  unfold matchProcessed at h ⊢
  cases h1 : matchIdOf m with
  | error e => rw [h1] at h; simp at h
  | ok mid =>
    rw [h1] at h
    cases h2 : groupOrderIdOf m with
    | error e => rw [h2] at h; simp at h
    | ok md_order =>
      rw [h2] at h
      cases h3 : kickoffAtOf m with
      | error e => rw [h3] at h; simp at h
      | ok kickoff_at =>
        rw [h3] at h
        dsimp only at h ⊢
        cases ht1 : m.team1 with
        | none => rw [ht1] at h; simp at h
        | some t1 =>
          rw [ht1] at h
          cases ht2 : m.team2 with
          | none => rw [ht2] at h; simp at h
          | some t2 =>
            rw [ht2] at h
            dsimp only at h ⊢
            cases hi1 : t1.teamId with
            | none => rw [hi1] at h; simp at h
            | some home_id =>
              rw [hi1] at h
              cases hi2 : t2.teamId with
              | none => rw [hi2] at h; simp at h
              | some away_id =>
                rw [hi2] at h
                dsimp only at h ⊢
                cases hm1 : mdRowOf db md_order with
                | none => rw [hm1] at h; simp at h
                | some mdr =>
                  rw [hm1] at h
                  cases hr1 : teamRowOf db home_id with
                  | none => rw [hr1] at h; simp at h
                  | some trh =>
                    rw [hr1] at h
                    cases hr2 : teamRowOf db away_id with
                    | none => rw [hr2] at h; simp at h
                    | some tra =>
                      rw [hr2] at h
                      dsimp only at h
                      injection h with h'
                      subst h'
                      dsimp only
                      rw [hm1]
                      exact ⟨rfl, rfl⟩

theorem processedOf_mdSome (db : DB) (ms : List (Option MatchJson)) :
    ∀ rm ∈ processedOf db ms, (mdRowOf db rm.1.matchdayOrder).isSome = true := by
  intro rm hm
  unfold processedOf at hm
  obtain ⟨m?, hmem, hfm⟩ := List.mem_filterMap.1 hm
  cases m? with
  | none => simp at hfm
  | some m =>
    rw [Option.some_bind] at hfm
    cases hmp : matchProcessed db m with
    | none =>
      rw [hmp] at hfm
      simp at hfm
    | some row =>
      rw [hmp] at hfm
      simp only [Option.map_some'] at hfm
      injection hfm with hfm'
      rw [← hfm']
      exact (matchProcessed_some_md db m row hmp).1

theorem bootstrapLeagueSeason_season (ln : String) (db : DB) :
    (bootstrapLeagueSeason ln db).seasonExists = true := by
  unfold bootstrapLeagueSeason
  cases db.league with
  | none => rfl
  | some name => rfl

theorem bootstrapLeagueSeason_fix (ln : String) (db dbX : DB)
    (hl : dbX.league = (bootstrapLeagueSeason ln db).league)
    (hs : dbX.seasonExists = true) :
    bootstrapLeagueSeason ln dbX = dbX := by
  obtain ⟨name, hname, hcond⟩ : ∃ name,
      (bootstrapLeagueSeason ln db).league = some name
      ∧ ¬(ln ≠ "" ∧ name ≠ ln) := by
    unfold bootstrapLeagueSeason
    cases db.league with
    | none => exact ⟨ln, rfl, fun hc => hc.2 rfl⟩
    | some name0 =>
      dsimp only
      refine ⟨if ln ≠ "" ∧ name0 ≠ ln then ln else name0, rfl, ?_⟩
      by_cases hc : ln ≠ "" ∧ name0 ≠ ln
      · rw [if_pos hc]
        exact fun hcc => hcc.2 rfl
      · rw [if_neg hc]
        exact fun hcc => hc ⟨hcc.1, hcc.2⟩
  rw [hname] at hl
  obtain ⟨l0, se0, md0, t0, mt0, r0⟩ := dbX
  simp only at hl hs
  subst hl
  subst hs
  unfold bootstrapLeagueSeason
  dsimp only
  rw [if_neg hcond]

theorem teamKeyStep_misc (st : DB × ImportSummary × List Int)
    (t? : Option TeamJson) (st1 : DB × ImportSummary × List Int)
    (h : teamKeyStep st t? = .ok st1) :
    st1.1.league = st.1.league ∧ st1.1.seasonExists = st.1.seasonExists
    ∧ st1.1.matchTable = st.1.matchTable := by
  unfold teamKeyStep at h
  cases t? with
  | none =>
    injection h with h'
    rw [← h']
    exact ⟨rfl, rfl, rfl⟩
  | some tj =>
    dsimp only at h
    cases hx : extract_team_fields tj with
    | error e =>
      rw [hx] at h
      simp at h
    | ok q =>
      obtain ⟨tid, n, sn, iu⟩ := q
      rw [hx] at h
      dsimp only at h
      by_cases hc : st.2.2.contains tid = true
      · rw [if_pos hc] at h
        injection h with h'
        rw [← h']
        exact ⟨rfl, rfl, rfl⟩
      · rw [if_neg hc] at h
        injection h with h'
        rw [← h']
        exact ⟨(upsert_team_frame st.1 tid n sn iu).2.2.2.1,
          (upsert_team_frame st.1 tid n sn iu).2.2.2.2,
          (upsert_team_frame st.1 tid n sn iu).2.2.1⟩

theorem teamPhaseStep_misc (st : DB × ImportSummary × List Int)
    (m? : Option MatchJson) (st1 : DB × ImportSummary × List Int)
    (h : teamPhaseStep st m? = .ok st1) :
    st1.1.league = st.1.league ∧ st1.1.seasonExists = st.1.seasonExists
    ∧ st1.1.matchTable = st.1.matchTable := by
  unfold teamPhaseStep at h
  cases m? with
  | none => simp at h
  | some m =>
    dsimp only at h
    cases h1 : teamKeyStep st m.team1 with
    | error e =>
      rw [h1] at h
      simp at h
    | ok stA =>
      rw [h1] at h
      dsimp only at h
      have hA := teamKeyStep_misc _ _ _ h1
      have hB := teamKeyStep_misc _ _ _ h
      exact ⟨hB.1.trans hA.1, hB.2.1.trans hA.2.1, hB.2.2.trans hA.2.2⟩

theorem teamFold_misc (ms : List (Option MatchJson)) :
    ∀ st st1, ms.foldlM teamPhaseStep st = .ok st1 →
      st1.1.league = st.1.league ∧ st1.1.seasonExists = st.1.seasonExists
      ∧ st1.1.matchTable = st.1.matchTable := by
  induction ms with
  | nil =>
    intro st st1 h
    simp only [List.foldlM_nil] at h
    injection h with h'
    rw [← h']
    exact ⟨rfl, rfl, rfl⟩
  | cons m? ms ih =>
    intro st st1 h
    rw [List.foldlM_cons] at h
    cases h1 : teamPhaseStep st m? with
    | error e =>
      rw [h1] at h
      simp [Bind.bind, Except.bind] at h
    | ok stA =>
      rw [h1] at h
      simp only [Bind.bind, Except.bind] at h
      have hA := teamPhaseStep_misc _ _ _ h1
      have hB := ih _ _ h
      exact ⟨hB.1.trans hA.1, hB.2.1.trans hA.2.1, hB.2.2.trans hA.2.2⟩

/-- C3 (amended): re-running bootstrap_season on its own output leaves the
store unchanged and returns the same processed rows; in the summary of the
second run the created counters and the imported-matchday counter are zero,
groups_total, groups_with_matches and matches_total repeat the first run, but
matches_updated equals the number of processed matches, because the
Match.objects.update_or_create call reports every already-existing row as
updated. A first run completes only when no processed match carries an
extractable score (the result upsert raises otherwise), and then the rerun
completes identically. Stated under feed regularity (distinct effective
matchday ordinals, distinct processed match ids) guaranteed in the source by
unique database columns. -/
theorem bootstrap_rerun_spec (feed : Feed) (db db1 : DB) (s1 : ImportSummary)
    (rows1 : List (MatchRow × MatchJson))
    (h1 : bootstrap_season feed db = .ok (db1, s1, rows1))
    (hndg : ∀ e, compute_earliest_kickoffs feed.seasonMatches = .ok e →
      (effectiveOrders e feed.groups).Nodup)
    (hndr : (rowIds rows1).Nodup)
    (hndmt : (db1.matchTable.map fun m => m.openligadb_match_id).Nodup)
    (hndmd : (db1.matchdays.map fun md => md.order_id).Nodup) :
    bootstrap_season feed db1
      = .ok (db1,
          { groups_total := feed.groups.length,
            groups_with_matches := s1.groups_with_matches,
            matches_total := feed.seasonMatches.length,
            matches_updated := rows1.length }, rows1) := by
  have h1c := h1
  unfold bootstrap_season at h1
  dsimp only at h1
  split at h1
  · simp at h1
  · rename_i ln hln
    split at h1
    · simp at h1
    · rename_i dbB sB seenB hbt
      split at h1
      · simp at h1
      · rename_i e hek
        split at h1
        · simp at h1
        · rename_i dbC s3 dl1 hgs
          split at h1
          · simp at h1
          · rename_i stM hfM
            injection h1 with hp
            injection hp with hdb1 hp2
            injection hp2 with hs1 hrows1
            have hstM := matchFoldM_ok _ _ _ hfM
            subst hstM
            -- restate the pieces of the first run over explicit spellings
            have hdb1' : firstGoalPhase
                (feed.seasonMatches.foldl matchStepOk
                  ⟨dbC, { s3 with groups_with_matches := dl1.length }, [], []⟩).grouped
                (feed.seasonMatches.foldl matchStepOk
                  ⟨dbC, { s3 with groups_with_matches := dl1.length }, [], []⟩).db
                = db1 := hdb1
            have hs1' : (feed.seasonMatches.foldl matchStepOk
                ⟨dbC, { s3 with groups_with_matches := dl1.length }, [], []⟩).summary
                = s1 := hs1
            have hrows1' : (feed.seasonMatches.foldl matchStepOk
                ⟨dbC, { s3 with groups_with_matches := dl1.length }, [], []⟩).flat
                = rows1 := hrows1
            have hbt' : feed.seasonMatches.foldlM teamPhaseStep
                (bootstrapLeagueSeason ln db,
                  ({ matches_total := feed.seasonMatches.length } : ImportSummary),
                  ([] : List Int)) = .ok (dbB, sB, seenB) := hbt
            have hgs' : feed.groups.foldlM (groupStep e)
                (dbB, ({ sB with groups_total := feed.groups.length } : ImportSummary),
                  ([] : List Int)) = .ok (dbC, s3, dl1) := hgs
            have hfM' : feed.seasonMatches.foldlM matchStep
                ⟨dbC, { s3 with groups_with_matches := dl1.length }, [], []⟩
                = .ok (feed.seasonMatches.foldl matchStepOk
                    ⟨dbC, { s3 with groups_with_matches := dl1.length }, [], []⟩) := hfM
            -- frames of the first run
            have hGfr := groupFold_frame e feed.groups _ _ hgs'
            have hGteams : dbC.teams = dbB.teams := by simpa using hGfr.1
            have hGleague : dbC.league = dbB.league := by simpa using hGfr.2.2.2.1
            have hGse : dbC.seasonExists = dbB.seasonExists := by
              simpa using hGfr.2.2.2.2
            have hTm := teamFold_misc feed.seasonMatches _ _ hbt'
            have hTleague : dbB.league = (bootstrapLeagueSeason ln db).league := by
              simpa using hTm.1
            have hTse : dbB.seasonExists
                = (bootstrapLeagueSeason ln db).seasonExists := by
              simpa using hTm.2.1
            have hMfr := matchFold_db_frame feed.seasonMatches
              ⟨dbC, { s3 with groups_with_matches := dl1.length }, [], []⟩
            have hMmd : (feed.seasonMatches.foldl matchStepOk
                ⟨dbC, { s3 with groups_with_matches := dl1.length }, [], []⟩).db.matchdays
                = dbC.matchdays := by simpa using hMfr.1
            have hMteams : (feed.seasonMatches.foldl matchStepOk
                ⟨dbC, { s3 with groups_with_matches := dl1.length }, [], []⟩).db.teams
                = dbC.teams := by simpa using hMfr.2.1
            have hMleague : (feed.seasonMatches.foldl matchStepOk
                ⟨dbC, { s3 with groups_with_matches := dl1.length }, [], []⟩).db.league
                = dbC.league := by simpa using hMfr.2.2.1
            have hMse : (feed.seasonMatches.foldl matchStepOk
                ⟨dbC, { s3 with groups_with_matches := dl1.length }, [],
                  []⟩).db.seasonExists
                = dbC.seasonExists := by simpa using hMfr.2.2.2
            have hFfr := firstGoalPhase_frame
              (feed.seasonMatches.foldl matchStepOk
                ⟨dbC, { s3 with groups_with_matches := dl1.length }, [], []⟩).grouped
              (feed.seasonMatches.foldl matchStepOk
                ⟨dbC, { s3 with groups_with_matches := dl1.length }, [], []⟩).db
            -- clean facts about db1
            have hTeams1 : db1.teams = dbB.teams := by
              rw [← hdb1', hFfr.1, hMteams, hGteams]
            have hTeamsC : db1.teams = dbC.teams := by
              rw [← hdb1', hFfr.1, hMteams]
            have hMt1 : db1.matchTable = (feed.seasonMatches.foldl matchStepOk
                ⟨dbC, { s3 with groups_with_matches := dl1.length }, [],
                  []⟩).db.matchTable := by
              rw [← hdb1', hFfr.2.1]
            have hLeague1 : db1.league = (bootstrapLeagueSeason ln db).league := by
              rw [← hdb1', hFfr.2.2.1, hMleague, hGleague, hTleague]
            have hSe1 : db1.seasonExists = true := by
              rw [← hdb1', hFfr.2.2.2, hMse, hGse, hTse,
                bootstrapLeagueSeason_season]
            -- characterizations of the first run
            have hrowsC : rows1 = processedOf dbC feed.seasonMatches := by
              rw [← hrows1']
              simpa using (matchFold_chars feed.seasonMatches
                ⟨dbC, { s3 with groups_with_matches := dl1.length }, [], []⟩).1
            have hgr1 : (feed.seasonMatches.foldl matchStepOk
                ⟨dbC, { s3 with groups_with_matches := dl1.length }, [], []⟩).grouped
                = (processedOf dbC feed.seasonMatches).foldl
                    (fun g rm => appendGrouped g rm.1.matchdayOrder rm) [] := by
              simpa using (matchFold_chars feed.seasonMatches
                ⟨dbC, { s3 with groups_with_matches := dl1.length }, [], []⟩).2
            have hdl1 : dl1 = groupSeenOf e feed.groups [] := by
              simpa using groupFold_seen e feed.groups _ _ hgs'
            have hs1gw : s1.groups_with_matches = dl1.length := by
              rw [← hs1']
              simpa using (matchFold_summary_frame feed.seasonMatches
                ⟨dbC, { s3 with groups_with_matches := dl1.length }, [], []⟩).1
            -- every processed match of the completed first run is scoreless
            have hslC : ∀ rm ∈ processedOf dbC feed.seasonMatches,
                extract_current_score rm.2 = none := by
              intro rm hm
              refine matchFoldM_flat_scoreless feed.seasonMatches _ _ hfM'
                (fun r hr => absurd hr (List.not_mem_nil r)) rm ?_
              rw [hrows1', hrowsC]
              exact hm
            -- someness transfer between dbC and db1
            have hsomeMD : ∀ o, (mdRowOf db1 o).isSome = (mdRowOf dbC o).isSome := by
              intro o
              cases hmd : mdRowOf dbC o with
              | none =>
                rw [← hdb1', firstGoalPhase_mdNone _ _ o
                  (by rw [mdRowOf_congr _ dbC hMmd o]; exact hmd)]
              | some md =>
                rw [← hdb1']
                obtain ⟨md', hmd', _⟩ := firstGoalPhase_mdPreserve _ _ o md
                  (by rw [mdRowOf_congr _ dbC hMmd o]; exact hmd)
                rw [hmd']
                rfl
            have hsomeT : ∀ t, (teamRowOf db1 t).isSome = (teamRowOf dbC t).isSome := by
              intro t
              rw [teamRowOf_congr db1 dbC hTeamsC t]
            have hproc : processedOf db1 feed.seasonMatches
                = processedOf dbC feed.seasonMatches :=
              processedOf_congr _ _ _ hsomeMD hsomeT
            -- first-run sync facts usable by the second run
            have hgone := bootstrap_gone feed db db1 s1 rows1 h1c
            have hmg : ∀ r ∈ rows1,
                matchRowOf db1 r.1.openligadb_match_id = some r.1 := by
              intro r hr
              have hrin : r ∈ (feed.seasonMatches.foldl matchStepOk
                  ⟨dbC, { s3 with groups_with_matches := dl1.length }, [], []⟩).flat := by
                rw [hrows1']
                exact hr
              have hmm := matchFold_match_good feed.seasonMatches
                ⟨dbC, { s3 with groups_with_matches := dl1.length }, [], []⟩
                (by rw [hrows1']; exact hndr)
                (fun r hr => absurd hr (List.not_mem_nil r)) r hrin
              have hcongr := matchRowOf_congr db1
                (feed.seasonMatches.foldl matchStepOk
                  ⟨dbC, { s3 with groups_with_matches := dl1.length }, [], []⟩).db
                hMt1 r.1.openligadb_match_id
              rw [hcongr]
              exact hmm
            have hsyncM : ∀ rm ∈ processedOf db1 feed.seasonMatches,
                matchRowOf db1 rm.1.openligadb_match_id = some rm.1
                ∧ resultRowOf db1 rm.1.openligadb_match_id = none := by
              intro rm hm
              rw [hproc, ← hrowsC] at hm
              exact ⟨hmg rm hm, (hgone rm hm).2⟩
            -- matchday-name sync for the matchday phase rerun
            have hmdSync : ∀ g? ∈ feed.groups, ∀ g, g? = some g →
                ∀ o, groupIdOf g = some o →
                ((e.find? fun p => p.1 == o).isSome = true) →
                ∃ md, mdRowOf db1 o = some md ∧ md.name = g.groupName.getD "" := by
              intro g? hmem g hgsome o hgo hfind
              obtain ⟨md, hmd, hname⟩ := groupFold_synced e feed.groups _ _ hgs'
                (hndg e hek) g? hmem g hgsome o hgo hfind
              have hmdC : mdRowOf (feed.seasonMatches.foldl matchStepOk
                  ⟨dbC, { s3 with groups_with_matches := dl1.length }, [], []⟩).db o
                  = some md := by
                rw [mdRowOf_congr _ dbC hMmd o]
                simpa using hmd
              obtain ⟨md', hmd', hname'⟩ := firstGoalPhase_mdPreserve _ _ o md hmdC
              rw [hdb1'] at hmd'
              exact ⟨md', hmd', hname'.trans hname⟩
            -- grouped keys of the first run
            have hkeysNd : ((feed.seasonMatches.foldl matchStepOk
                ⟨dbC, { s3 with groups_with_matches := dl1.length }, [], []⟩).grouped.map
                  Prod.fst).Nodup := by
              rw [hgr1]
              exact groupedFold_keys_nodup _ [] (by simp)
            -- sync for the first-goal rerun
            have hsyncP5 : ∀ go ∈ (feed.seasonMatches.foldl matchStepOk
                ⟨dbC, { s3 with groups_with_matches := dl1.length }, [], []⟩).grouped,
                ∃ md, mdRowOf db1 go.1 = some md
                  ∧ compute_matchday_first_goal md go.2 = md := by
              intro go hmem
              have hkey : go.1 ∈ ((feed.seasonMatches.foldl matchStepOk
                  ⟨dbC, { s3 with groups_with_matches := dl1.length }, [], []⟩).grouped.map
                    Prod.fst) := List.mem_map_of_mem Prod.fst hmem
              rw [hgr1] at hkey
              rcases groupedFold_keys_subset _ [] go.1 hkey with hnil | hords
              · simp at hnil
              · obtain ⟨rm, hrmmem, hrmo⟩ := List.mem_map.1 hords
                have hsomeC : (mdRowOf dbC go.1).isSome = true := by
                  rw [← hrmo]
                  exact processedOf_mdSome dbC feed.seasonMatches rm hrmmem
                have hsomeM : (mdRowOf (feed.seasonMatches.foldl matchStepOk
                    ⟨dbC, { s3 with groups_with_matches := dl1.length },
                      [], []⟩).db go.1).isSome = true := by
                  rw [mdRowOf_congr _ dbC hMmd go.1]
                  exact hsomeC
                obtain ⟨mdD, hmdD⟩ := Option.isSome_iff_exists.1 hsomeM
                have hw := firstGoalPhase_writes
                  (feed.seasonMatches.foldl matchStepOk
                    ⟨dbC, { s3 with groups_with_matches := dl1.length }, [], []⟩).grouped
                  (feed.seasonMatches.foldl matchStepOk
                    ⟨dbC, { s3 with groups_with_matches := dl1.length }, [], []⟩).db
                  hkeysNd go hmem mdD hmdD
                rw [hdb1'] at hw
                exact ⟨compute_matchday_first_goal mdD go.2, hw,
                  compute_matchday_first_goal_idem mdD go.2⟩
            have hP5 : firstGoalPhase (feed.seasonMatches.foldl matchStepOk
                ⟨dbC, { s3 with groups_with_matches := dl1.length }, [], []⟩).grouped db1
                = db1 :=
              firstGoalPhase_noop _ db1 hsyncP5 hndmd
            -- assemble the second run phase by phase
            have hfix : bootstrapLeagueSeason ln db1 = db1 :=
              bootstrapLeagueSeason_fix ln db db1 hLeague1 hSe1
            have hF4 : bootstrapTeams feed.seasonMatches db1
                ({ matches_total := feed.seasonMatches.length } : ImportSummary)
                = .ok (db1, ({ matches_total := feed.seasonMatches.length } :
                    ImportSummary), seenB) := by
              unfold bootstrapTeams
              have hre := teamFold_rerun feed.seasonMatches
                (bootstrapLeagueSeason ln db,
                  ({ matches_total := feed.seasonMatches.length } : ImportSummary),
                  ([] : List Int))
                (dbB, sB, seenB) hbt' db1
                ({ matches_total := feed.seasonMatches.length } : ImportSummary)
                (fun tid _ _ => teamRowOf_congr db1 dbB hTeams1 tid)
              simpa using hre
            have hF6 := groupFold_rerun e feed.groups _ _ hgs' db1
              ({ ({ matches_total := feed.seasonMatches.length } : ImportSummary)
                  with groups_total := feed.groups.length } : ImportSummary)
              [] hmdSync
            have hM2 : feed.seasonMatches.foldlM matchStep
                ⟨db1,
                  { ({ ({ matches_total := feed.seasonMatches.length } : ImportSummary)
                      with groups_total := feed.groups.length } : ImportSummary) with
                    groups_with_matches := (groupSeenOf e feed.groups []).length },
                  [], []⟩
                = .ok (feed.seasonMatches.foldl matchStepOk
                    ⟨db1,
                      { ({ ({ matches_total := feed.seasonMatches.length } :
                            ImportSummary)
                          with groups_total := feed.groups.length } : ImportSummary) with
                        groups_with_matches := (groupSeenOf e feed.groups []).length },
                      [], []⟩) := by
              refine matchFoldM_of_scoreless feed.seasonMatches _ ?_
              intro rm hm
              refine hslC rm ?_
              have hm' : rm ∈ processedOf db1 feed.seasonMatches := hm
              rw [hproc] at hm'
              exact hm'
            have hnoop2 := matchFold_noop feed.seasonMatches
              ⟨db1,
                { ({ ({ matches_total := feed.seasonMatches.length } : ImportSummary)
                    with groups_total := feed.groups.length } : ImportSummary) with
                  groups_with_matches := (groupSeenOf e feed.groups []).length },
                [], []⟩ hsyncM hndmt
            have hdb2 : (feed.seasonMatches.foldl matchStepOk
                ⟨db1,
                  { ({ ({ matches_total := feed.seasonMatches.length } : ImportSummary)
                      with groups_total := feed.groups.length } : ImportSummary) with
                    groups_with_matches := (groupSeenOf e feed.groups []).length },
                  [], []⟩).db = db1 := by
              simpa using hnoop2.1
            have hlen : (processedOf db1 feed.seasonMatches).length = rows1.length := by
              rw [hproc, ← hrowsC]
            have hflat2 : (feed.seasonMatches.foldl matchStepOk
                ⟨db1,
                  { ({ ({ matches_total := feed.seasonMatches.length } : ImportSummary)
                      with groups_total := feed.groups.length } : ImportSummary) with
                    groups_with_matches := (groupSeenOf e feed.groups []).length },
                  [], []⟩).flat = rows1 := by
              have h2 := (matchFold_chars feed.seasonMatches
                ⟨db1,
                  { ({ ({ matches_total := feed.seasonMatches.length } : ImportSummary)
                      with groups_total := feed.groups.length } : ImportSummary) with
                    groups_with_matches := (groupSeenOf e feed.groups []).length },
                  [], []⟩).1
              rw [hrowsC, ← hproc]
              simpa using h2
            have hgrq : (feed.seasonMatches.foldl matchStepOk
                ⟨db1,
                  { ({ ({ matches_total := feed.seasonMatches.length } : ImportSummary)
                      with groups_total := feed.groups.length } : ImportSummary) with
                    groups_with_matches := (groupSeenOf e feed.groups []).length },
                  [], []⟩).grouped
                = (feed.seasonMatches.foldl matchStepOk
                    ⟨dbC, { s3 with groups_with_matches := dl1.length },
                      [], []⟩).grouped := by
              have h2 := (matchFold_chars feed.seasonMatches
                ⟨db1,
                  { ({ ({ matches_total := feed.seasonMatches.length } : ImportSummary)
                      with groups_total := feed.groups.length } : ImportSummary) with
                    groups_with_matches := (groupSeenOf e feed.groups []).length },
                  [], []⟩).2
              rw [hgr1, ← hproc]
              simpa using h2
            have hfg2 : firstGoalPhase
                (feed.seasonMatches.foldl matchStepOk
                  ⟨db1,
                    { ({ ({ matches_total := feed.seasonMatches.length } :
                          ImportSummary)
                        with groups_total := feed.groups.length } : ImportSummary) with
                      groups_with_matches := (groupSeenOf e feed.groups []).length },
                    [], []⟩).grouped
                (feed.seasonMatches.foldl matchStepOk
                  ⟨db1,
                    { ({ ({ matches_total := feed.seasonMatches.length } :
                          ImportSummary)
                        with groups_total := feed.groups.length } : ImportSummary) with
                      groups_with_matches := (groupSeenOf e feed.groups []).length },
                    [], []⟩).db
                = db1 := by
              rw [hdb2, hgrq]
              exact hP5
            have hgw : s1.groups_with_matches
                = (groupSeenOf e feed.groups []).length := by
              rw [hs1gw, hdl1]
            have hsum2 : (feed.seasonMatches.foldl matchStepOk
                ⟨db1,
                  { ({ ({ matches_total := feed.seasonMatches.length } : ImportSummary)
                      with groups_total := feed.groups.length } : ImportSummary) with
                    groups_with_matches := (groupSeenOf e feed.groups []).length },
                  [], []⟩).summary
                = { groups_total := feed.groups.length,
                    groups_with_matches := s1.groups_with_matches,
                    matches_total := feed.seasonMatches.length,
                    matches_updated := rows1.length } := by
              rw [hnoop2.2, hgw]
              simp [hlen]
            unfold bootstrap_season
            dsimp only
            rw [hln]
            dsimp only
            rw [hfix, hF4]
            dsimp only
            rw [hek]
            dsimp only
            rw [hF6]
            dsimp only
            rw [hM2]
            dsimp only
            rw [hfg2, hsum2, hflat2]

def c3Out2 : DB × ImportSummary × List (MatchRow × MatchJson) :=
  match bootstrap_season scorelessFeed slBootOut.1 with
  | .ok t => t
  | .error _ => (c2Db0, {}, [])

/-- C3 counterexample to the literal claim: a second bootstrap run over the
state produced by a first run (on a scoreless feed, so that both runs
complete) does leave the store unchanged, but its summary does not report all
counts as zero: the one existing match is counted in matches_updated, because
Match.objects.update_or_create reports an existing row as updated. -/
theorem bootstrap_idempotence_counterexample :
    bootstrap_season scorelessFeed slBootOut.1
        = .ok (c3Out2.1, c3Out2.2.1, c3Out2.2.2)
    ∧ c3Out2.1 = slBootOut.1
    ∧ c3Out2.2.1.matches_updated = 1 :=
  ⟨rfl, by decide, by decide⟩

/-- Witness: the amended rerun statement applied to the concrete scoreless
one-match feed and the state left by its first bootstrap run. -/
theorem bootstrap_rerun_spec_witness :
    bootstrap_season scorelessFeed slBootOut.1
      = .ok (slBootOut.1,
          { groups_total := scorelessFeed.groups.length,
            groups_with_matches := slBootOut.2.1.groups_with_matches,
            matches_total := scorelessFeed.seasonMatches.length,
            matches_updated := slBootOut.2.2.length }, slBootOut.2.2) :=
  bootstrap_rerun_spec scorelessFeed c2Db0 slBootOut.1 slBootOut.2.1 slBootOut.2.2
    rfl
    (by
      intro e he
      have h0 : compute_earliest_kickoffs scorelessFeed.seasonMatches
          = Except.ok [((1 : Int), (100 : Int))] := rfl
      rw [h0] at he
      rw [← Except.ok.inj he]
      decide)
    (by decide) (by decide) (by decide)

/-! ### Theorems: score extraction precedence (C4) -/

/-- Counterexample to claim C4 as stated: first record: among the two
final-labelled entries the higher-ordering one lacks numeric values, so the
claimed precedence yields no score while the code returns the score of the
lower-ordering final entry. Second record: the goal list is non-empty but its
last event lacks numeric values, so the claimed precedence stops with no
score while the code falls through to the result entries. Third record: the
single entry has ordering value -5, which the claimed step 3 selects while
the best-result scan of the code never accepts an ordering value below its
starting threshold -1 and returns no score. -/
theorem extract_current_score_counterexample :
    (extract_current_score
        ⟨none, none, .missing, false, none, none, [],
          [some ⟨some "Endergebnis", some 1, some 0, some 1⟩,
            some ⟨some "Endergebnis", none, none, some 2⟩], none⟩ = some (1, 0)
      ∧ extract_current_score_claimed
        ⟨none, none, .missing, false, none, none, [],
          [some ⟨some "Endergebnis", some 1, some 0, some 1⟩,
            some ⟨some "Endergebnis", none, none, some 2⟩], none⟩ = none)
    ∧ (extract_current_score
        ⟨none, none, .missing, false, none, none, [some ⟨none, none, some 10⟩],
          [some ⟨some "Endergebnis", some 2, some 1, some 4⟩], none⟩ = some (2, 1)
      ∧ extract_current_score_claimed
        ⟨none, none, .missing, false, none, none, [some ⟨none, none, some 10⟩],
          [some ⟨some "Endergebnis", some 2, some 1, some 4⟩], none⟩ = none)
    ∧ (extract_current_score
        ⟨none, none, .missing, false, none, none, [],
          [some ⟨some "Halbzeit", some 1, some 0, some (-5)⟩], none⟩ = none
      ∧ extract_current_score_claimed
        ⟨none, none, .missing, false, none, none, [],
          [some ⟨some "Halbzeit", some 1, some 0, some (-5)⟩], none⟩ = some (1, 0)) := by
  decide

theorem lastMaxBy_eq_none {α : Type} (key : α → Int) (l : List α) :
    lastMaxBy key l = none ↔ l = [] := by
  cases l with
  | nil => simp [lastMaxBy]
  | cons x l =>
    simp only [lastMaxBy]
    cases hl : lastMaxBy key l with
    | none => simp
    | some b => by_cases hc : key b ≥ key x <;> simp [hc]

theorem lastMaxBy_mem {α : Type} (key : α → Int) :
    ∀ (l : List α) (b : α), lastMaxBy key l = some b → b ∈ l := by
  intro l
  induction l with
  | nil => intro b h; simp [lastMaxBy] at h
  | cons x l ih =>
    intro b h
    simp only [lastMaxBy] at h
    cases hl : lastMaxBy key l with
    | none =>
      rw [hl] at h
      dsimp only at h
      obtain rfl : x = b := Option.some_inj.mp h
      exact List.mem_cons_self x l
    | some c =>
      rw [hl] at h
      dsimp only at h
      by_cases hc : key c ≥ key x
      · rw [if_pos hc] at h
        obtain rfl : c = b := Option.some_inj.mp h
        exact List.mem_cons_of_mem _ (ih _ hl)
      · rw [if_neg hc] at h
        obtain rfl : x = b := Option.some_inj.mp h
        exact List.mem_cons_self x l

theorem lastMaxBy_max {α : Type} (key : α → Int) :
    ∀ (l : List α) (b : α), lastMaxBy key l = some b → ∀ y ∈ l, key y ≤ key b := by
  intro l
  induction l with
  | nil => intro b h; simp [lastMaxBy] at h
  | cons x l ih =>
    intro b h y hy
    simp only [lastMaxBy] at h
    cases hl : lastMaxBy key l with
    | none =>
      rw [hl] at h
      dsimp only at h
      obtain rfl : x = b := Option.some_inj.mp h
      have hnil : l = [] := (lastMaxBy_eq_none key l).mp hl
      subst hnil
      rcases List.mem_cons.mp hy with rfl | hy2
      · exact le_refl _
      · simp at hy2
    | some c =>
      rw [hl] at h
      dsimp only at h
      by_cases hc : key c ≥ key x
      · rw [if_pos hc] at h
        obtain rfl : c = b := Option.some_inj.mp h
        rcases List.mem_cons.mp hy with rfl | hy2
        · omega
        · exact ih _ hl y hy2
      · rw [if_neg hc] at h
        obtain rfl : x = b := Option.some_inj.mp h
        rcases List.mem_cons.mp hy with rfl | hy2
        · exact le_refl _
        · have := ih _ hl y hy2
          omega

theorem lastMaxBy_filter_mono {α : Type} (key : α → Int) (m k : Int) (hmk : m ≤ k) :
    ∀ (l : List α) (b : α),
      lastMaxBy key (l.filter fun y => key y ≥ m) = some b → k ≤ key b →
      lastMaxBy key (l.filter fun y => key y ≥ k) = some b := by
  intro l
  induction l with
  | nil => intro b h _; simp [lastMaxBy] at h
  | cons x l ih =>
    intro b h hkb
    by_cases hxk : key x ≥ k
    · have hxm : key x ≥ m := le_trans hmk hxk
      rw [List.filter_cons_of_pos (by simpa using hxm)] at h
      rw [List.filter_cons_of_pos (by simpa using hxk)]
      simp only [lastMaxBy] at h ⊢
      cases hl : lastMaxBy key (l.filter fun y => key y ≥ m) with
      | none =>
        rw [hl] at h
        dsimp only at h
        obtain rfl : x = b := Option.some_inj.mp h
        have hnil : (l.filter fun y => key y ≥ m) = [] := (lastMaxBy_eq_none key _).mp hl
        have hnil2 : (l.filter fun y => key y ≥ k) = [] := by
          rw [List.filter_eq_nil_iff] at hnil ⊢
          intro a ha
          have := hnil a ha
          simp only [ge_iff_le, decide_eq_true_eq] at this ⊢
          omega
        rw [hnil2]
        rfl
      | some c =>
        rw [hl] at h
        dsimp only at h
        by_cases hc : key c ≥ key x
        · rw [if_pos hc] at h
          obtain rfl : c = b := Option.some_inj.mp h
          rw [ih _ hl hkb]
          dsimp only
          rw [if_pos hc]
        · rw [if_neg hc] at h
          obtain rfl : x = b := Option.some_inj.mp h
          cases hlk : lastMaxBy key (l.filter fun y => key y ≥ k) with
          | none => rfl
          | some d =>
            have hdm := lastMaxBy_mem key _ _ hlk
            have hd2 : d ∈ l.filter fun y => key y ≥ m := by
              rw [List.mem_filter] at hdm ⊢
              refine ⟨hdm.1, ?_⟩
              have := hdm.2
              simp only [ge_iff_le, decide_eq_true_eq] at this ⊢
              omega
            have hdc := lastMaxBy_max key _ _ hl d hd2
            have hnd : ¬ key d ≥ key x := by omega
            dsimp only
            rw [if_neg hnd]
    · by_cases hxm : key x ≥ m
      · rw [List.filter_cons_of_pos (by simpa using hxm)] at h
        rw [List.filter_cons_of_neg (by simpa using hxk)]
        simp only [lastMaxBy] at h
        cases hl : lastMaxBy key (l.filter fun y => key y ≥ m) with
        | none =>
          rw [hl] at h
          dsimp only at h
          obtain rfl : x = b := Option.some_inj.mp h
          exact absurd hkb hxk
        | some c =>
          rw [hl] at h
          dsimp only at h
          by_cases hc : key c ≥ key x
          · rw [if_pos hc] at h
            obtain rfl : c = b := Option.some_inj.mp h
            exact ih _ hl hkb
          · rw [if_neg hc] at h
            obtain rfl : x = b := Option.some_inj.mp h
            exact absurd hkb hxk
      · rw [List.filter_cons_of_neg (by simpa using hxm)] at h
        rw [List.filter_cons_of_neg (by simpa using hxk)]
        exact ih _ h hkb

theorem lastMaxBy_map {α β : Type} (f : α → β) (key : β → Int) :
    ∀ l : List α, lastMaxBy key (l.map f) = (lastMaxBy (fun x => key (f x)) l).map f := by
  intro l
  induction l with
  | nil => rfl
  | cons x l ih =>
    simp only [List.map_cons, lastMaxBy, ih]
    cases lastMaxBy (fun x => key (f x)) l with
    | none => rfl
    | some b =>
      simp only [Option.map_some]
      by_cases hc : key (f b) ≥ key (f x) <;> simp [hc]


theorem orderedInsert_ne_nil (x : Int × Int × Int) (s : List (Int × Int × Int)) :
    List.orderedInsert finalKeyLe x s ≠ [] := by
  cases s with
  | nil => simp [List.orderedInsert]
  | cons y s =>
    rw [List.orderedInsert]
    split <;> simp

theorem getLast?_cons_of_ne_nil {α : Type} (y : α) (t : List α) (h : t ≠ []) :
    (y :: t).getLast? = t.getLast? := by
  cases t with
  | nil => exact absurd rfl h
  | cons z t => exact List.getLast?_cons_cons

theorem getLast?_orderedInsert_final (x : Int × Int × Int) :
    ∀ s : List (Int × Int × Int), List.Sorted finalKeyLe s →
      (List.orderedInsert finalKeyLe x s).getLast? =
        match s.getLast? with
        | none => some x
        | some b => if x.2.2 ≤ b.2.2 then some b else some x := by
  intro s
  induction s with
  | nil => intro _; rfl
  | cons y s ih =>
    intro hs
    obtain ⟨hy, hs2⟩ := List.sorted_cons.mp hs
    rw [List.orderedInsert]
    by_cases hxy : finalKeyLe x y
    · rw [if_pos hxy]
      rw [List.getLast?_cons_cons]
      cases hgl : (y :: s).getLast? with
      | none => simp at hgl
      | some b =>
        have hb : b ∈ y :: s := List.mem_of_mem_getLast? hgl
        have hyb : y.2.2 ≤ b.2.2 := by
          rcases List.mem_cons.mp hb with rfl | hb
          · exact le_refl _
          · exact hy b hb
        have hxb : x.2.2 ≤ b.2.2 := le_trans hxy hyb
        dsimp only
        rw [if_pos hxb]
    · rw [if_neg hxy]
      rw [getLast?_cons_of_ne_nil y _ (orderedInsert_ne_nil x s)]
      rw [ih hs2]
      cases s with
      | nil =>
        have : ¬ x.2.2 ≤ y.2.2 := hxy
        simp [this]
      | cons z s =>
        rw [List.getLast?_cons_cons]

theorem getLast?_insertionSort_final :
    ∀ l : List (Int × Int × Int),
      (List.insertionSort finalKeyLe l).getLast? = lastMaxBy (fun t => t.2.2) l := by
  intro l
  induction l with
  | nil => rfl
  | cons x l ih =>
    rw [List.insertionSort]
    rw [getLast?_orderedInsert_final x _ (List.sorted_insertionSort finalKeyLe l)]
    rw [ih]
    show _ = lastMaxBy (fun t => t.2.2) (x :: l)
    simp only [lastMaxBy]
    cases lastMaxBy (fun t => t.2.2) l with
    | none => rfl
    | some b =>
      simp only [ge_iff_le]

theorem finalsOf_eq (results : List (Option ResultJson)) :
    finalsOf results = ((results.filterMap id).filter fun r =>
      isFinalName (resultNameNorm r) && r.pointsTeam1.isSome && r.pointsTeam2.isSome).map
        fun r => (r.pointsTeam1.getD 0, r.pointsTeam2.getD 0, oidKey r) := by
  induction results with
  | nil => rfl
  | cons r? results ih =>
    cases r? with
    | none => simpa [finalsOf, List.filterMap_cons] using ih
    | some r =>
      by_cases hf : isFinalName (resultNameNorm r)
      · cases hp1 : r.pointsTeam1 with
        | none => simpa [finalsOf, List.filterMap_cons, List.filter_cons, hf, hp1] using ih
        | some h =>
          cases hp2 : r.pointsTeam2 with
          | none =>
            simpa [finalsOf, List.filterMap_cons, List.filter_cons, hf, hp1, hp2] using ih
          | some a =>
            simpa [finalsOf, List.filterMap_cons, List.filter_cons, hf, hp1, hp2] using ih
      · simpa [finalsOf, List.filterMap_cons, List.filter_cons, hf] using ih

theorem bestResult_foldl_eq (results : List (Option ResultJson)) :
    ∀ (m : Int) (best : Option ResultJson),
      (results.foldl bestResultStep (m, best)).2
        = (lastMaxBy oidKey ((results.filterMap id).filter fun r => oidKey r ≥ m)).or
            best := by
  induction results with
  | nil => intro m best; simp [lastMaxBy]
  | cons r? results ih =>
    intro m best
    cases r? with
    | none =>
      simpa [bestResultStep, List.filterMap_cons] using ih m best
    | some r =>
      rw [List.foldl_cons]
      by_cases hm : oidKey r ≥ m
      · have hstep : bestResultStep (m, best) (some r) = (oidKey r, some r) := by
          simp [bestResultStep, hm]
        rw [hstep, ih (oidKey r) (some r)]
        rw [List.filterMap_cons]
        simp only [id]
        rw [List.filter_cons_of_pos (by simpa using hm)]
        simp only [lastMaxBy]
        cases hAm : lastMaxBy oidKey ((results.filterMap id).filter fun x => oidKey x ≥ m)
          with
        | none =>
          have hnil : ((results.filterMap id).filter fun x => oidKey x ≥ m) = [] :=
            (lastMaxBy_eq_none oidKey _).mp hAm
          have hnil2 : ((results.filterMap id).filter fun x => oidKey x ≥ oidKey r) = [] := by
            rw [List.filter_eq_nil_iff] at hnil ⊢
            intro a ha
            simp only [ge_iff_le, decide_eq_true_eq]
            intro hak
            have := hnil a ha
            simp only [ge_iff_le, decide_eq_true_eq] at this
            omega
          rw [hnil2]
          rfl
        | some b =>
          by_cases hbk : oidKey b ≥ oidKey r
          · have := lastMaxBy_filter_mono oidKey m (oidKey r) hm (results.filterMap id) b
              hAm hbk
            rw [this]
            simp [hbk]
          · have hnil2 : ((results.filterMap id).filter fun x => oidKey x ≥ oidKey r)
                = [] := by
              rw [List.filter_eq_nil_iff]
              intro a ha
              simp only [ge_iff_le, decide_eq_true_eq]
              intro hak
              have ham : a ∈ (results.filterMap id).filter fun x => oidKey x ≥ m := by
                rw [List.mem_filter]
                refine ⟨ha, ?_⟩
                simp only [ge_iff_le, decide_eq_true_eq]
                omega
              have := lastMaxBy_max oidKey _ _ hAm a ham
              unfold oidKey at this hak hbk
              omega
            rw [hnil2]
            simp [lastMaxBy, hbk]
      · have hstep : bestResultStep (m, best) (some r) = (m, best) := by
          simp [bestResultStep, hm]
        rw [hstep, ih m best]
        rw [List.filterMap_cons]
        simp only [id]
        rw [List.filter_cons_of_neg (by simpa using hm)]

theorem bestResult_eq (results : List (Option ResultJson)) :
    bestResult results
      = lastMaxBy oidKey ((results.filterMap id).filter fun r => oidKey r ≥ -1) := by
  unfold bestResult
  rw [bestResult_foldl_eq results (-1) none]
  exact Option.or_none

theorem resultsScore_eq_amended (results : List (Option ResultJson)) :
    resultsScore results = amendedResultsScore results := by
  by_cases hemp : results.isEmpty
  · have : results = [] := by simpa using hemp
    subst this
    rfl
  · unfold resultsScore amendedResultsScore
    rw [if_neg hemp]
    rw [getLast?_insertionSort_final, finalsOf_eq, lastMaxBy_map]
    have hkey : (fun r : ResultJson =>
        ((r.pointsTeam1.getD 0, r.pointsTeam2.getD 0, oidKey r) : Int × Int × Int).2.2)
        = oidKey := rfl
    rw [hkey]
    cases hlm : lastMaxBy oidKey ((results.filterMap id).filter fun r =>
        isFinalName (resultNameNorm r) && r.pointsTeam1.isSome && r.pointsTeam2.isSome)
      with
    | none =>
      rw [bestResult_eq]
      cases hbr : lastMaxBy oidKey ((results.filterMap id).filter fun r =>
          oidKey r ≥ -1) with
      | none => rfl
      | some best =>
        cases hp1 : best.pointsTeam1 <;> cases hp2 : best.pointsTeam2 <;> rfl
    | some r =>
      have hmem := lastMaxBy_mem oidKey _ _ hlm
      have hcond := (List.mem_filter.mp hmem).2
      simp only [Bool.and_eq_true] at hcond
      obtain ⟨⟨hfn, hp1⟩, hp2⟩ := hcond
      cases h1 : r.pointsTeam1 with
      | none => rw [h1] at hp1; simp at hp1
      | some h =>
        cases h2 : r.pointsTeam2 with
        | none => rw [h2] at hp2; simp at hp2
        | some a =>
          dsimp only [Option.map]
          rw [h1, h2]
          rfl

/-- C4 amended: extract_current_score applies the amended precedence
everywhere: the last goal event when it carries both numeric values; else the
highest-ordering final-or-end-labelled entry among those carrying both
numeric values, latest on ties; else the highest-ordering entry with ordering
value at least -1, latest on ties, when it carries both numeric values; else
no score. -/
theorem extract_current_score_eq_amended (m : MatchJson) :
    extract_current_score m = extract_current_score_amended m := by
  unfold extract_current_score extract_current_score_amended
  cases scoreFromGoals m.goals with
  | some s => rfl
  | none => exact resultsScore_eq_amended m.matchResults

/-! ### Theorems: first goal of the matchday (C5) -/

theorem findSome?_minute_eq (gs : List (Option GoalJson)) :
    (gs.findSome? fun g? =>
      match g? with
      | none => none
      | some g =>
        match g.matchMinute with
        | some minute => if 0 ≤ minute ∧ minute ≤ 130 then some minute else none
        | none => none)
    = ((gs.filterMap fun g? => g?.bind fun g => g.matchMinute).filter
        fun v => 0 ≤ v ∧ v ≤ 130).head? := by
  induction gs with
  | nil => rfl
  | cons g? gs ih =>
    cases g? with
    | none => simpa [List.findSome?_cons, List.filterMap_cons] using ih
    | some g =>
      cases hm : g.matchMinute with
      | none => simpa [List.findSome?_cons, List.filterMap_cons, hm] using ih
      | some v =>
        by_cases hr : 0 ≤ v ∧ v ≤ 130
        · simp [List.findSome?_cons, List.filterMap_cons, hm, hr, List.filter_cons]
        · simpa [List.findSome?_cons, List.filterMap_cons, hm, hr, List.filter_cons]
            using ih

/-- One step of the first-goal scan expressed on a candidate triple. -/
def firstGoalCandStep (best : Option (Int × MatchRow × Int)) (c : Int × MatchRow × Int) :
    Option (Int × MatchRow × Int) :=
  match best with
  | none => some c
  | some b => if c.1 < b.1 then some c else best

theorem firstGoal_foldl_eq (rows : List (MatchRow × MatchJson)) :
    ∀ best, rows.foldl firstGoalFoldStep best
      = (firstGoalCandidates rows).foldl firstGoalCandStep best := by
  induction rows with
  | nil => intro best; rfl
  | cons r rows ih =>
    intro best
    rw [List.foldl_cons]
    cases he : extract_first_goal_minute_for_match r.2 with
    | none =>
      have h1 : firstGoalFoldStep best r = best := by
        unfold firstGoalFoldStep
        rw [he]
      have h2 : firstGoalCandidates (r :: rows) = firstGoalCandidates rows := by
        simp [firstGoalCandidates, List.filterMap_cons, he]
      rw [h1, h2, ih]
    | some minute =>
      have h1 : firstGoalFoldStep best r
          = firstGoalCandStep best (r.1.kickoff_at + minute, r.1, minute) := by
        unfold firstGoalFoldStep firstGoalCandStep
        rw [he]
      have h2 : firstGoalCandidates (r :: rows)
          = (r.1.kickoff_at + minute, r.1, minute) :: firstGoalCandidates rows := by
        simp [firstGoalCandidates, List.filterMap_cons, he]
      rw [h1, h2, List.foldl_cons, ih]

theorem candFold_spec (cands : List (Int × MatchRow × Int)) :
    ∀ best : Option (Int × MatchRow × Int),
      match cands.foldl firstGoalCandStep best with
      | none => cands = [] ∧ best = none
      | some b => (b ∈ cands ∨ best = some b)
          ∧ (∀ c ∈ cands, b.1 ≤ c.1)
          ∧ (∀ b0, best = some b0 → b.1 ≤ b0.1) := by
  induction cands with
  | nil =>
    intro best
    cases best with
    | none => exact ⟨rfl, rfl⟩
    | some b =>
      refine ⟨Or.inr rfl, ?_, ?_⟩
      · intro c hc
        simp at hc
      · intro b0 h0
        obtain rfl : b = b0 := Option.some_inj.mp h0
        exact le_refl _
  | cons c cands ih =>
    intro best
    rw [List.foldl_cons]
    have H := ih (firstGoalCandStep best c)
    cases hres : cands.foldl firstGoalCandStep (firstGoalCandStep best c) with
    | none =>
      rw [hres] at H
      obtain ⟨h1, h2⟩ := H
      exfalso
      cases best with
      | none => exact Option.noConfusion h2
      | some b1 =>
        unfold firstGoalCandStep at h2
        dsimp only at h2
        split at h2 <;> exact Option.noConfusion h2
    | some b =>
      rw [hres] at H
      obtain ⟨hmem, hmin, hble⟩ := H
      cases best with
      | none =>
        have hc : firstGoalCandStep none c = some c := rfl
        rw [hc] at hmem hble
        refine ⟨?_, ?_, ?_⟩
        · rcases hmem with hm | hm
          · exact Or.inl (List.mem_cons_of_mem _ hm)
          · obtain rfl : c = b := Option.some_inj.mp hm
            exact Or.inl (List.mem_cons_self c cands)
        · intro x hx
          rcases List.mem_cons.mp hx with rfl | hx2
          · exact hble x rfl
          · exact hmin x hx2
        · intro b0 h0
          exact Option.noConfusion h0
      | some b0 =>
        by_cases hlt : c.1 < b0.1
        · have hc : firstGoalCandStep (some b0) c = some c := by
            simp [firstGoalCandStep, hlt]
          rw [hc] at hmem hble
          refine ⟨?_, ?_, ?_⟩
          · rcases hmem with hm | hm
            · exact Or.inl (List.mem_cons_of_mem _ hm)
            · obtain rfl : c = b := Option.some_inj.mp hm
              exact Or.inl (List.mem_cons_self c cands)
          · intro x hx
            rcases List.mem_cons.mp hx with rfl | hx2
            · exact hble x rfl
            · exact hmin x hx2
          · intro b1 h1
            obtain rfl : b0 = b1 := Option.some_inj.mp h1
            have := hble c rfl
            omega
        · have hc : firstGoalCandStep (some b0) c = some b0 := by
            simp [firstGoalCandStep, hlt]
          rw [hc] at hmem hble
          refine ⟨?_, ?_, ?_⟩
          · rcases hmem with hm | hm
            · exact Or.inl (List.mem_cons_of_mem _ hm)
            · obtain rfl : b0 = b := Option.some_inj.mp hm
              exact Or.inr rfl
          · intro x hx
            rcases List.mem_cons.mp hx with rfl | hx2
            · have := hble b0 rfl
              omega
            · exact hmin x hx2
          · intro b1 h1
            obtain rfl : b0 = b1 := Option.some_inj.mp h1
            exact hble b0 rfl

/-- C5: the first-goal minute of a match is the minute of the first event in
its event list whose minute lies in the range 0 to 130, and after the
recompute the matchday first_goal_at, first_goal_match and first_goal_minute
columns hold a candidate goal (kickoff plus minute, its match, its minute)
minimizing the approximate absolute time over the imported matches of the
matchday, or all three are cleared when no imported match has such a goal. -/
theorem compute_matchday_first_goal_correct :
    (∀ m : MatchJson,
      extract_first_goal_minute_for_match m = first_goal_minute_claimed m)
    ∧ ∀ (md : MatchdayRow) (rows : List (MatchRow × MatchJson)),
        (firstGoalCandidates rows = [] →
          (compute_matchday_first_goal md rows).first_goal_at = none
          ∧ (compute_matchday_first_goal md rows).first_goal_match = none
          ∧ (compute_matchday_first_goal md rows).first_goal_minute = none)
        ∧ (firstGoalCandidates rows ≠ [] →
          ∃ c ∈ firstGoalCandidates rows,
            (∀ c2 ∈ firstGoalCandidates rows, c.1 ≤ c2.1)
            ∧ ((compute_matchday_first_goal md rows).first_goal_at = some c.1
              ∧ (compute_matchday_first_goal md rows).first_goal_match
                  = some c.2.1.openligadb_match_id
              ∧ (compute_matchday_first_goal md rows).first_goal_minute = some c.2.2)) := by
  constructor
  · intro m
    exact findSome?_minute_eq m.goals
  · intro md rows
    constructor
    · intro hnil
      unfold compute_matchday_first_goal
      rw [firstGoal_foldl_eq, hnil]
      dsimp only [List.foldl]
      by_cases hmd : md.first_goal_at ≠ none ∨ md.first_goal_match ≠ none
          ∨ md.first_goal_minute ≠ none
      · rw [if_pos hmd]
        exact ⟨rfl, rfl, rfl⟩
      · rw [if_neg hmd]
        push_neg at hmd
        exact ⟨hmd.1, hmd.2.1, hmd.2.2⟩
    · intro hne
      unfold compute_matchday_first_goal
      rw [firstGoal_foldl_eq]
      have H := candFold_spec (firstGoalCandidates rows) none
      cases hres : (firstGoalCandidates rows).foldl firstGoalCandStep none with
      | none =>
        rw [hres] at H
        exact absurd H.1 hne
      | some b =>
        rw [hres] at H
        obtain ⟨hmem, hmin, _⟩ := H
        have hbmem : b ∈ firstGoalCandidates rows := by
          rcases hmem with h | h
          · exact h
          · exact Option.noConfusion h
        obtain ⟨t, mr, minute⟩ := b
        refine ⟨(t, mr, minute), hbmem, hmin, ?_⟩
        dsimp only
        by_cases hch : md.first_goal_at ≠ some t
            ∨ md.first_goal_match ≠ some mr.openligadb_match_id
            ∨ md.first_goal_minute ≠ some minute
        · rw [if_pos hch]
          exact ⟨rfl, rfl, rfl⟩
        · rw [if_neg hch]
          push_neg at hch
          exact ⟨hch.1, hch.2.1, hch.2.2⟩

/-- Concrete match record used by witnesses: one goal event at minute 5 with
running score 0 to 1. -/
def exampleGoalRecord : MatchJson :=
  ⟨none, none, .missing, false, none, none, [some ⟨some 0, some 1, some 5⟩], [], none⟩

/-- Concrete match row used by witnesses. -/
def exampleMatchRow : MatchRow :=
  ⟨1, 1, 100, 10, 20, false⟩

/-- Concrete matchday row used by witnesses. -/
def exampleMatchday : MatchdayRow :=
  ⟨1, "", 0, none, none, none, none⟩

theorem compute_matchday_first_goal_correct_witness :
    (extract_first_goal_minute_for_match exampleGoalRecord
      = first_goal_minute_claimed exampleGoalRecord)
    ∧ firstGoalCandidates [(exampleMatchRow, exampleGoalRecord)] ≠ []
    ∧ (∃ c ∈ firstGoalCandidates [(exampleMatchRow, exampleGoalRecord)],
        (∀ c2 ∈ firstGoalCandidates [(exampleMatchRow, exampleGoalRecord)], c.1 ≤ c2.1)
        ∧ ((compute_matchday_first_goal exampleMatchday
              [(exampleMatchRow, exampleGoalRecord)]).first_goal_at = some c.1
          ∧ (compute_matchday_first_goal exampleMatchday
              [(exampleMatchRow, exampleGoalRecord)]).first_goal_match
                = some c.2.1.openligadb_match_id
          ∧ (compute_matchday_first_goal exampleMatchday
              [(exampleMatchRow, exampleGoalRecord)]).first_goal_minute = some c.2.2)) :=
  ⟨compute_matchday_first_goal_correct.1 exampleGoalRecord, by decide,
    (compute_matchday_first_goal_correct.2 exampleMatchday
      [(exampleMatchRow, exampleGoalRecord)]).2 (by decide)⟩

/-! ### Theorems: scoring (C1) and tip deadline (C9) -/

theorem tendency_eq_sign (home away : Int) : tendency home away = (home - away).sign := by
  unfold tendency
  rcases lt_trichotomy (home - away) 0 with h | h | h
  · rw [Int.sign_eq_neg_one_of_neg h, if_neg (by omega), if_pos h]
  · rw [h]
    simp
  · rw [Int.sign_eq_one_of_pos h, if_pos h]

/-- C1: for every tip and match, score_tip returns 0 when the match has no
MatchResult or either actual goal count is unknown; otherwise 5 when both
predicted values equal the actual ones; otherwise 2 exactly when the sign of
the predicted goal difference equals the sign of the actual one; otherwise 0.
Stated as equality with score_tip_claimed, the function written from the
claim text. -/
theorem score_tip_matches_claim (tip : TipRow) (result : Option MatchResultRow) :
    score_tip tip result = score_tip_claimed tip result := by
  cases result with
  | none => rfl
  | some r =>
    obtain ⟨mid, hg, ag⟩ := r
    cases hg <;> cases ag <;>
      simp [score_tip, score_tip_claimed, tendency_eq_sign, EXACT_SCORE_POINTS,
        TENDENCY_POINTS]

/-- C9: with a user and match present and non-negative predictions, a tip
upsert at a time exactly equal to the matchday deadline is accepted, any
upsert strictly after the deadline is rejected with a validation error, and
is_open_for_tipping holds exactly when now is at most deadline_at. -/
theorem tip_deadline_inclusive (tips : List TipStoredRow) (userId matchExtId : Int)
    (home away deadline_at : Int) (hh : 0 ≤ home) (ha : 0 ≤ away) :
    (∃ r, upsert_tip tips true true userId matchExtId home away deadline_at deadline_at
      = .ok r)
    ∧ (∀ now, deadline_at < now →
        ∃ msg, upsert_tip tips true true userId matchExtId home away now deadline_at
          = .error msg)
    ∧ (∀ now, is_open_for_tipping deadline_at now = true ↔ now ≤ deadline_at) := by
  refine ⟨?_, ?_, ?_⟩
  · unfold upsert_tip validate_tip_input
    rw [if_neg (by simp), if_neg (by simp), if_neg (by omega), if_neg (by omega)]
    cases hfind : tips.find? fun t => t.userId == userId && t.matchExtId == matchExtId with
    | none => exact ⟨_, rfl⟩
    | some t =>
      by_cases heq : t.home_goals_predicted = home ∧ t.away_goals_predicted = away
      · refine ⟨(tips, false, false), ?_⟩
        simp only [if_pos heq]
      · refine ⟨(tips.map fun u =>
          if u.userId == userId && u.matchExtId == matchExtId then
            { u with home_goals_predicted := home, away_goals_predicted := away }
          else u, false, true), ?_⟩
        simp only [if_neg heq]
  · intro now hnow
    unfold upsert_tip validate_tip_input
    rw [if_neg (by simp), if_neg (by simp), if_neg (by omega), if_pos (by omega)]
    exact ⟨_, rfl⟩
  · intro now
    unfold is_open_for_tipping
    simp

theorem tip_deadline_inclusive_witness :
    (∃ r, upsert_tip [] true true 7 42 2 1 100 100 = .ok r)
    ∧ (∀ now, (100:Int) < now →
        ∃ msg, upsert_tip [] true true 7 42 2 1 now 100 = .error msg)
    ∧ (∀ now, is_open_for_tipping 100 now = true ↔ now ≤ 100) :=
  tip_deadline_inclusive [] 7 42 2 1 100 (by decide) (by decide)

/-! ### Theorems: leaderboard read path (C8) -/

/-- C8: the list compute_leaderboard_for_season returns is ordered by total
points descending, then tips_points descending, then user id ascending, and
with the season entries carrying pairwise-distinct user ids the order is
strict between any two returned rows, hence total and deterministic. -/
theorem compute_leaderboard_sorted (seasonId : Int)
    (entries : List SeasonLeaderboardEntryRow)
    (hnd : ((entries.filter fun e => e.seasonId == seasonId).map
      (fun e => e.userId)).Nodup) :
    (compute_leaderboard_for_season seasonId entries).Pairwise rowBefore := by
  unfold compute_leaderboard_for_season
  rw [List.pairwise_map]
  have hsorted : List.Pairwise entryLe
      (List.insertionSort entryLe (entries.filter fun e => e.seasonId == seasonId)) :=
    List.sorted_insertionSort entryLe _
  have hperm := List.perm_insertionSort entryLe
    (entries.filter fun e => e.seasonId == seasonId)
  have hnd2 : ((List.insertionSort entryLe
      (entries.filter fun e => e.seasonId == seasonId)).map (fun e => e.userId)).Nodup :=
    ((hperm.map _).nodup_iff).mpr hnd
  rw [List.Nodup, List.pairwise_map] at hnd2
  refine (hsorted.and hnd2).imp ?_
  intro a b hab
  obtain ⟨hle, hne⟩ := hab
  unfold entryLe at hle
  unfold rowBefore toLeaderboardRow
  simp only
  omega

theorem compute_leaderboard_sorted_witness :
    (compute_leaderboard_for_season 1
      [⟨1, 2, 5, 0, 0⟩, ⟨1, 1, 3, 2, 0⟩, ⟨2, 1, 9, 9, 0⟩]).Pairwise rowBefore :=
  compute_leaderboard_sorted 1 [⟨1, 2, 5, 0, 0⟩, ⟨1, 1, 3, 2, 0⟩, ⟨2, 1, 9, 9, 0⟩]
    (by decide)

/-! ### Theorems: leaderboard recompute frame (C10) -/

theorem mem_insertUniq {acc : List Int} {a x : Int} (h : x ∈ insertUniq acc a) :
    x ∈ acc ∨ x = a := by
  unfold insertUniq at h
  split at h
  · exact .inl h
  · rcases List.mem_append.mp h with h | h
    · exact .inl h
    · exact .inr (List.mem_singleton.mp h)

theorem mem_foldl_insertUniq (l : List Int) :
    ∀ acc x, x ∈ List.foldl insertUniq acc l → x ∈ acc ∨ x ∈ l := by
  induction l with
  | nil =>
    intro acc x hx
    exact .inl hx
  | cons a l ih =>
    intro acc x hx
    rcases ih _ x hx with h | h
    · rcases mem_insertUniq h with h | h
      · exact .inl h
      · exact .inr (by simp [h])
    · exact .inr (List.mem_cons_of_mem _ h)

theorem reconcileStep_snd_sub (seasonId now : Int) (tp bp : List (Int × Int))
    (entries : List SeasonLeaderboardEntryRow)
    (acc : List SeasonLeaderboardEntryRow × List SeasonLeaderboardEntryRow) (uid : Int) :
    ∀ u ∈ (reconcileStep seasonId now tp bp entries acc uid).2,
      u ∈ acc.2 ∨ u.userId = uid := by
  intro u hu
  cases hfind : entries.find? (fun e => e.seasonId == seasonId && e.userId == uid) with
  | none =>
    simp only [reconcileStep, hfind] at hu
    exact .inl hu
  | some e =>
    simp only [reconcileStep, hfind] at hu
    split at hu
    · rcases List.mem_append.mp hu with h | h
      · exact .inl h
      · have he := List.find?_some hfind
        simp only [Bool.and_eq_true, beq_iff_eq] at he
        rw [List.mem_singleton.mp h]
        exact .inr he.2
    · exact .inl hu

theorem reconcile_mem_update (seasonId now : Int) (tp bp : List (Int × Int))
    (entries : List SeasonLeaderboardEntryRow) (uids : List Int) :
    ∀ acc u, u ∈ (uids.foldl (reconcileStep seasonId now tp bp entries) acc).2 →
      u ∈ acc.2 ∨ u.userId ∈ uids := by
  induction uids with
  | nil =>
    intro acc u h
    exact .inl h
  | cons uid uids ih =>
    intro acc u h
    rcases ih _ u h with h | h
    · rcases reconcileStep_snd_sub seasonId now tp bp entries acc uid u h with h | h
      · exact .inl h
      · exact .inr (by simp [h])
    · exact .inr (List.mem_cons_of_mem _ h)

/-- C10: recompute_leaderboard_for_season deletes nothing: an entry row whose
user has no tip and no bonus tip in the season is returned untouched, all its
columns included, and when the season has no tips and no bonus tips at all the
function returns the table unchanged together with the count 0. -/
theorem recompute_leaderboard_preserves_rows (seasonId now : Int)
    (userExists : Int → Bool)
    (tips : List ScoredTip) (bonus_tips : List ScoredBonusTip)
    (entries : List SeasonLeaderboardEntryRow) :
    (tips = [] → bonus_tips = [] →
      recompute_leaderboard_for_season seasonId now userExists tips bonus_tips entries
        = (entries, 0))
    ∧ (∀ e ∈ entries, (∀ t ∈ tips, t.userId ≠ e.userId) →
        (∀ b ∈ bonus_tips, b.userId ≠ e.userId) →
        e ∈ (recompute_leaderboard_for_season seasonId now userExists tips bonus_tips
          entries).1) := by
  constructor
  · rintro rfl rfl
    rfl
  · intro e he ht hb
    by_cases h1 : ((tips.map (·.userId) ++ bonus_tips.map (·.userId)).foldl
        insertUniq []).isEmpty
    · simp only [recompute_leaderboard_for_season, if_pos h1]
      exact he
    · by_cases h2 : (((tips.map (·.userId) ++ bonus_tips.map (·.userId)).foldl
          insertUniq []).filter userExists).isEmpty
      · simp only [recompute_leaderboard_for_season, if_neg h1, if_pos h2]
        exact he
      · simp only [recompute_leaderboard_for_season, if_neg h1, if_neg h2]
        apply List.mem_append_left
        unfold applyEntryUpdates
        have hfix : ∀ u ∈ (((tips.map (·.userId) ++ bonus_tips.map (·.userId)).foldl
            insertUniq []).filter userExists).foldl
              (reconcileStep seasonId now
                (tips.foldl (fun m t => bumpPoints m t.userId (score_tip t.tip t.result)) [])
                (bonus_tips.foldl (fun m b => bumpPoints m b.userId
                  (score_matchday_bonus b.first_goal_minute_predicted
                    b.matchday_first_goal_minute)) [])
                entries)
              ([], []) |>.2, u.userId ≠ e.userId := by
          intro u hu
          rcases reconcile_mem_update _ _ _ _ _ _ _ u hu with h | h
          · simp at h
          · have h3 := (List.mem_filter.mp h).1
            rcases mem_foldl_insertUniq _ _ _ h3 with h4 | h4
            · simp at h4
            · rcases List.mem_append.mp h4 with h5 | h5
              · obtain ⟨t, htmem, hteq⟩ := List.mem_map.mp h5
                rw [← hteq]
                exact ht t htmem
              · obtain ⟨b, hbmem, hbeq⟩ := List.mem_map.mp h5
                rw [← hbeq]
                exact hb b hbmem
        have hnone : (((tips.map (·.userId) ++ bonus_tips.map (·.userId)).foldl
            insertUniq []).filter userExists).foldl
              (reconcileStep seasonId now
                (tips.foldl (fun m t => bumpPoints m t.userId (score_tip t.tip t.result)) [])
                (bonus_tips.foldl (fun m b => bumpPoints m b.userId
                  (score_matchday_bonus b.first_goal_minute_predicted
                    b.matchday_first_goal_minute)) [])
                entries)
              ([], []) |>.2.find?
                (fun u => u.seasonId == e.seasonId && u.userId == e.userId) = none := by
          apply List.find?_eq_none.mpr
          intro u hu
          simp only [Bool.and_eq_true, beq_iff_eq, not_and]
          intro _
          exact hfix u hu
        have hmem := List.mem_map_of_mem (f := fun x =>
          match (((tips.map (·.userId) ++ bonus_tips.map (·.userId)).foldl
            insertUniq []).filter userExists).foldl
              (reconcileStep seasonId now
                (tips.foldl (fun m t => bumpPoints m t.userId (score_tip t.tip t.result)) [])
                (bonus_tips.foldl (fun m b => bumpPoints m b.userId
                  (score_matchday_bonus b.first_goal_minute_predicted
                    b.matchday_first_goal_minute)) [])
                entries)
              ([], []) |>.2.find?
                (fun u => u.seasonId == x.seasonId && u.userId == x.userId) with
          | some u => u
          | none => x) he
        simp only [hnone] at hmem
        exact hmem

theorem recompute_leaderboard_preserves_rows_witness :
    (([] : List ScoredTip) = [] → ([] : List ScoredBonusTip) = [] →
      recompute_leaderboard_for_season 1 50 (fun _ => true) [] []
        [⟨1, 7, 3, 2, 9⟩] = ([⟨1, 7, 3, 2, 9⟩], 0))
    ∧ (∀ e ∈ [(⟨1, 7, 3, 2, 9⟩ : SeasonLeaderboardEntryRow)],
        (∀ t ∈ ([] : List ScoredTip), t.userId ≠ e.userId) →
        (∀ b ∈ ([] : List ScoredBonusTip), b.userId ≠ e.userId) →
        e ∈ (recompute_leaderboard_for_season 1 50 (fun _ => true) [] []
          [⟨1, 7, 3, 2, 9⟩]).1) :=
  recompute_leaderboard_preserves_rows 1 50 (fun _ => true) [] [] [⟨1, 7, 3, 2, 9⟩]

end PredictionGame
